import Mathlib

/-!
# BrowserWing: the locator engine, the RefID resolver, batches and the agent handlers

A shallow embedding of `backend/executor/role_xpath.go`, of the RefID cache and the
batch execution of `backend/executor/executor.go`, of `backend/agent/tools/webfetch.go`
and of the handlers of `backend/agent/handlers.go` that set the model configuration
and stream a reply, followed by the properties proved about them.

Go strings are byte sequences; `len` and slicing count bytes. The embedding keeps
that: a string is a list of bytes, and a text constant stands for its UTF-8 bytes.
-/

set_option maxRecDepth 100000

namespace BrowserWing

/-! ## Go strings and the library functions the code calls -/

/-- A Go `string`: an immutable sequence of bytes (`len(s)` is `s.length`). -/
abbrev GoString := List UInt8

/-- The bytes of a string constant: Go source text is UTF-8. -/
def utf8 (s : String) : GoString := s.data.flatMap String.utf8EncodeChar

/-- `strings.Contains(s, substr)`: `substr` occurs in `s` as a contiguous run of bytes. -/
def Contains : GoString → GoString → Bool
  | [], substr => substr.isEmpty
  | c :: s, substr => substr.isPrefixOf (c :: s) || Contains s substr

/-- `strings.Split(s, sep)` for a separator of one byte, the only use the code makes of it:
the pieces of `s` between occurrences of `sep` (one piece more than occurrences). -/
def Split (s : GoString) (sep : UInt8) : List GoString := s.splitOn sep

/-- The `asciiSpace` table of package `strings`: tab, line feed, vertical tab, form
feed, carriage return and space. -/
def asciiSpace (c : UInt8) : Bool :=
  c == 9 || c == 10 || c == 11 || c == 12 || c == 13 || c == 32

/-- Width in bytes of a white-space rune at the front of `s`, or `0` when `s` does not
start with one. The white-space runes are those of `unicode.IsSpace`: the six ASCII
ones, U+0085, U+00A0, U+1680, U+2000..U+200A, U+2028, U+2029, U+202F, U+205F and
U+3000, each recognised by its (unique) UTF-8 encoding; bytes that are not valid
UTF-8 decode to `RuneError`, which is not white space. -/
def leadingSpaceWidth : GoString → Nat
  | [] => 0
  | c :: rest =>
    if asciiSpace c then 1
    else match c, rest with
      | 0xC2, d :: _ => if d == 0x85 || d == 0xA0 then 2 else 0
      | 0xE1, d :: e :: _ => if d == 0x9A && e == 0x80 then 3 else 0
      | 0xE2, d :: e :: _ =>
        if d == 0x80 && ((0x80 ≤ e && e ≤ 0x8A) || e == 0xA8 || e == 0xA9 || e == 0xAF) then 3
        else if d == 0x81 && e == 0x9F then 3
        else 0
      | 0xE3, d :: e :: _ => if d == 0x80 && e == 0x80 then 3 else 0
      | _, _ => 0

/-- Width in bytes of a white-space rune at the end of a string, given the string
reversed (`utf8.DecodeLastRuneInString` followed by `unicode.IsSpace`). -/
def trailingSpaceWidth : GoString → Nat
  | [] => 0
  | c :: rest =>
    if asciiSpace c then 1
    else match rest with
      | d :: more =>
        if d == 0xC2 && (c == 0x85 || c == 0xA0) then 2
        else match more with
          | e :: _ =>
            if e == 0xE1 && d == 0x9A && c == 0x80 then 3
            else if e == 0xE2 && d == 0x80 &&
                ((0x80 ≤ c && c ≤ 0x8A) || c == 0xA8 || c == 0xA9 || c == 0xAF) then 3
            else if e == 0xE2 && d == 0x81 && c == 0x9F then 3
            else if e == 0xE3 && d == 0x80 && c == 0x80 then 3
            else 0
          | [] => 0
      | [] => 0

/-- Drop white-space runes from the front, at most `fuel` of them. -/
def trimLeftFuel : Nat → GoString → GoString
  | 0, s => s
  | fuel + 1, s =>
    match leadingSpaceWidth s with
    | 0 => s
    | w => trimLeftFuel fuel (s.drop w)

/-- Drop white-space runes from the front of a reversed string (the end of the
string), at most `fuel` of them. -/
def trimRightFuel : Nat → GoString → GoString
  | 0, s => s
  | fuel + 1, s =>
    match trailingSpaceWidth s with
    | 0 => s
    | w => trimRightFuel fuel (s.drop w)

/-- `strings.TrimLeftFunc(s, unicode.IsSpace)`. A string holds at most `len(s)` runes. -/
def TrimLeftSpace (s : GoString) : GoString := trimLeftFuel s.length s

/-- `strings.TrimRightFunc(s, unicode.IsSpace)`. -/
def TrimRightSpace (s : GoString) : GoString :=
  (trimRightFuel s.length s.reverse).reverse

/-- `strings.TrimSpace(s)`: `s` without leading and trailing white space, as Unicode
defines it. (The library first skips ASCII white space byte by byte and falls back to
`TrimFunc(s, unicode.IsSpace)` at the first non-ASCII byte; both paths compute this.) -/
def TrimSpace (s : GoString) : GoString := TrimRightSpace (TrimLeftSpace s)

/-- Lower-casing of one ASCII byte: `'A'..'Z'` move to `'a'..'z'`. -/
def asciiLower (c : UInt8) : UInt8 := if 65 ≤ c && c ≤ 90 then c + 32 else c

/-- `strings.ToLower(s)`. A string of ASCII bytes only is lower-cased byte by byte. Any
other string goes through `strings.Map(unicode.ToLower, s)`, which depends on the
Unicode case tables; that function is the parameter `mapLower`. -/
def ToLower (mapLower : GoString → GoString) (s : GoString) : GoString :=
  if s.all (fun c => c < 0x80) then s.map asciiLower else mapLower s

/-- Decimal digits of `n`, most significant first, in front of `acc`. -/
def digitsFuel : Nat → Nat → List UInt8 → List UInt8
  | 0, _, acc => acc
  | fuel + 1, n, acc =>
    if n < 10 then (48 + n).toUInt8 :: acc
    else digitsFuel fuel (n / 10) ((48 + n % 10).toUInt8 :: acc)

/-- `strconv.Itoa` on a non-negative integer (what `%d` prints for it). -/
def Itoa (n : Nat) : GoString := digitsFuel (n + 1) n []

/-- What `%d` prints for an integer. -/
def formatInt : Int → GoString
  | Int.ofNat n => Itoa n
  | Int.negSucc n => utf8 "-" ++ Itoa (n + 1)

/-- An operand of `fmt.Sprintf`: the code passes strings and ints only. -/
inductive Arg where
  | str (s : GoString)
  | int (n : Int)
  deriving DecidableEq

/-- How `fmt` names an operand in its `%!(EXTRA ...)` and bad-verb reports. -/
def Arg.typed : Arg → GoString
  | .str s => utf8 "string=" ++ s
  | .int n => utf8 "int=" ++ formatInt n

/-- `fmt.Sprintf` for formats whose verbs are `%s` and `%d`, the only ones in the
code: bytes are copied up to a verb, the verb prints the next operand (`%s` a string,
`%d` an int in decimal; a missing operand prints `%!s(MISSING)`, an operand of the other
type prints `%!s(int=5)` or `%!d(string=x)`), and operands left over are reported
after the text. -/
def Sprintf : GoString → List Arg → GoString
  | [], [] => []
  | [], a :: args =>
    utf8 "%!(EXTRA " ++ (utf8 ", ").intercalate ((a :: args).map Arg.typed) ++ utf8 ")"
  | 37 :: 115 :: rest, .str s :: args => s ++ Sprintf rest args
  | 37 :: 115 :: rest, .int n :: args =>
    utf8 "%!s(int=" ++ formatInt n ++ utf8 ")" ++ Sprintf rest args
  | 37 :: 115 :: rest, [] => utf8 "%!s(MISSING)" ++ Sprintf rest []
  | 37 :: 100 :: rest, .int n :: args => formatInt n ++ Sprintf rest args
  | 37 :: 100 :: rest, .str s :: args =>
    utf8 "%!d(string=" ++ s ++ utf8 ")" ++ Sprintf rest args
  | 37 :: 100 :: rest, [] => utf8 "%!d(MISSING)" ++ Sprintf rest []
  | c :: rest, args => c :: Sprintf rest args

/-- The operand list `name, name, ..., name` (`k` times). -/
def strArgs (k : Nat) (name : GoString) : List Arg := List.replicate k (Arg.str name)

/-! ## `role_xpath.go` -/

/-- The loop of `escapeXPathString` over the pieces of the name: from the second piece
on, the literal `"'"` is appended, and every non-empty piece is appended between single
quotes. `i` is the index of the piece at the head. -/
def escapeParts : Nat → List GoString → List GoString → List GoString
  | _, [], result => result
  | i, part :: parts, result =>
    let result := if i > 0 then result ++ [utf8 "\"'\""] else result
    let result := if part ≠ [] then result ++ [utf8 "'" ++ part ++ utf8 "'"] else result
    escapeParts (i + 1) parts result

/-- `escapeXPathString`: every path of the function returns `s` itself; the pieces
assembled for the `concat(...)` form are computed and then dropped. -/
def escapeXPathString (s : GoString) : GoString :=
  if !Contains s (utf8 "'") then s
  else if !Contains s (utf8 "\"") then s
  else
    let parts := Split s 39
    let result := escapeParts 0 parts []
    if result.length = 0 then s
    else s

/-- The role-only expression of `buildButtonXPath`, returned for an empty name. -/
def buttonRoleOnly : GoString :=
  utf8 "//button | //input[@type='button'] | //input[@type='submit'] | //input[@type='reset'] | //*[@role='button']"

/-- The format string of `buildButtonXPath` for a name longer than 20 bytes. -/
def buttonContainsFormat : GoString :=
  utf8 "(\n\t\t\t//button[contains(normalize-space(.), '%s')] |\n\t\t\t//input[@type='button' and contains(@value, '%s')] |\n\t\t\t//input[@type='submit' and contains(@value, '%s')] |\n\t\t\t//input[@type='reset' and contains(@value, '%s')] |\n\t\t\t//button[contains(@aria-label, '%s')] |\n\t\t\t//*[@role='button' and contains(normalize-space(.), '%s')] |\n\t\t\t//*[@role='button' and contains(@aria-label, '%s')]\n\t\t)"

/-- The format string of `buildButtonXPath` for a name of at most 20 bytes. -/
def buttonFormat : GoString :=
  utf8 "(\n\t\t//button[normalize-space(.)='%s'] |\n\t\t//input[@type='button' and @value='%s'] |\n\t\t//input[@type='submit' and @value='%s'] |\n\t\t//input[@type='reset' and @value='%s'] |\n\t\t//button[@aria-label='%s'] |\n\t\t//*[@role='button' and normalize-space(.)='%s'] |\n\t\t//*[@role='button' and @aria-label='%s']\n\t)"

/-- `buildButtonXPath`: the locator for buttons. `name[:20]` is the first 20 bytes. -/
def buildButtonXPath (name : GoString) : GoString :=
  if name = [] then buttonRoleOnly
  else if name.length > 20 then
    let shortName := if name.length > 20 then name.take 20 else name
    Sprintf buttonContainsFormat (strArgs 7 shortName)
  else Sprintf buttonFormat (strArgs 7 name)

/-- The role-only expression of `buildLinkXPath`, returned for an empty name. -/
def linkRoleOnly : GoString :=
  utf8 "//a[@href] | //*[@role='link']"

/-- The format string of `buildLinkXPath` for a name longer than 30 bytes. -/
def linkContainsFormat : GoString :=
  utf8 "(\n\t\t\t//a[@href and contains(normalize-space(.), '%s')] |\n\t\t\t//a[@href and contains(@aria-label, '%s')] |\n\t\t\t//a[@href and contains(@title, '%s')] |\n\t\t\t//*[@role='link' and contains(normalize-space(.), '%s')] |\n\t\t\t//*[@role='link' and contains(@aria-label, '%s')]\n\t\t)"

/-- The format string of `buildLinkXPath` for a name of at most 30 bytes. -/
def linkFormat : GoString :=
  utf8 "(\n\t\t//a[@href and normalize-space(.)='%s'] |\n\t\t//a[@href and @aria-label='%s'] |\n\t\t//a[@href and @title='%s'] |\n\t\t//*[@role='link' and normalize-space(.)='%s'] |\n\t\t//*[@role='link' and @aria-label='%s']\n\t)"

/-- `buildLinkXPath`: the locator for links. `name[:30]` is the first 30 bytes. -/
def buildLinkXPath (name : GoString) : GoString :=
  if name = [] then linkRoleOnly
  else if name.length > 30 then
    let shortName := if name.length > 30 then name.take 30 else name
    Sprintf linkContainsFormat (strArgs 5 shortName)
  else Sprintf linkFormat (strArgs 5 name)

/-- The role-only expression of `buildTextboxXPath`, returned for an empty name. -/
def textboxRoleOnly : GoString :=
  utf8 "(\n\t\t\t//input[@type='text'] | \n\t\t\t//input[@type='email'] | \n\t\t\t//input[@type='password'] | \n\t\t\t//input[@type='search'] | \n\t\t\t//input[@type='tel'] | \n\t\t\t//input[@type='url'] | \n\t\t\t//input[@type='number'] | \n\t\t\t//input[not(@type)] | \n\t\t\t//textarea |\n\t\t\t//*[@role='textbox'] |\n\t\t\t//*[@role='searchbox']\n\t\t)"

/-- The format string of `buildTextboxXPath` for a non-empty name (23 `%s` verbs). -/
def textboxFormat : GoString :=
  utf8 "(\n\t\t//input[@type='text' and (@placeholder='%s' or @aria-label='%s')] |\n\t\t//input[@type='email' and (@placeholder='%s' or @aria-label='%s')] |\n\t\t//input[@type='password' and (@placeholder='%s' or @aria-label='%s')] |\n\t\t//input[@type='search' and (@placeholder='%s' or @aria-label='%s')] |\n\t\t//input[@type='tel' and (@placeholder='%s' or @aria-label='%s')] |\n\t\t//input[@type='url' and (@placeholder='%s' or @aria-label='%s')] |\n\t\t//input[@type='number' and (@placeholder='%s' or @aria-label='%s')] |\n\t\t//input[not(@type) and (@placeholder='%s' or @aria-label='%s')] |\n\t\t//textarea[@placeholder='%s' or @aria-label='%s'] |\n\t\t//*[@role='textbox' and (@placeholder='%s' or @aria-label='%s')] |\n\t\t//*[@role='searchbox' and (@placeholder='%s' or @aria-label='%s')] |\n\t\t//input[@id=//label[normalize-space(.)='%s']/@for]\n\t)"

/-- `buildTextboxXPath`: the locator for text boxes and search boxes. -/
def buildTextboxXPath (name : GoString) : GoString :=
  if name = [] then textboxRoleOnly
  else Sprintf textboxFormat (strArgs 23 name)

/-- The role-only expression of `buildCheckboxXPath`, returned for an empty name. -/
def checkboxRoleOnly : GoString :=
  utf8 "//input[@type='checkbox'] | //*[@role='checkbox']"

/-- The format string of `buildCheckboxXPath` for a non-empty name (4 `%s` verbs). -/
def checkboxFormat : GoString :=
  utf8 "(\n\t\t//input[@type='checkbox' and @aria-label='%s'] |\n\t\t//input[@type='checkbox' and @id=//label[normalize-space(.)='%s']/@for] |\n\t\t//*[@role='checkbox' and (@aria-label='%s' or normalize-space(.)='%s')]\n\t)"

/-- `buildCheckboxXPath`: the locator for check boxes. -/
def buildCheckboxXPath (name : GoString) : GoString :=
  if name = [] then checkboxRoleOnly
  else Sprintf checkboxFormat (strArgs 4 name)

/-- The role-only expression of `buildRadioXPath`, returned for an empty name. -/
def radioRoleOnly : GoString :=
  utf8 "//input[@type='radio'] | //*[@role='radio']"

/-- The format string of `buildRadioXPath` for a non-empty name (4 `%s` verbs). -/
def radioFormat : GoString :=
  utf8 "(\n\t\t//input[@type='radio' and @aria-label='%s'] |\n\t\t//input[@type='radio' and @id=//label[normalize-space(.)='%s']/@for] |\n\t\t//*[@role='radio' and (@aria-label='%s' or normalize-space(.)='%s')]\n\t)"

/-- `buildRadioXPath`: the locator for radio buttons. -/
def buildRadioXPath (name : GoString) : GoString :=
  if name = [] then radioRoleOnly
  else Sprintf radioFormat (strArgs 4 name)

/-- The role-only expression of `buildComboboxXPath`, returned for an empty name. -/
def comboboxRoleOnly : GoString :=
  utf8 "//select | //*[@role='combobox'] | //*[@role='listbox']"

/-- The format string of `buildComboboxXPath` for a non-empty name (6 `%s` verbs). -/
def comboboxFormat : GoString :=
  utf8 "(\n\t\t//select[@aria-label='%s'] |\n\t\t//select[@id=//label[normalize-space(.)='%s']/@for] |\n\t\t//*[@role='combobox' and (@aria-label='%s' or normalize-space(.)='%s')] |\n\t\t//*[@role='listbox' and (@aria-label='%s' or normalize-space(.)='%s')]\n\t)"

/-- `buildComboboxXPath`: the locator for combo boxes and list boxes. -/
def buildComboboxXPath (name : GoString) : GoString :=
  if name = [] then comboboxRoleOnly
  else Sprintf comboboxFormat (strArgs 6 name)

/-- The role-only expression of `buildHeadingXPath`, returned for an empty name. -/
def headingRoleOnly : GoString :=
  utf8 "//h1 | //h2 | //h3 | //h4 | //h5 | //h6 | //*[@role='heading']"

/-- The format string of `buildHeadingXPath` for a non-empty name (7 `%s` verbs). -/
def headingFormat : GoString :=
  utf8 "(\n\t\t//h1[normalize-space(.)='%s'] |\n\t\t//h2[normalize-space(.)='%s'] |\n\t\t//h3[normalize-space(.)='%s'] |\n\t\t//h4[normalize-space(.)='%s'] |\n\t\t//h5[normalize-space(.)='%s'] |\n\t\t//h6[normalize-space(.)='%s'] |\n\t\t//*[@role='heading' and normalize-space(.)='%s']\n\t)"

/-- `buildHeadingXPath`: the locator for headings. -/
def buildHeadingXPath (name : GoString) : GoString :=
  if name = [] then headingRoleOnly
  else Sprintf headingFormat (strArgs 7 name)

/-- The role-only expression of `buildListXPath`, returned for an empty name. -/
def listRoleOnly : GoString :=
  utf8 "//ul | //ol | //*[@role='list']"

/-- The format string of `buildListXPath` for a non-empty name (3 `%s` verbs). -/
def listFormat : GoString :=
  utf8 "(\n\t\t//ul[@aria-label='%s'] |\n\t\t//ol[@aria-label='%s'] |\n\t\t//*[@role='list' and @aria-label='%s']\n\t)"

/-- `buildListXPath`: the locator for lists. -/
def buildListXPath (name : GoString) : GoString :=
  if name = [] then listRoleOnly
  else Sprintf listFormat (strArgs 3 name)

/-- The role-only expression of `buildListItemXPath`, returned for an empty name. -/
def listItemRoleOnly : GoString :=
  utf8 "//li | //*[@role='listitem']"

/-- The format string of `buildListItemXPath` for a non-empty name (4 `%s` verbs). -/
def listItemFormat : GoString :=
  utf8 "(\n\t\t//li[normalize-space(.)='%s'] |\n\t\t//li[@aria-label='%s'] |\n\t\t//*[@role='listitem' and (normalize-space(.)='%s' or @aria-label='%s')]\n\t)"

/-- `buildListItemXPath`: the locator for list items. -/
def buildListItemXPath (name : GoString) : GoString :=
  if name = [] then listItemRoleOnly
  else Sprintf listItemFormat (strArgs 4 name)

/-- The role-only expression of `buildCellXPath`, returned for an empty name. -/
def cellRoleOnly : GoString :=
  utf8 "//td | //th | //*[@role='cell'] | //*[@role='gridcell']"

/-- The format string of `buildCellXPath` for a non-empty name (4 `%s` verbs). -/
def cellFormat : GoString :=
  utf8 "(\n\t\t//td[normalize-space(.)='%s'] |\n\t\t//th[normalize-space(.)='%s'] |\n\t\t//*[@role='cell' and normalize-space(.)='%s'] |\n\t\t//*[@role='gridcell' and normalize-space(.)='%s']\n\t)"

/-- `buildCellXPath`: the locator for table cells. -/
def buildCellXPath (name : GoString) : GoString :=
  if name = [] then cellRoleOnly
  else Sprintf cellFormat (strArgs 4 name)

/-- The role-only expression of `buildRowXPath`, returned for an empty name. -/
def rowRoleOnly : GoString :=
  utf8 "//tr | //*[@role='row']"

/-- The format string of `buildRowXPath` for a non-empty name (2 `%s` verbs). -/
def rowFormat : GoString :=
  utf8 "(\n\t\t//tr[@aria-label='%s'] |\n\t\t//*[@role='row' and @aria-label='%s']\n\t)"

/-- `buildRowXPath`: the locator for table rows. -/
def buildRowXPath (name : GoString) : GoString :=
  if name = [] then rowRoleOnly
  else Sprintf rowFormat (strArgs 2 name)

/-- The role-only expression of `buildMenuItemXPath`, returned for an empty name. -/
def menuItemRoleOnly : GoString :=
  utf8 "//*[@role='menuitem'] | //*[@role='menuitemcheckbox'] | //*[@role='menuitemradio']"

/-- The format string of `buildMenuItemXPath` for a non-empty name (6 `%s` verbs). -/
def menuItemFormat : GoString :=
  utf8 "(\n\t\t//*[@role='menuitem' and (normalize-space(.)='%s' or @aria-label='%s')] |\n\t\t//*[@role='menuitemcheckbox' and (normalize-space(.)='%s' or @aria-label='%s')] |\n\t\t//*[@role='menuitemradio' and (normalize-space(.)='%s' or @aria-label='%s')]\n\t)"

/-- `buildMenuItemXPath`: the locator for menu items. -/
def buildMenuItemXPath (name : GoString) : GoString :=
  if name = [] then menuItemRoleOnly
  else Sprintf menuItemFormat (strArgs 6 name)

/-- The role-only expression of `buildTabXPath`, returned for an empty name. -/
def tabRoleOnly : GoString :=
  utf8 "//*[@role='tab']"

/-- The format string of `buildTabXPath` for a non-empty name (2 `%s` verbs). -/
def tabFormat : GoString :=
  utf8 "//*[@role='tab' and (normalize-space(.)='%s' or @aria-label='%s')]"

/-- `buildTabXPath`: the locator for tabs. -/
def buildTabXPath (name : GoString) : GoString :=
  if name = [] then tabRoleOnly
  else Sprintf tabFormat (strArgs 2 name)

/-- The role-only expression of `buildArticleXPath`, returned for an empty name. -/
def articleRoleOnly : GoString :=
  utf8 "//article | //*[@role='article']"

/-- The format string of `buildArticleXPath` for a non-empty name (2 `%s` verbs). -/
def articleFormat : GoString :=
  utf8 "(\n\t\t//article[@aria-label='%s'] |\n\t\t//*[@role='article' and @aria-label='%s']\n\t)"

/-- `buildArticleXPath`: the locator for articles. -/
def buildArticleXPath (name : GoString) : GoString :=
  if name = [] then articleRoleOnly
  else Sprintf articleFormat (strArgs 2 name)

/-- The role-only expression of `buildRegionXPath`, returned for an empty name. -/
def regionRoleOnly : GoString :=
  utf8 "//section | //*[@role='region']"

/-- The format string of `buildRegionXPath` for a non-empty name (2 `%s` verbs). -/
def regionFormat : GoString :=
  utf8 "(\n\t\t//section[@aria-label='%s'] |\n\t\t//*[@role='region' and @aria-label='%s']\n\t)"

/-- `buildRegionXPath`: the locator for regions. -/
def buildRegionXPath (name : GoString) : GoString :=
  if name = [] then regionRoleOnly
  else Sprintf regionFormat (strArgs 2 name)

/-- The role-only expression of `buildNavigationXPath`, returned for an empty name. -/
def navigationRoleOnly : GoString :=
  utf8 "//nav | //*[@role='navigation']"

/-- The format string of `buildNavigationXPath` for a non-empty name (2 `%s` verbs). -/
def navigationFormat : GoString :=
  utf8 "(\n\t\t//nav[@aria-label='%s'] |\n\t\t//*[@role='navigation' and @aria-label='%s']\n\t)"

/-- `buildNavigationXPath`: the locator for navigation landmarks. -/
def buildNavigationXPath (name : GoString) : GoString :=
  if name = [] then navigationRoleOnly
  else Sprintf navigationFormat (strArgs 2 name)

/-- The role-only expression of `buildMainXPath`, returned for an empty name. -/
def mainRoleOnly : GoString :=
  utf8 "//main | //*[@role='main']"

/-- The format string of `buildMainXPath` for a non-empty name (2 `%s` verbs). -/
def mainFormat : GoString :=
  utf8 "(\n\t\t//main[@aria-label='%s'] |\n\t\t//*[@role='main' and @aria-label='%s']\n\t)"

/-- `buildMainXPath`: the locator for the main landmark. -/
def buildMainXPath (name : GoString) : GoString :=
  if name = [] then mainRoleOnly
  else Sprintf mainFormat (strArgs 2 name)

/-- The role-only expression of `buildBannerXPath`, returned for an empty name. -/
def bannerRoleOnly : GoString :=
  utf8 "//header | //*[@role='banner']"

/-- The format string of `buildBannerXPath` for a non-empty name (2 `%s` verbs). -/
def bannerFormat : GoString :=
  utf8 "(\n\t\t//header[@aria-label='%s'] |\n\t\t//*[@role='banner' and @aria-label='%s']\n\t)"

/-- `buildBannerXPath`: the locator for the banner landmark. -/
def buildBannerXPath (name : GoString) : GoString :=
  if name = [] then bannerRoleOnly
  else Sprintf bannerFormat (strArgs 2 name)

/-- The role-only expression of `buildContentinfoXPath`, returned for an empty name. -/
def contentinfoRoleOnly : GoString :=
  utf8 "//footer | //*[@role='contentinfo']"

/-- The format string of `buildContentinfoXPath` for a non-empty name (2 `%s` verbs). -/
def contentinfoFormat : GoString :=
  utf8 "(\n\t\t//footer[@aria-label='%s'] |\n\t\t//*[@role='contentinfo' and @aria-label='%s']\n\t)"

/-- `buildContentinfoXPath`: the locator for the contentinfo landmark. -/
def buildContentinfoXPath (name : GoString) : GoString :=
  if name = [] then contentinfoRoleOnly
  else Sprintf contentinfoFormat (strArgs 2 name)

/-- The role-only expression of `buildComplementaryXPath`, returned for an empty name. -/
def complementaryRoleOnly : GoString :=
  utf8 "//aside | //*[@role='complementary']"

/-- The format string of `buildComplementaryXPath` for a non-empty name (2 `%s` verbs). -/
def complementaryFormat : GoString :=
  utf8 "(\n\t\t//aside[@aria-label='%s'] |\n\t\t//*[@role='complementary' and @aria-label='%s']\n\t)"

/-- `buildComplementaryXPath`: the locator for the complementary landmark. -/
def buildComplementaryXPath (name : GoString) : GoString :=
  if name = [] then complementaryRoleOnly
  else Sprintf complementaryFormat (strArgs 2 name)

/-- The format string of the fallback of `buildXPathFromRole` for a non-empty name. -/
def fallbackFormat : GoString :=
  utf8 "//*[@role='%s' and (normalize-space(.)='%s' or @aria-label='%s')]"

/-- The format string of the fallback of `buildXPathFromRole` for an empty name. -/
def fallbackRoleOnlyFormat : GoString :=
  utf8 "//*[@role='%s']"

/-- `buildXPathFromRole`: the locator for an ARIA role and an accessible name. The
`switch` over the normalised role is the chain of comparisons below, in the order of
its `case` lists. -/
def buildXPathFromRole (mapLower : GoString → GoString) (role name : GoString) : GoString :=
  let role := ToLower mapLower (TrimSpace role)
  let name := TrimSpace name
  let escapedName := escapeXPathString name
  if role = utf8 "button" then buildButtonXPath escapedName
  else if role = utf8 "link" then buildLinkXPath escapedName
  else if role = utf8 "textbox" ∨ role = utf8 "searchbox" then buildTextboxXPath escapedName
  else if role = utf8 "checkbox" then buildCheckboxXPath escapedName
  else if role = utf8 "radio" then buildRadioXPath escapedName
  else if role = utf8 "combobox" ∨ role = utf8 "listbox" then buildComboboxXPath escapedName
  else if role = utf8 "heading" then buildHeadingXPath escapedName
  else if role = utf8 "list" then buildListXPath escapedName
  else if role = utf8 "listitem" then buildListItemXPath escapedName
  else if role = utf8 "cell" ∨ role = utf8 "gridcell" then buildCellXPath escapedName
  else if role = utf8 "row" then buildRowXPath escapedName
  else if role = utf8 "menuitem" then buildMenuItemXPath escapedName
  else if role = utf8 "tab" then buildTabXPath escapedName
  else if role = utf8 "article" then buildArticleXPath escapedName
  else if role = utf8 "region" ∨ role = utf8 "section" then buildRegionXPath escapedName
  else if role = utf8 "navigation" ∨ role = utf8 "nav" then buildNavigationXPath escapedName
  else if role = utf8 "main" then buildMainXPath escapedName
  else if role = utf8 "banner" then buildBannerXPath escapedName
  else if role = utf8 "contentinfo" then buildContentinfoXPath escapedName
  else if role = utf8 "complementary" then buildComplementaryXPath escapedName
  else if name ≠ [] then
    Sprintf fallbackFormat [.str role, .str escapedName, .str escapedName]
  else Sprintf fallbackRoleOnlyFormat [.str role]

/-! ## `executor.go`: the RefID cache -/

/-- A Go `map[K]V` as a list of bindings, at most one per key; the `nil` map and the
empty map are both `[]` where the code only reads and `make`s maps. -/
abbrev GoMap (κ ν : Type) := List (κ × ν)

/-- The two-result read `v, ok := m[k]`: `none` when the key is absent. -/
def GoMap.lookup {κ ν : Type} [DecidableEq κ] : GoMap κ ν → κ → Option ν
  | [], _ => none
  | (k', v) :: m, k => if k' = k then some v else GoMap.lookup m k

/-- The write `m[k] = v`: the binding of `k` is replaced or added. -/
def GoMap.store {κ ν : Type} [DecidableEq κ] (m : GoMap κ ν) (k : κ) (v : ν) : GoMap κ ν :=
  (k, v) :: m.filter (fun kv => kv.1 ≠ k)

/-- The fields of `AccessibilityNode` that `assignRefIDs` reads and writes (the type is
declared in another file of the package). `Attributes` is a `map[string]string` that
may be `nil` (`none`); `RefID` is the empty string until a handle is assigned. -/
structure AccessibilityNode where
  Role : GoString
  Label : GoString
  Placeholder : GoString
  Attributes : Option (GoMap GoString GoString)
  BackendNodeID : Int
  RefID : GoString
  deriving DecidableEq

/-- The fields of `RefData` that `assignRefIDs` fills (the type is declared in another
file of the package); a field the code leaves out of the literal has its zero value. -/
structure RefData where
  Role : GoString
  Name : GoString
  Nth : Nat
  BackendID : Int
  Href : GoString
  Placeholder : GoString
  Attributes : GoMap GoString GoString
  deriving DecidableEq

/-- A `*AccessibilityNode`: nodes are shared by pointer between the lists of a snapshot. -/
abbrev NodePtr := Nat

/-- The memory the node pointers point into. -/
abbrev Heap := NodePtr → AccessibilityNode

/-- An `*AccessibilitySnapshot`, seen through the two methods `assignRefIDs` calls on
it: what `GetClickableElements()` and `GetInputElements()` return (both are
declared in another file of the package). -/
structure AccessibilitySnapshot where
  clickables : List NodePtr
  inputs : List NodePtr
  deriving DecidableEq

/-- The RefID cache fields of `Executor`. Times are instants and durations in
nanoseconds; `refIDSnapshot` is `nil` (`none`) until a snapshot is cached. The counter
is a Go `int`; it grows by one per handle from `0` and cannot reach `2^63`. -/
structure Executor where
  refIDMap : GoMap GoString RefData
  refIDCounter : Nat
  refIDSnapshot : Option AccessibilitySnapshot
  refIDTimestamp : Int
  refIDTTL : Int

/-- The variables live across the two loops of `assignRefIDs`. -/
structure AssignState where
  heap : Heap
  refIDMap : GoMap GoString RefData
  refIDCounter : Nat
  roleNameCounter : GoMap GoString Nat

/-- The statements that store `id` and `class` of the node in `refData.Attributes`,
each when present and non-empty. -/
def storeKeyAttributes (node : AccessibilityNode) (refData : RefData) : RefData :=
  match node.Attributes with
  | none => refData
  | some attrs =>
    let refData :=
      match attrs.lookup (utf8 "id") with
      | some id =>
        if id ≠ [] then { refData with Attributes := refData.Attributes.store (utf8 "id") id }
        else refData
      | none => refData
    match attrs.lookup (utf8 "class") with
    | some cls =>
      if cls ≠ [] then
        { refData with Attributes := refData.Attributes.store (utf8 "class") cls }
      else refData
    | none => refData

/-- The key `fmt.Sprintf("%s:%s", node.Role, node.Label)` of `roleNameCounter`. -/
def roleNameKey (node : AccessibilityNode) : GoString :=
  Sprintf (utf8 "%s:%s") [.str node.Role, .str node.Label]

/-- The handle `fmt.Sprintf("e%d", e.refIDCounter)`. -/
def refIDFor (refIDCounter : Nat) : GoString :=
  Sprintf (utf8 "e%d") [.int refIDCounter]

/-- The `refData` the first loop builds for a clickable node: the literal, then `href`
for a link whose attribute map is not `nil` and has the key, then `id` and `class`. -/
def clickableRefData (node : AccessibilityNode) (nth : Nat) : RefData :=
  let refData : RefData :=
    { Role := node.Role, Name := node.Label, Nth := nth, BackendID := node.BackendNodeID,
      Href := [], Placeholder := [], Attributes := [] }
  let refData :=
    if node.Role = utf8 "link" ∧ node.Attributes ≠ none then
      match (node.Attributes.getD []).lookup (utf8 "href") with
      | some href => { refData with Href := href }
      | none => refData
    else refData
  storeKeyAttributes node refData

/-- The `refData` the second loop builds for an input node: the literal, then the
placeholder when it is not empty, then `id` and `class`. -/
def inputRefData (node : AccessibilityNode) (nth : Nat) : RefData :=
  let refData : RefData :=
    { Role := node.Role, Name := node.Label, Nth := nth, BackendID := node.BackendNodeID,
      Href := [], Placeholder := [], Attributes := [] }
  let refData :=
    if node.Placeholder ≠ [] then { refData with Placeholder := node.Placeholder }
    else refData
  storeKeyAttributes node refData

/-- The body of the first loop of `assignRefIDs`, for the clickable node `p`: the
counter of the node's key is read and incremented, the next handle is written to the
node, and the `refData` is stored under the handle. -/
def clickableStep (st : AssignState) (p : NodePtr) : AssignState :=
  let node := st.heap p
  let key := roleNameKey node
  let nth := (st.roleNameCounter.lookup key).getD 0
  let roleNameCounter := st.roleNameCounter.store key (nth + 1)
  let refIDCounter := st.refIDCounter + 1
  let refID := refIDFor refIDCounter
  let heap := Function.update st.heap p { node with RefID := refID }
  let refData := clickableRefData node nth
  { heap := heap, refIDMap := st.refIDMap.store refID refData,
    refIDCounter := refIDCounter, roleNameCounter := roleNameCounter }

/-- The body of the second loop of `assignRefIDs`, for the input node `p`: a node that
already has a handle is skipped (`continue`); any other is treated as in the first
loop, with the `refData` of an input. -/
def inputStep (st : AssignState) (p : NodePtr) : AssignState :=
  let node := st.heap p
  if node.RefID ≠ [] then st
  else
    let key := roleNameKey node
    let nth := (st.roleNameCounter.lookup key).getD 0
    let roleNameCounter := st.roleNameCounter.store key (nth + 1)
    let refIDCounter := st.refIDCounter + 1
    let refID := refIDFor refIDCounter
    let heap := Function.update st.heap p { node with RefID := refID }
    let refData := inputRefData node nth
    { heap := heap, refIDMap := st.refIDMap.store refID refData,
      refIDCounter := refIDCounter, roleNameCounter := roleNameCounter }

/-- `Executor.assignRefIDs`: a fresh `roleNameCounter`, the loop over the clickable
elements, then the loop over the input elements; the log calls are left out. -/
def assignRefIDs (e : Executor) (heap : Heap) (snapshot : AccessibilitySnapshot) :
    Executor × Heap :=
  let st : AssignState :=
    { heap := heap, refIDMap := e.refIDMap, refIDCounter := e.refIDCounter,
      roleNameCounter := [] }
  let st := snapshot.clickables.foldl clickableStep st
  let st := snapshot.inputs.foldl inputStep st
  ({ e with refIDMap := st.refIDMap, refIDCounter := st.refIDCounter }, st.heap)

/-- What one call of `Executor.GetAccessibilitySnapshot` meets outside the executor:
whether the browser has an active page, the clock when the cache is checked, what the
package-level `GetAccessibilitySnapshot(ctx, page)` returns if it is called (an error
text or a snapshot), and the clock when the new snapshot is stored. -/
structure SnapshotCall where
  activePage : Bool
  now : Int
  fetched : Except GoString AccessibilitySnapshot
  storedAt : Int

/-- `Executor.GetAccessibilitySnapshot`: without an active page an error; a cached
snapshot younger than the TTL is returned as it is; otherwise a new snapshot is
fetched and, when that succeeds, the map and the counter are reset, handles are
assigned and the snapshot is cached. -/
def GetAccessibilitySnapshot (e : Executor) (heap : Heap) (call : SnapshotCall) :
    (Executor × Heap) × Except GoString AccessibilitySnapshot :=
  if !call.activePage then ((e, heap), .error (utf8 "no active page"))
  else
    match e.refIDSnapshot with
    | some cachedSnapshot =>
      if call.now - e.refIDTimestamp < e.refIDTTL then ((e, heap), .ok cachedSnapshot)
      else refresh
    | none => refresh
where
  /-- The path that fetches and caches a new snapshot. -/
  refresh : (Executor × Heap) × Except GoString AccessibilitySnapshot :=
    match call.fetched with
    | .error err => ((e, heap), .error err)
    | .ok snapshot =>
      let e := { e with refIDMap := [], refIDCounter := 0 }
      let (e, heap) := assignRefIDs e heap snapshot
      let e := { e with refIDSnapshot := some snapshot, refIDTimestamp := call.storedAt }
      ((e, heap), .ok snapshot)

/-- `time.Second`, a `time.Duration`: a count of nanoseconds. -/
def Second : Int := 1000000000

/-- `Executor.InvalidateRefIDCache`: a new empty map, the counter at `0` and no
snapshot; the timestamp and the TTL are not written. -/
def InvalidateRefIDCache (e : Executor) : Executor :=
  { e with refIDMap := [], refIDCounter := 0, refIDSnapshot := none }

/-! ## `executor.go`: batches -/

/-- A Go `interface{}` value as far as the code looks at it: the only inspection is the
type assertion `.(string)`, so a value is a string or a value of another dynamic type
(kept as its JSON text). -/
inductive GoValue where
  | str (s : GoString)
  | other (json : GoString)
  deriving DecidableEq

/-- The assertion `s, ok := v.(string)` on the result of a map read `m[k]`: the string
and `true`, or `""` and `false` when the key is absent or its value is not a string. -/
def GoValue.asString : Option GoValue → GoString × Bool
  | some (.str s) => (s, true)
  | _ => ([], false)

/-- A Go `error` value: `nil` (`none`) or an error, kept as its message. -/
abbrev GoError := Option GoString

/-- `OperationResult` (declared in another file of the package), with the fields the
code of this file sets; `Data` is a `map[string]interface{}` that may be `nil`. -/
structure OperationResult where
  Success : Bool
  Message : GoString
  Error : GoString
  Timestamp : Int
  Data : Option (GoMap GoString GoValue)
  deriving DecidableEq

/-- `Operation`: one entry of a batch. The field `Type` is `Type_` here. -/
structure Operation where
  Type_ : GoString
  Params : GoMap GoString GoValue
  StopOnError : Bool
  deriving DecidableEq

/-- `BatchResult`. The counters are Go `int`s that only count operations. -/
structure BatchResult where
  Operations : List OperationResult
  Success : Nat
  Failed : Nat
  StartTime : Int
  EndTime : Int
  Duration : Int
  deriving DecidableEq

/-- What `ExecuteBatch` calls outside itself, over a world `σ` (the browser, the
executor's own state, the clock): `time.Now()`, and the verbs `Navigate`, `Click`,
`Type`, `Select` and `WaitFor` of `Executor`, declared in another file of the package.
A verb returns a `*OperationResult` that may be `nil` and an `error`; the options
argument, `nil` at every call of the batch, is left out. -/
structure Verbs (σ : Type) where
  Now : σ → Int × σ
  Navigate : GoString → σ → (Option OperationResult × GoError) × σ
  Click : GoString → σ → (Option OperationResult × GoError) × σ
  Type_ : GoString → GoString → σ → (Option OperationResult × GoError) × σ
  Select : GoString → GoString → σ → (Option OperationResult × GoError) × σ
  WaitFor : GoString → σ → (Option OperationResult × GoError) × σ

/-- The `switch op.Type` of `ExecuteBatch`: the verb of the operation's type is called
with the string parameters it takes (a parameter that is absent or not a string is
`""`); any other type yields a failed result and an error, both naming the type. -/
def dispatchOperation {σ : Type} (v : Verbs σ) (op : Operation) (w : σ) :
    (Option OperationResult × GoError) × σ :=
  if op.Type_ = utf8 "navigate" then
    let url := (GoValue.asString (op.Params.lookup (utf8 "url"))).1
    v.Navigate url w
  else if op.Type_ = utf8 "click" then
    let identifier := (GoValue.asString (op.Params.lookup (utf8 "identifier"))).1
    v.Click identifier w
  else if op.Type_ = utf8 "type" then
    let identifier := (GoValue.asString (op.Params.lookup (utf8 "identifier"))).1
    let text := (GoValue.asString (op.Params.lookup (utf8 "text"))).1
    v.Type_ identifier text w
  else if op.Type_ = utf8 "select" then
    let identifier := (GoValue.asString (op.Params.lookup (utf8 "identifier"))).1
    let value := (GoValue.asString (op.Params.lookup (utf8 "value"))).1
    v.Select identifier value w
  else if op.Type_ = utf8 "wait" then
    let identifier := (GoValue.asString (op.Params.lookup (utf8 "identifier"))).1
    v.WaitFor identifier w
  else
    let (now, w) := v.Now w
    ((some { Success := false, Message := [],
             Error := Sprintf (utf8 "Unknown operation type: %s") [.str op.Type_],
             Timestamp := now, Data := none },
      some (Sprintf (utf8 "unknown operation type: %s") [.str op.Type_])), w)

/-- The loop `for i, op := range operations` of `ExecuteBatch`, from index `i` on: the
operation is dispatched, a result that is not `nil` is appended, an error of an
operation with `StopOnError` sets `Failed` to `i + 1` and leaves the loop (`break`),
and otherwise `Success` or `Failed` is incremented. -/
def batchLoop {σ : Type} (v : Verbs σ) :
    Nat → List Operation → BatchResult → σ → BatchResult × σ
  | _, [], results, w => (results, w)
  | i, op :: rest, results, w =>
    let ((result, err), w) := dispatchOperation v op w
    let results :=
      match result with
      | some r => { results with Operations := results.Operations ++ [r] }
      | none => results
    if err ≠ none ∧ op.StopOnError = true then
      ({ results with Failed := i + 1 }, w)
    else
      let results :=
        if result ≠ none ∧ (result.map OperationResult.Success).getD false = true then
          { results with Success := results.Success + 1 }
        else { results with Failed := results.Failed + 1 }
      batchLoop v (i + 1) rest results w

/-- `Executor.ExecuteBatch`: the start time is read, the operations are run by the
loop, the end time is read, and the result is returned with a `nil` error. Instants
are counts of nanoseconds and `Duration` is their difference. -/
def ExecuteBatch {σ : Type} (v : Verbs σ) (operations : List Operation) (w : σ) :
    (BatchResult × GoError) × σ :=
  let (start, w) := v.Now w
  let results : BatchResult :=
    { Operations := [], Success := 0, Failed := 0, StartTime := start, EndTime := 0,
      Duration := 0 }
  let (results, w) := batchLoop v 0 operations results w
  let (finish, w) := v.Now w
  let results := { results with EndTime := finish }
  let results := { results with Duration := results.EndTime - results.StartTime }
  ((results, none), w)

/-! ## `agent/tools/webfetch.go` -/

/-- Rewrites the verb `%w` of a format to `%s`. -/
def wrapVerbs : GoString → GoString
  | [] => []
  | 37 :: 119 :: rest => 37 :: 115 :: wrapVerbs rest
  | c :: rest => c :: wrapVerbs rest

/-- The message of `fmt.Errorf(format, operands...)`: that of `Sprintf`, where the verb
`%w` prints an error operand as `%s` prints its message. Errors are kept as their
messages, so an error operand is passed as a string. -/
def Errorf (format : GoString) (args : List Arg) : GoString := Sprintf (wrapVerbs format) args

/-- `http.StatusOK`. -/
def StatusOK : Int := 200

/-- `http.StatusBadRequest`. -/
def StatusBadRequest : Int := 400

/-- `http.StatusNotFound`. -/
def StatusNotFound : Int := 404

/-- `http.StatusInternalServerError`. -/
def StatusInternalServerError : Int := 500

/-- An `http.Client`, with the one field the code sets (a `time.Duration`). -/
structure Client where
  Timeout : Int
  deriving DecidableEq

/-- An `http.Request` as the code builds it: method, URL and header fields (no body). -/
structure Request where
  Method : GoString
  URL : GoString
  Header : GoMap GoString GoString
  deriving DecidableEq

/-- An `http.Response` as the code reads it: the status code, the status line, and what
`io.ReadAll(resp.Body)` returns (the bytes of the body or an error). -/
structure Response where
  StatusCode : Int
  Status : GoString
  Body : Except GoString GoString

/-- The libraries `Execute` calls, over a world `σ` for the network:
`json.Unmarshal` into a `map[string]interface{}`, the error of `url.Parse` that makes
`http.NewRequestWithContext` fail, `client.Do`, `ConvertString` of the HTML to Markdown
converter, and `json.MarshalIndent` of the output map. -/
structure FetchEnv (σ : Type) where
  Unmarshal : GoString → Except GoString (GoMap GoString GoValue)
  urlError : GoString → GoError
  Do : Client → Request → σ → Except GoString Response × σ
  ConvertString : GoString → Except GoString GoString
  MarshalIndent : GoMap GoString GoValue → Except GoString GoString

/-- `http.NewRequestWithContext(ctx, method, url, nil)` for a valid method and a context
that is not `nil`: an error when the URL does not parse, else a request with an empty
header. -/
def NewRequestWithContext {σ : Type} (env : FetchEnv σ) (method url : GoString) :
    Except GoString Request :=
  match env.urlError url with
  | some err => .error err
  | none => .ok { Method := method, URL := url, Header := [] }

/-- The value of the `User-Agent` header that `Execute` sets. -/
def userAgent : GoString :=
  utf8 "Mozilla/5.0 (Windows NT 10.0; Win64; x64) AppleWebKit/537.36 (KHTML, like Gecko) Chrome/120.0.0.0 Safari/537.36"

/-- The format `Execute` works with: the parameter `format` when it is a string that is
not empty, else `markdown`. -/
def requestedFormat (params : GoMap GoString GoValue) : GoString :=
  let format := utf8 "markdown"
  let (formatParam, ok) := GoValue.asString (params.lookup (utf8 "format"))
  if ok ∧ formatParam ≠ [] then formatParam else format

/-- `WebFetchTool.Execute`: the input is parsed and validated, the page is fetched with
`GET`, a status other than `http.StatusOK` is an error, the body is read and (for
`markdown`) converted, and the output map is returned as JSON text. The deferred
`resp.Body.Close()` is left out. -/
def WebFetchTool.Execute {σ : Type} (env : FetchEnv σ) (input : GoString) (w : σ) :
    Except GoString GoString × σ :=
  match env.Unmarshal input with
  | .error err =>
    (.error (Errorf (utf8 "failed to parse input parameters: %w") [.str err]), w)
  | .ok params =>
    let (urlStr, ok) := GoValue.asString (params.lookup (utf8 "url"))
    if !ok ∨ urlStr = [] then (.error (Errorf (utf8 "url parameter is required") []), w)
    else
      let format := requestedFormat params
      if format ≠ utf8 "html" ∧ format ≠ utf8 "markdown" then
        (.error (Errorf (utf8 "format must be 'html' or 'markdown', got: %s") [.str format]), w)
      else
        let client : Client := { Timeout := 30 * Second }
        match NewRequestWithContext env (utf8 "GET") urlStr with
        | .error err => (.error (Errorf (utf8 "failed to create request: %w") [.str err]), w)
        | .ok req =>
          let req := { req with Header := req.Header.store (utf8 "User-Agent") userAgent }
          match env.Do client req w with
          | (.error err, w) => (.error (Errorf (utf8 "failed to fetch URL: %w") [.str err]), w)
          | (.ok resp, w) =>
            if resp.StatusCode ≠ StatusOK then
              (.error (Errorf (utf8 "HTTP error: %d %s")
                [.int resp.StatusCode, .str resp.Status]), w)
            else
              match resp.Body with
              | .error err =>
                (.error (Errorf (utf8 "failed to read response body: %w") [.str err]), w)
              | .ok body =>
                let htmlContent := body
                let converted : Except GoString GoString :=
                  if format = utf8 "markdown" then
                    match env.ConvertString htmlContent with
                    | .error err =>
                      .error (Errorf (utf8 "failed to convert to markdown: %w") [.str err])
                    | .ok markdown => .ok markdown
                  else .ok htmlContent
                match converted with
                | .error err => (.error err, w)
                | .ok result =>
                  let output : GoMap GoString GoValue :=
                    [(utf8 "url", .str urlStr), (utf8 "format", .str format),
                     (utf8 "content", .str result)]
                  match env.MarshalIndent output with
                  | .error err =>
                    (.error (Errorf (utf8 "failed to marshal output: %w") [.str err]), w)
                  | .ok jsonOutput => (.ok jsonOutput, w)

/-! ## `agent/handlers.go` -/

/-- What a handler does to its response, one call each: `c.Header(key, value)`,
`c.JSON(status, gin.H{...})`, `fmt.Fprintf(w, ...)` with the bytes it writes, and
`flusher.Flush()`. -/
inductive ResponseAction where
  | header (key value : GoString)
  | json (status : Int) (body : GoMap GoString GoValue)
  | write (bytes : GoString)
  | flush
  deriving DecidableEq

/-- What one round of the `select` in the loop of `SendMessage` yields: the request
context is done, a chunk is received from `streamChan`, or the channel is closed. -/
inductive SelectEvent (χ : Type) where
  | cancelled
  | received (chunk : χ)
  | closed

/-- The request body of `SendMessage` as `c.ShouldBindJSON` fills it. -/
structure SendMessageRequest where
  Message : GoString
  LLMConfigID : GoString
  deriving DecidableEq

/-- What the handlers call outside themselves, over the state `μ` of the
`AgentManager`, the type `γ` of `models.LLMConfigModel` and the type `χ` of
`StreamChunk` (all declared in other files): `h.manager.db.GetLLMConfig`, the field
`h.manager.currentLLMConfig` (`nil` is `none`), `h.manager.SetLLMConfig`,
`GetProviderInfo`, `json.Marshal` of a chunk, and `SendMessage`, what the worker
goroutine `h.manager.SendMessage` has done to the manager when the handler leaves its
loop. -/
structure HandlerEnv (μ γ χ : Type) where
  GetLLMConfig : GoString → μ → Except GoString γ
  currentLLMConfig : μ → Option γ
  SetLLMConfig : γ → μ → GoError × μ
  GetProviderInfo : γ → GoValue
  Marshal : χ → Except GoString GoString
  SendMessage : GoString → GoString → μ → μ

/-- What one call of `Handler.SendMessage` meets in its `gin.Context`: the path
parameter `id`, what `c.ShouldBindJSON(&req)` returns, whether `c.Writer` is an
`http.Flusher`, and what the rounds of the `select` yield, in order. -/
structure SendMessageCall (χ : Type) where
  sessionID : GoString
  body : Except GoString SendMessageRequest
  flusher : Bool
  events : List (SelectEvent χ)

/-- A handler seen from outside: the calls on the response in order, the manager
afterwards, and whether the handler has returned (it has not while its loop waits for
a further event). -/
structure HandlerResult (μ : Type) where
  actions : List ResponseAction
  manager : μ
  returned : Bool

/-- The loop `for { select { ... } }` of `SendMessage`: a done context or a closed
channel ends it; a received chunk is serialised and written as `data: <json>\n\n`,
followed by a flush, and a chunk that does not serialise is skipped. The second
component tells whether the loop was left. -/
def streamLoop {χ : Type} (marshal : χ → Except GoString GoString) :
    List (SelectEvent χ) → List ResponseAction × Bool
  | [] => ([], false)
  | .cancelled :: _ => ([], true)
  | .closed :: _ => ([], true)
  | .received chunk :: rest =>
    match marshal chunk with
    | .error _ => streamLoop marshal rest
    | .ok data =>
      let (actions, returned) := streamLoop marshal rest
      (.write (Sprintf (utf8 "data: %s\n\n") [.str data]) :: .flush :: actions, returned)

/-- The response headers `SendMessage` sets before it streams. -/
def sseHeaders : List ResponseAction :=
  [.header (utf8 "Content-Type") (utf8 "text/event-stream"),
   .header (utf8 "Cache-Control") (utf8 "no-cache"),
   .header (utf8 "Connection") (utf8 "keep-alive"),
   .header (utf8 "Transfer-Encoding") (utf8 "chunked"),
   .header (utf8 "X-Accel-Buffering") (utf8 "no")]

/-- `Handler.SendMessage`: a body that does not bind is answered with 400; with an
`llm_config_id` the configuration is looked up (400 when that fails), the current one
is kept in `originalConfig`, the new one is set (500 when that fails) and the restore
is deferred; then the response is streamed. The deferred function runs when the
handler returns and sets `originalConfig` again if it is not `nil`. -/
def Handler.SendMessage {μ γ χ : Type} (env : HandlerEnv μ γ χ) (call : SendMessageCall χ)
    (m : μ) : HandlerResult μ :=
  match call.body with
  | .error _ =>
    { actions := [.json StatusBadRequest [(utf8 "error", .str (utf8 "error.messageEmpty"))]],
      manager := m, returned := true }
  | .ok req =>
    if req.LLMConfigID ≠ [] then
      match env.GetLLMConfig req.LLMConfigID m with
      | .error _ =>
        { actions :=
            [.json StatusBadRequest [(utf8 "error", .str (utf8 "error.configNotFound"))]],
          manager := m, returned := true }
      | .ok config =>
        let originalConfig := env.currentLLMConfig m
        match env.SetLLMConfig config m with
        | (some err, m) =>
          { actions := [.json StatusInternalServerError [(utf8 "error", .str err)]],
            manager := m, returned := true }
        | (none, m) =>
          let result := stream req m
          if result.returned then
            match originalConfig with
            | some original =>
              { result with manager := (env.SetLLMConfig original result.manager).2 }
            | none => result
          else result
    else stream req m
where
  /-- The part of the handler from the response headers on. -/
  stream (req : SendMessageRequest) (m : μ) : HandlerResult μ :=
    if !call.flusher then
      { actions := sseHeaders ++
          [.json StatusInternalServerError
            [(utf8 "error", .str (utf8 "error.streamingNotSupported"))]],
        manager := m, returned := true }
    else
      let (writes, returned) := streamLoop env.Marshal call.events
      { actions := sseHeaders ++ writes,
        manager := env.SendMessage call.sessionID req.Message m, returned := returned }

/-- `Handler.SetLLMConfig`, given what `c.ShouldBindJSON(&req)` returns (the
`config_id` or an error): 400 for a body that does not bind, 404 when the lookup
fails, 500 when setting fails, else 200 with the provider information. -/
def Handler.SetLLMConfig {μ γ χ : Type} (env : HandlerEnv μ γ χ) (body : Except GoString GoString)
    (m : μ) : HandlerResult μ :=
  match body with
  | .error _ =>
    { actions := [.json StatusBadRequest [(utf8 "error", .str (utf8 "error.configIdEmpty"))]],
      manager := m, returned := true }
  | .ok configID =>
    match env.GetLLMConfig configID m with
    | .error _ =>
      { actions := [.json StatusNotFound [(utf8 "error", .str (utf8 "error.configNotFound"))]],
        manager := m, returned := true }
    | .ok config =>
      match env.SetLLMConfig config m with
      | (some err, m) =>
        { actions := [.json StatusInternalServerError [(utf8 "error", .str err)]],
          manager := m, returned := true }
      | (none, m) =>
        { actions :=
            [.json StatusOK [(utf8 "message", .str (utf8 "agent.llmConfigSet")),
              (utf8 "config", env.GetProviderInfo config)]],
          manager := m, returned := true }

/-! ## Vocabulary of the properties -/

/-- Scanner state of `xpathLiterals`: outside a literal (`none`) or inside one, with
its quote character and the bytes read so far, last first. -/
def scanLiterals : Option (UInt8 × GoString) → GoString → Option (List GoString)
  | none, [] => some []
  | some _, [] => none
  | none, c :: s =>
    if c = 39 ∨ c = 34 then scanLiterals (some (c, [])) s else scanLiterals none s
  | some (q, acc), c :: s =>
    if c = q then (scanLiterals none s).map (fun ls => acc.reverse :: ls)
    else scanLiterals (some (q, c :: acc)) s

/-- The string literals of a path expression, in order. XPath 1.0 has no escape
inside a literal: a single or double quote opens one and the next occurrence of the
same character closes it. `none` when a literal is still open at the end. -/
def xpathLiterals (expr : GoString) : Option (List GoString) := scanLiterals none expr

/-- The role strings named in the `case` lists of `buildXPathFromRole`. -/
def handledRoles : List GoString :=
  [utf8 "button", utf8 "link", utf8 "textbox", utf8 "searchbox", utf8 "checkbox",
   utf8 "radio", utf8 "combobox", utf8 "listbox", utf8 "heading", utf8 "list",
   utf8 "listitem", utf8 "cell", utf8 "gridcell", utf8 "row", utf8 "menuitem", utf8 "tab",
   utf8 "article", utf8 "region", utf8 "section", utf8 "navigation", utf8 "nav",
   utf8 "main", utf8 "banner", utf8 "contentinfo", utf8 "complementary"]

/-- The texts by which a predicate on an element's text or naming attribute shows in
an expression. -/
def textualMarkers : List GoString :=
  [utf8 "normalize-space(.)", utf8 "contains(", utf8 "@aria-label", utf8 "@value",
   utf8 "@placeholder", utf8 "@title"]

/-- Some textual marker occurs in the expression. -/
def hasTextualPredicate (expr : GoString) : Bool :=
  textualMarkers.any (fun m => Contains expr m)

/-- Scan of a format for `verbsEnclosed`; `seen` is the text before the current
position, last byte first. -/
def verbsEnclosedFrom (before after : GoString) : GoString → GoString → Bool
  | _, [] => true
  | seen, c :: rest =>
    (if (utf8 "%s").isPrefixOf (c :: rest) then
        before.reverse.isPrefixOf seen && after.isPrefixOf (rest.drop 1)
      else true) &&
    verbsEnclosedFrom before after (c :: seen) rest

/-- Every `%s` of the format stands directly after `before` and directly before
`after`. -/
def verbsEnclosed (before after format : GoString) : Bool :=
  verbsEnclosedFrom before after [] format

/-- Number of (possibly overlapping) occurrences of `substr` in `s`. -/
def occurrences (substr : GoString) : GoString → Nat
  | [] => 0
  | c :: s => (if substr.isPrefixOf (c :: s) then 1 else 0) + occurrences substr s

/-- The format strings for a non-empty name of the roles other than button and link
that have a builder of their own. -/
def equalityFormats : List GoString :=
  [textboxFormat, checkboxFormat, radioFormat, comboboxFormat, headingFormat, listFormat,
   listItemFormat, cellFormat, rowFormat, menuItemFormat, tabFormat, articleFormat,
   regionFormat, navigationFormat, mainFormat, bannerFormat, contentinfoFormat,
   complementaryFormat]

/-- Scan of a format for `verbLeadIns`; `cur` is the text since the last `[`, last
byte first. -/
def verbLeadInsFrom : GoString → GoString → List GoString
  | _, [] => []
  | cur, c :: rest =>
    (if (utf8 "%s").isPrefixOf (c :: rest) then [cur.reverse] else []) ++
      verbLeadInsFrom (if c = 91 then [] else c :: cur) rest

/-- For every `%s` of the format, the text of its predicate up to it: what stands
between the last `[` and the verb. -/
def verbLeadIns (format : GoString) : List GoString := verbLeadInsFrom [] format

/-- The pieces joined by the byte `q`. -/
def joinSep (q : UInt8) : List GoString → GoString
  | [] => []
  | [s] => s
  | s :: t :: rest => s ++ q :: joinSep q (t :: rest)

/-- The pieces of a format with every piece `%s` replaced by the next operand. -/
def fillVerbs : List GoString → List GoString → List GoString
  | [], _ => []
  | s :: segs, [] => s :: fillVerbs segs []
  | s :: segs, a :: args =>
    if s = utf8 "%s" then a :: fillVerbs segs args else s :: fillVerbs segs (a :: args)

/-- A format is quote-separated for the text `m`: cut at the single quotes, every
piece is either exactly `%s` or free of `%`, exactly `k` pieces are `%s`, and no
piece contains `m`. -/
def quoteSeparated (format : GoString) (k : Nat) (m : GoString) : Bool :=
  let segs := format.splitOn 39
  decide (joinSep 39 segs = format) &&
  segs.all (fun s => decide (s = utf8 "%s") || !s.contains 37) &&
  decide (segs.count (utf8 "%s") = k) &&
  segs.all (fun s => !Contains s m)

/-- The value of a decimal numeral. -/
def decimalValue (digits : GoString) : Nat :=
  digits.foldl (fun a c => 10 * a + (c.toNat - 48)) 0

/-- The inputs that the second loop of `assignRefIDs` gives a handle, in order: those
that carry none at the start (`heap`) and are not among `done`, the nodes that got one
before them. -/
def assignedInputs (heap : Heap) : List NodePtr → List NodePtr → List NodePtr
  | _, [] => []
  | done, p :: ps =>
    if p ∈ done ∨ (heap p).RefID ≠ [] then assignedInputs heap done ps
    else p :: assignedInputs heap (p :: done) ps

/-- The assignments of one run of `assignRefIDs` in order, each a node and whether it
was made by the first loop (`true`): every clickable, then every assigned input. -/
def assignmentLog (heap : Heap) (snapshot : AccessibilitySnapshot) : List (NodePtr × Bool) :=
  snapshot.clickables.map (fun p => (p, true)) ++
    (assignedInputs heap snapshot.clickables snapshot.inputs).map (fun p => (p, false))

/-- The `refData` of the assignment at position `i` of a log: that of its loop for the
node as it was at the start, with `nth` the number of earlier assignments whose node
has the same `role:name` key. -/
def loggedRefData (heap : Heap) (log : List (NodePtr × Bool)) (i : Nat) : Option RefData :=
  match log[i]? with
  | none => none
  | some (p, clickable) =>
    let nth := ((log.take i).filter
      (fun q => decide (roleNameKey (heap q.1) = roleNameKey (heap p)))).length
    some (if clickable then clickableRefData (heap p) nth else inputRefData (heap p) nth)

/-- What the loops of `assignRefIDs` have established after the assignments `log`, when
they started from the heap `heap0`, the map `map0`, the counter `counter0` and an empty
`roleNameCounter`. -/
structure Logged (heap0 : Heap) (map0 : GoMap GoString RefData) (counter0 : Nat)
    (log : List (NodePtr × Bool)) (st : AssignState) : Prop where
  counter : st.refIDCounter = counter0 + log.length
  untouched : ∀ p, p ∉ log.map Prod.fst → st.heap p = heap0 p
  handle : ∀ p, p ∈ log.map Prod.fst →
    ∃ i b, log[i]? = some (p, b) ∧
      st.heap p = { heap0 p with RefID := refIDFor (counter0 + i + 1) }
  stored : ∀ i, i < log.length →
    st.refIDMap.lookup (refIDFor (counter0 + i + 1)) = loggedRefData heap0 log i
  others : ∀ k, (∀ i, i < log.length → k ≠ refIDFor (counter0 + i + 1)) →
    st.refIDMap.lookup k = map0.lookup k
  counts : ∀ key, (st.roleNameCounter.lookup key).getD 0 =
    (log.filter (fun q => decide (roleNameKey (heap0 q.1) = key))).length

/-- The white-space runes of `unicode.IsSpace`, by code point. -/
def whiteSpaceRunes : List Nat :=
  [0x09, 0x0A, 0x0B, 0x0C, 0x0D, 0x20, 0x85, 0xA0, 0x1680, 0x2000, 0x2001, 0x2002, 0x2003,
   0x2004, 0x2005, 0x2006, 0x2007, 0x2008, 0x2009, 0x200A, 0x2028, 0x2029, 0x202F, 0x205F,
   0x3000]

/-- The UTF-8 encodings of the white-space runes. -/
def whiteSpaceEncodings : List GoString :=
  whiteSpaceRunes.map (fun n => String.utf8EncodeChar (Char.ofNat n))

/-- The string is empty or consists of white-space runes only. -/
def isBlank (s : GoString) : Prop :=
  ∃ runs : List GoString, (∀ r ∈ runs, r ∈ whiteSpaceEncodings) ∧ s = runs.flatten


/-- A string of ASCII bytes that neither starts nor ends with white space (it may be
empty, and may hold white space inside). -/
def asciiWord (s : GoString) : Prop :=
  (∀ c ∈ s, c < 0x80) ∧ (∀ c ∈ s.head?, asciiSpace c = false) ∧
    (∀ c ∈ s.getLast?, asciiSpace c = false)

/-- The operations run one after another with none left out: what each returns, in
order, and the world afterwards. -/
def runOperations {σ : Type} (v : Verbs σ) :
    List Operation → σ → List (Option OperationResult × GoError) × σ
  | [], w => ([], w)
  | op :: rest, w =>
    let (outcome, w) := dispatchOperation v op w
    let (outcomes, w) := runOperations v rest w
    (outcome :: outcomes, w)

/-- The operation types that `ExecuteBatch` knows. -/
def knownOperationTypes : List GoString :=
  [utf8 "navigate", utf8 "click", utf8 "type", utf8 "select", utf8 "wait"]

/-- The result is an error whose message starts with `HTTP error: `. -/
def isHTTPError (r : Except GoString GoString) : Bool :=
  match r with
  | .error msg => (utf8 "HTTP error: ").isPrefixOf msg
  | .ok _ => false

/-- The result of `Execute` once the output map is built: the JSON text of the map, or
the error of marshalling it. -/
def marshalled {σ : Type} (env : FetchEnv σ) (output : GoMap GoString GoValue) :
    Except GoString GoString :=
  match env.MarshalIndent output with
  | .error err => .error (utf8 "failed to marshal output: " ++ err)
  | .ok jsonOutput => .ok jsonOutput

/-- The chunks received before the first round of the `select` that ends the loop. -/
def receivedChunks {χ : Type} : List (SelectEvent χ) → List χ
  | .received chunk :: rest => chunk :: receivedChunks rest
  | _ => []

/-- The JSON texts of the chunks that serialise, in the order of the chunks. -/
def serialised {χ : Type} (marshal : χ → Except GoString GoString) (chunks : List χ) :
    List GoString :=
  chunks.filterMap (fun chunk =>
    match marshal chunk with
    | .ok data => some data
    | .error _ => none)

/-- The server-sent event of a JSON text. -/
def sseFrame (data : GoString) : GoString := utf8 "data: " ++ data ++ utf8 "\n\n"

/-- The bytes written to the response by `fmt.Fprintf`, in order. -/
def writtenBytes : List ResponseAction → GoString
  | [] => []
  | .write bytes :: rest => bytes ++ writtenBytes rest
  | _ :: rest => writtenBytes rest

/-- The status codes of the `c.JSON` calls among the actions. -/
def jsonStatuses : List ResponseAction → List Int
  | [] => []
  | .json status _ :: rest => status :: jsonStatuses rest
  | _ :: rest => jsonStatuses rest

/-- The byte is a UTF-8 continuation byte, `0x80..0xBF`. -/
def isContinuation (c : UInt8) : Bool := 0x80 ≤ c && c ≤ 0xBF

/-- Width in bytes of the well-formed UTF-8 sequence at the front of `s`, or `0` when
`s` is empty or does not start with one. The well-formed sequences are those of the
Unicode standard (and of package `unicode/utf8`): one byte below `0x80`; a lead byte
`0xC2..0xDF` with one continuation byte; a lead byte `0xE0..0xEF` with two, the first
of them at least `0xA0` after `0xE0` and at most `0x9F` after `0xED`; a lead byte
`0xF0..0xF4` with three, the first of them at least `0x90` after `0xF0` and at most
`0x8F` after `0xF4`. -/
def leadingRuneWidth : GoString → Nat
  | [] => 0
  | c :: rest =>
    if c < 0x80 then 1
    else if 0xC2 ≤ c && c ≤ 0xDF then
      match rest with
      | d :: _ => if isContinuation d then 2 else 0
      | _ => 0
    else if 0xE0 ≤ c && c ≤ 0xEF then
      match rest with
      | d :: e :: _ =>
        if (if c = 0xE0 then 0xA0 else 0x80) ≤ d && d ≤ (if c = 0xED then 0x9F else 0xBF) &&
            isContinuation e then 3
        else 0
      | _ => 0
    else if 0xF0 ≤ c && c ≤ 0xF4 then
      match rest with
      | d :: e :: f :: _ =>
        if (if c = 0xF0 then 0x90 else 0x80) ≤ d && d ≤ (if c = 0xF4 then 0x8F else 0xBF) &&
            isContinuation e && isContinuation f then 4
        else 0
      | _ => 0
    else 0

/-- The string consists of well-formed UTF-8 sequences, read with at most `fuel` of
them. -/
def validUTF8Fuel : Nat → GoString → Bool
  | _, [] => true
  | 0, _ :: _ => false
  | fuel + 1, s =>
    match leadingRuneWidth s with
    | 0 => false
    | w => validUTF8Fuel fuel (s.drop w)

/-- `utf8.ValidString(s)`: the bytes of `s` are the UTF-8 encoding of a sequence of
characters. A string holds at most `len(s)` characters. -/
def ValidString (s : GoString) : Bool := validUTF8Fuel s.length s

/-- The characters of the string, each as its UTF-8 bytes; a malformed rest of the
string is left out. -/
def runesFuel : Nat → GoString → List GoString
  | _, [] => []
  | 0, _ :: _ => []
  | fuel + 1, s =>
    match leadingRuneWidth s with
    | 0 => []
    | w => s.take w :: runesFuel fuel (s.drop w)

/-- The string `p` is the first `k` characters of the string `s`, for some `k`. -/
def isCharacterPrefix (p s : GoString) : Bool :=
  (List.range (s.length + 1)).any
    (fun k => decide (p = ((runesFuel s.length s).take k).flatten))

/-- For every role string named in a `case` of `buildXPathFromRole`, the expression to
expect for a name that is empty: the union over the elements of the role, without a
predicate on their text. -/
def roleOnlyExpressions : List (GoString × GoString) :=
  [(utf8 "button",
    utf8 "//button | //input[@type='button'] | //input[@type='submit'] | //input[@type='reset'] | //*[@role='button']"),
   (utf8 "link",
    utf8 "//a[@href] | //*[@role='link']"),
   (utf8 "textbox",
    utf8 "(\n\t\t\t//input[@type='text'] | \n\t\t\t//input[@type='email'] | \n\t\t\t//input[@type='password'] | \n\t\t\t//input[@type='search'] | \n\t\t\t//input[@type='tel'] | \n\t\t\t//input[@type='url'] | \n\t\t\t//input[@type='number'] | \n\t\t\t//input[not(@type)] | \n\t\t\t//textarea |\n\t\t\t//*[@role='textbox'] |\n\t\t\t//*[@role='searchbox']\n\t\t)"),
   (utf8 "searchbox",
    utf8 "(\n\t\t\t//input[@type='text'] | \n\t\t\t//input[@type='email'] | \n\t\t\t//input[@type='password'] | \n\t\t\t//input[@type='search'] | \n\t\t\t//input[@type='tel'] | \n\t\t\t//input[@type='url'] | \n\t\t\t//input[@type='number'] | \n\t\t\t//input[not(@type)] | \n\t\t\t//textarea |\n\t\t\t//*[@role='textbox'] |\n\t\t\t//*[@role='searchbox']\n\t\t)"),
   (utf8 "checkbox",
    utf8 "//input[@type='checkbox'] | //*[@role='checkbox']"),
   (utf8 "radio",
    utf8 "//input[@type='radio'] | //*[@role='radio']"),
   (utf8 "combobox",
    utf8 "//select | //*[@role='combobox'] | //*[@role='listbox']"),
   (utf8 "listbox",
    utf8 "//select | //*[@role='combobox'] | //*[@role='listbox']"),
   (utf8 "heading",
    utf8 "//h1 | //h2 | //h3 | //h4 | //h5 | //h6 | //*[@role='heading']"),
   (utf8 "list",
    utf8 "//ul | //ol | //*[@role='list']"),
   (utf8 "listitem",
    utf8 "//li | //*[@role='listitem']"),
   (utf8 "cell",
    utf8 "//td | //th | //*[@role='cell'] | //*[@role='gridcell']"),
   (utf8 "gridcell",
    utf8 "//td | //th | //*[@role='cell'] | //*[@role='gridcell']"),
   (utf8 "row",
    utf8 "//tr | //*[@role='row']"),
   (utf8 "menuitem",
    utf8 "//*[@role='menuitem'] | //*[@role='menuitemcheckbox'] | //*[@role='menuitemradio']"),
   (utf8 "tab",
    utf8 "//*[@role='tab']"),
   (utf8 "article",
    utf8 "//article | //*[@role='article']"),
   (utf8 "region",
    utf8 "//section | //*[@role='region']"),
   (utf8 "section",
    utf8 "//section | //*[@role='region']"),
   (utf8 "navigation",
    utf8 "//nav | //*[@role='navigation']"),
   (utf8 "nav",
    utf8 "//nav | //*[@role='navigation']"),
   (utf8 "main",
    utf8 "//main | //*[@role='main']"),
   (utf8 "banner",
    utf8 "//header | //*[@role='banner']"),
   (utf8 "contentinfo",
    utf8 "//footer | //*[@role='contentinfo']"),
   (utf8 "complementary",
    utf8 "//aside | //*[@role='complementary']")]

/-- The string parameter `key` of an operation: the value of the key when that is a
string, and `""` when the key is absent or its value is not a string. -/
def stringParam (op : Operation) (key : GoString) : GoString :=
  match op.Params.lookup key with
  | some (.str s) => s
  | _ => []

/-! ## Example data -/

/-- Example nodes: `0` a link `Home` with `href`, `id` and `title`, `1` a text box with
a placeholder, `2` a check box that is both clickable and an input, `3` a second link
`Home`; every other pointer is an empty node. -/
def exampleHeap : Heap := fun p =>
  if p = 0 then
    { Role := utf8 "link", Label := utf8 "Home", Placeholder := [],
      Attributes := some [(utf8 "href", utf8 "/"), (utf8 "id", utf8 "home"),
        (utf8 "class", []), (utf8 "title", utf8 "Start")],
      BackendNodeID := 11, RefID := [] }
  else if p = 1 then
    { Role := utf8 "textbox", Label := utf8 "Search", Placeholder := utf8 "Search",
      Attributes := none, BackendNodeID := 12, RefID := [] }
  else if p = 2 then
    { Role := utf8 "checkbox", Label := utf8 "Remember me", Placeholder := [],
      Attributes := some [(utf8 "class", utf8 "box")], BackendNodeID := 13, RefID := [] }
  else if p = 3 then
    { Role := utf8 "link", Label := utf8 "Home", Placeholder := [],
      Attributes := some [(utf8 "href", utf8 "/index")], BackendNodeID := 14, RefID := [] }
  else
    { Role := [], Label := [], Placeholder := [], Attributes := none, BackendNodeID := 0,
      RefID := [] }

/-- Example snapshot over `exampleHeap`: the clickables `0, 2, 3` and the inputs `1, 2`. -/
def exampleSnapshot : AccessibilitySnapshot := { clickables := [0, 2, 3], inputs := [1, 2] }

/-- Example executor: what is left of an earlier snapshot (the handle `e9` in the map,
the counter at `9`), cached at time `0` with a TTL of `300`. -/
def exampleExecutor : Executor :=
  { refIDMap := [(utf8 "e9", (⟨utf8 "button", utf8 "Old", 0, 1, [], [], []⟩ : RefData))],
    refIDCounter := 9, refIDSnapshot := some ⟨[7], []⟩,
    refIDTimestamp := 0, refIDTTL := 300 }

/-- Example call: an active page, the clock at `500` (the cache has expired), and
`exampleSnapshot` fetched and stored at `501`. -/
def exampleCall : SnapshotCall :=
  { activePage := true, now := 500, fetched := .ok exampleSnapshot, storedAt := 501 }

/-- Example nodes whose `role:name` keys collide: `0` has role `a` and name `b:c`, `1`
has role `a:b` and name `c`. -/
def colonHeap : Heap := fun p =>
  if p = 0 then
    { Role := utf8 "a", Label := utf8 "b:c", Placeholder := [], Attributes := none,
      BackendNodeID := 1, RefID := [] }
  else
    { Role := utf8 "a:b", Label := utf8 "c", Placeholder := [], Attributes := none,
      BackendNodeID := 2, RefID := [] }

/-- Example node that is both clickable and an input: a text box with a placeholder and
an `onclick` attribute. -/
def searchHeap : Heap := fun _ =>
  { Role := utf8 "textbox", Label := utf8 "Search", Placeholder := utf8 "Search",
    Attributes := some [(utf8 "onclick", utf8 "go()")], BackendNodeID := 21, RefID := [] }

/-- An executor as `NewExecutor` makes it: empty map, counter `0`, nothing cached, TTL
of 300 seconds. -/
def newExecutor : Executor :=
  { refIDMap := [], refIDCounter := 0, refIDSnapshot := none, refIDTimestamp := 0,
    refIDTTL := 300000000000 }

/-- Example call on `exampleExecutor` while its cache is young: the clock at `100`. -/
def youngCall : SnapshotCall :=
  { activePage := true, now := 100, fetched := .ok exampleSnapshot, storedAt := 101 }

/-- Example browser for batches: the world is the clock, every reading of it moves it
on by one, and every verb succeeds after one tick. -/
def successfulBrowser : Verbs Int :=
  { Now := fun w => (w, w + 1),
    Navigate := fun url w =>
      ((some { Success := true, Message := utf8 "Successfully navigated to " ++ url,
               Error := [], Timestamp := w, Data := none }, none), w + 1),
    Click := fun identifier w =>
      ((some { Success := true, Message := utf8 "Successfully clicked " ++ identifier,
               Error := [], Timestamp := w, Data := none }, none), w + 1),
    Type_ := fun identifier _ w =>
      ((some { Success := true, Message := utf8 "Successfully typed into " ++ identifier,
               Error := [], Timestamp := w, Data := none }, none), w + 1),
    Select := fun identifier _ w =>
      ((some { Success := true, Message := utf8 "Successfully selected in " ++ identifier,
               Error := [], Timestamp := w, Data := none }, none), w + 1),
    WaitFor := fun identifier w =>
      ((some { Success := true, Message := utf8 "Element appeared: " ++ identifier,
               Error := [], Timestamp := w, Data := none }, none), w + 1) }

/-- Example batch: a navigation, an operation of the unknown type `frobnicate` with
`stop_on_error`, and a click. -/
def exampleBatch : List Operation :=
  [{ Type_ := utf8 "navigate", Params := [(utf8 "url", .str (utf8 "https://example.com/"))],
     StopOnError := false },
   { Type_ := utf8 "frobnicate", Params := [], StopOnError := true },
   { Type_ := utf8 "click", Params := [(utf8 "identifier", .str (utf8 "e1"))],
     StopOnError := false }]

/-- Example input of `Execute`: the page `https://example.com/` as HTML. -/
def htmlInput : GoString :=
  utf8 "\x7b\"url\":\"https://example.com/\",\"format\":\"html\"\x7d"

/-- Example input of `Execute` whose `format` is the number `7`. -/
def numberFormatInput : GoString :=
  utf8 "\x7b\"url\":\"https://example.com/\",\"format\":7\x7d"

/-- What `json.Unmarshal` returns on the two example inputs; every other text is taken
as invalid. -/
def exampleUnmarshal (input : GoString) : Except GoString (GoMap GoString GoValue) :=
  if input = htmlInput then
    .ok [(utf8 "url", .str (utf8 "https://example.com/")), (utf8 "format", .str (utf8 "html"))]
  else if input = numberFormatInput then
    .ok [(utf8 "url", .str (utf8 "https://example.com/")), (utf8 "format", .other (utf8 "7"))]
  else .error (utf8 "invalid character")

/-- A stand-in for `json.MarshalIndent` on a map of strings: the bindings in the order
given, one per line, without escaping. -/
def exampleMarshalIndent (output : GoMap GoString GoValue) : Except GoString GoString :=
  .ok (utf8 "\x7b\n" ++
    (utf8 ",\n").intercalate (output.map (fun kv =>
      utf8 "  \"" ++ kv.1 ++ utf8 "\": \"" ++
        (match kv.2 with
          | .str s => s
          | .other json => json) ++ utf8 "\"")) ++
    utf8 "\n\x7d")

/-- Example environment of `Execute`: the world is the list of requests sent so far,
every URL parses, the server answers every request with `reply`, and the Markdown
converter is a stand-in that returns a fixed text. -/
def fetchEnv (reply : Response) : FetchEnv (List Request) :=
  { Unmarshal := exampleUnmarshal,
    urlError := fun _ => none,
    Do := fun _ req w => (.ok reply, w ++ [req]),
    ConvertString := fun _ => .ok (utf8 "# Example Domain"),
    MarshalIndent := exampleMarshalIndent }

/-- An answer `200 OK` with a small page. -/
def okReply : Response :=
  { StatusCode := 200, Status := utf8 "200 OK", Body := .ok (utf8 "<h1>Example Domain</h1>") }

/-- An answer `203 Non-Authoritative Information` with the same page. -/
def nonAuthoritativeReply : Response :=
  { StatusCode := 203, Status := utf8 "203 Non-Authoritative Information",
    Body := .ok (utf8 "<h1>Example Domain</h1>") }

/-- Example manager for the handlers: its state is the current configuration or
`none`, a configuration is its id, the ids `m1` and `m2` are on record, setting a
configuration always succeeds, a chunk is a text and serialises to the text in double
quotes, and the worker leaves the manager as it is. -/
def exampleHandlerEnv : HandlerEnv (Option GoString) GoString GoString :=
  { GetLLMConfig := fun id _ =>
      if id = utf8 "m1" ∨ id = utf8 "m2" then .ok id else .error (utf8 "record not found"),
    currentLLMConfig := fun m => m,
    SetLLMConfig := fun config _ => (none, some config),
    GetProviderInfo := fun config => .str config,
    Marshal := fun chunk => .ok (utf8 "\"" ++ chunk ++ utf8 "\""),
    SendMessage := fun _ _ m => m }

/-- Example request to `SendMessage`: the message `hi` in session `s1` with the
`llm_config_id` given, on a writer that can flush, with two chunks received before the
channel is closed. -/
def exampleSend (llmConfigID : GoString) : SendMessageCall GoString :=
  { sessionID := utf8 "s1",
    body := .ok { Message := utf8 "hi", LLMConfigID := llmConfigID },
    flusher := true,
    events := [.received (utf8 "Hel"), .received (utf8 "lo"), .closed,
      .received (utf8 "late")] }

/-- Example name of a button: `アカウントを作成` ("create an account"), 8 characters in
24 bytes. -/
def accountLabel : GoString := utf8 "アカウントを作成"

/-- Example name of a link: `FAQ よくある質問と回答はこちら`, 17 characters in 43 bytes. -/
def questionsLabel : GoString := utf8 "FAQ よくある質問と回答はこちら"

/-- Example call with an active page on which the fetch of a new snapshot fails. -/
def failingCall : SnapshotCall :=
  { activePage := true, now := 500, fetched := .error (utf8 "eval failed"), storedAt := 501 }

/-- Example browser that records its calls: the world is the list of the calls made so
far, each with its arguments; the clock reads the number of calls made; `Click` fails
with an error and a failed result, every other verb succeeds. -/
def recordingBrowser : Verbs (List GoString) :=
  { Now := fun w => (w.length, w ++ [utf8 "Now"]),
    Navigate := fun url w =>
      ((some { Success := true, Message := utf8 "Successfully navigated to " ++ url,
               Error := [], Timestamp := w.length, Data := none }, none),
        w ++ [utf8 "Navigate " ++ url]),
    Click := fun identifier w =>
      ((some { Success := false, Message := [],
               Error := utf8 "element not found: " ++ identifier, Timestamp := w.length,
               Data := none }, some (utf8 "element not found: " ++ identifier)),
        w ++ [utf8 "Click " ++ identifier]),
    Type_ := fun identifier text w =>
      ((some { Success := true, Message := utf8 "Successfully typed into " ++ identifier,
               Error := [], Timestamp := w.length, Data := none }, none),
        w ++ [utf8 "Type " ++ identifier ++ utf8 " " ++ text]),
    Select := fun identifier value w =>
      ((some { Success := true, Message := utf8 "Successfully selected in " ++ identifier,
               Error := [], Timestamp := w.length, Data := none }, none),
        w ++ [utf8 "Select " ++ identifier ++ utf8 " " ++ value]),
    WaitFor := fun identifier w =>
      ((some { Success := true, Message := utf8 "Element appeared: " ++ identifier,
               Error := [], Timestamp := w.length, Data := none }, none),
        w ++ [utf8 "WaitFor " ++ identifier]) }

/-- Example batch of seven operations: one of each known type (the click without
`stop_on_error`; the select with it, its value a number and not a string), then an
operation of the unknown type `frobnicate` with `stop_on_error`, then a further
click. -/
def recordedBatch : List Operation :=
  [{ Type_ := utf8 "navigate", Params := [(utf8 "url", .str (utf8 "https://example.com/"))],
     StopOnError := false },
   { Type_ := utf8 "click", Params := [(utf8 "identifier", .str (utf8 "e1"))],
     StopOnError := false },
   { Type_ := utf8 "type",
     Params := [(utf8 "identifier", .str (utf8 "e2")), (utf8 "text", .str (utf8 "hello"))],
     StopOnError := false },
   { Type_ := utf8 "select",
     Params := [(utf8 "identifier", .str (utf8 "e3")), (utf8 "value", .other (utf8 "7"))],
     StopOnError := true },
   { Type_ := utf8 "wait", Params := [(utf8 "identifier", .str (utf8 "e4"))],
     StopOnError := false },
   { Type_ := utf8 "frobnicate", Params := [], StopOnError := true },
   { Type_ := utf8 "click", Params := [(utf8 "identifier", .str (utf8 "e5"))],
     StopOnError := false }]

theorem Sprintf_str (rest : GoString) (s : GoString) (args : List Arg) :
    Sprintf (37 :: 115 :: rest) (.str s :: args) = s ++ Sprintf rest args := by
  simp [Sprintf]

theorem Sprintf_byte (c : UInt8) (rest : GoString) (args : List Arg) (hc : c ≠ 37) :
    Sprintf (c :: rest) args = c :: Sprintf rest args := by
  rw [Sprintf]
  all_goals (intros; simp_all)

theorem Sprintf_nil : Sprintf [] [] = [] := by simp [Sprintf]

theorem escapeXPathString_eq (s : GoString) : escapeXPathString s = s := by
  unfold escapeXPathString
  split_ifs <;> simp

theorem Sprintf_text (pre rest : GoString) (args : List Arg) (h : ∀ c ∈ pre, c ≠ 37) :
    Sprintf (pre ++ rest) args = pre ++ Sprintf rest args := by
  induction pre with
  | nil => rfl
  | cons c pre ih =>
    have hc : c ≠ 37 := h c (List.mem_cons_self _ _)
    rw [List.cons_append, Sprintf_byte _ _ _ hc, ih (fun d hd => h d (List.mem_cons_of_mem _ hd))]
    rfl

theorem Sprintf_text_end (pre : GoString) (h : ∀ c ∈ pre, c ≠ 37) :
    Sprintf pre [] = pre := by
  have := Sprintf_text pre [] [] h
  simpa [Sprintf_nil] using this

theorem fallbackRoleOnly_eq (r : GoString) :
    Sprintf fallbackRoleOnlyFormat [.str r] = utf8 "//*[@role='" ++ r ++ utf8 "']" := by
  have hf : fallbackRoleOnlyFormat = utf8 "//*[@role='" ++ (37 :: 115 :: utf8 "']") := by rfl
  rw [hf, Sprintf_text _ _ _ (by decide), Sprintf_str, Sprintf_text_end _ (by decide)]
  simp

theorem fallback_eq (r n : GoString) :
    Sprintf fallbackFormat [.str r, .str n, .str n] =
      utf8 "//*[@role='" ++ r ++ utf8 "' and (normalize-space(.)='" ++ n ++
        utf8 "' or @aria-label='" ++ n ++ utf8 "')]" := by
  have hf : fallbackFormat = utf8 "//*[@role='" ++ (37 :: 115 ::
      (utf8 "' and (normalize-space(.)='" ++ (37 :: 115 ::
        (utf8 "' or @aria-label='" ++ (37 :: 115 :: utf8 "')]"))))) := by rfl
  rw [hf, Sprintf_text _ _ _ (by decide), Sprintf_str, Sprintf_text _ _ _ (by decide),
    Sprintf_str, Sprintf_text _ _ _ (by decide), Sprintf_str, Sprintf_text_end _ (by decide)]
  simp

theorem buildXPathFromRole_unhandled (mapLower : GoString → GoString) (role name : GoString)
    (hr : ToLower mapLower (TrimSpace role) ∉ handledRoles) :
    buildXPathFromRole mapLower role name =
      if TrimSpace name ≠ [] then
        Sprintf fallbackFormat [.str (ToLower mapLower (TrimSpace role)),
          .str (TrimSpace name), .str (TrimSpace name)]
      else Sprintf fallbackRoleOnlyFormat [.str (ToLower mapLower (TrimSpace role))] := by
  simp only [handledRoles, List.mem_cons, List.mem_singleton, not_or, List.not_mem_nil,
    not_false_eq_true, and_true] at hr
  obtain ⟨h1, h2, h3, h4, h5, h6, h7, h8, h9, h10, h11, h12, h13, h14, h15, h16, h17, h18,
    h19, h20, h21, h22, h23, h24, h25⟩ := hr
  simp only [buildXPathFromRole, escapeXPathString_eq, h1, h2, h3, h4, h5, h6, h7, h8, h9, h10,
    h11, h12, h13, h14, h15, h16, h17, h18, h19, h20, h21, h22, h23, h24, h25, if_false, or_self]



/-! ## Occurrences of a text in a filled format -/

theorem isPrefixOf_of_sep (q : UInt8) (m : GoString) (hq : q ∉ m) :
    ∀ x y : GoString, m.isPrefixOf (x ++ q :: y) = true → m.isPrefixOf x = true := by
  induction m with
  | nil => intro x y _; simp
  | cons c m ih =>
    intro x y h
    have hcq : c ≠ q := fun hc => hq (hc ▸ List.mem_cons_self _ _)
    have hqm : q ∉ m := fun hmem => hq (List.mem_cons_of_mem _ hmem)
    cases x with
    | nil =>
      simp [List.isPrefixOf] at h
      exact absurd h.1 hcq
    | cons d x =>
      simp only [List.cons_append, List.isPrefixOf, Bool.and_eq_true] at h ⊢
      exact ⟨h.1, ih hqm x y h.2⟩

theorem Contains_nil_left (m : GoString) (hm : m ≠ []) : Contains [] m = false := by
  cases m with
  | nil => exact absurd rfl hm
  | cons c m => rfl

theorem Contains_of_sep (q : UInt8) (m : GoString) (hq : q ∉ m) (hm : m ≠ []) :
    ∀ a b : GoString, Contains (a ++ q :: b) m = true →
      Contains a m = true ∨ Contains b m = true := by
  intro a
  induction a with
  | nil =>
    intro b h
    simp only [List.nil_append, Contains, Bool.or_eq_true] at h
    rcases h with h | h
    · have := isPrefixOf_of_sep q m hq [] b (by simpa using h)
      cases m with
      | nil => exact absurd rfl hm
      | cons c m => simp [List.isPrefixOf] at this
    · exact Or.inr h
  | cons c a ih =>
    intro b h
    simp only [List.cons_append, Contains, Bool.or_eq_true] at h
    rcases h with h | h
    · left
      have := isPrefixOf_of_sep q m hq (c :: a) b (by simpa using h)
      simp [Contains, this]
    · rcases ih b h with h2 | h2
      · left; simp [Contains, h2]
      · exact Or.inr h2

theorem Contains_joinSep (q : UInt8) (m : GoString) (hq : q ∉ m) (hm : m ≠ []) :
    ∀ xs : List GoString, Contains (joinSep q xs) m = true → ∃ x ∈ xs, Contains x m = true := by
  intro xs
  induction xs with
  | nil =>
    intro h
    rw [joinSep, Contains_nil_left m hm] at h
    exact absurd h (by simp)
  | cons s rest ih =>
    intro h
    cases rest with
    | nil => exact ⟨s, List.mem_cons_self _ _, by simpa [joinSep] using h⟩
    | cons t rest =>
      rw [joinSep] at h
      rcases Contains_of_sep q m hq hm _ _ h with h1 | h1
      · exact ⟨s, List.mem_cons_self _ _, h1⟩
      · obtain ⟨x, hx, hxm⟩ := ih h1
        exact ⟨x, List.mem_cons_of_mem _ hx, hxm⟩

theorem mem_fillVerbs (x : GoString) :
    ∀ (segs args : List GoString), x ∈ fillVerbs segs args → x ∈ segs ∨ x ∈ args := by
  intro segs
  induction segs with
  | nil => intro args h; simp [fillVerbs] at h
  | cons s segs ih =>
    intro args h
    cases args with
    | nil =>
      simp only [fillVerbs, List.mem_cons] at h
      rcases h with h | h
      · exact Or.inl (h ▸ List.mem_cons_self _ _)
      · rcases ih [] h with h2 | h2
        · exact Or.inl (List.mem_cons_of_mem _ h2)
        · exact Or.inr h2
    | cons a args =>
      simp only [fillVerbs] at h
      split_ifs at h with hs
      · simp only [List.mem_cons] at h
        rcases h with h | h
        · exact Or.inr (h ▸ List.mem_cons_self _ _)
        · rcases ih args h with h2 | h2
          · exact Or.inl (List.mem_cons_of_mem _ h2)
          · exact Or.inr (List.mem_cons_of_mem _ h2)
      · simp only [List.mem_cons] at h
        rcases h with h | h
        · exact Or.inl (h ▸ List.mem_cons_self _ _)
        · rcases ih (a :: args) h with h2 | h2
          · exact Or.inl (List.mem_cons_of_mem _ h2)
          · exact Or.inr h2

theorem joinSep_cons (q : UInt8) (a : GoString) (ys : List GoString) (h : ys ≠ []) :
    joinSep q (a :: ys) = a ++ q :: joinSep q ys := by
  cases ys with
  | nil => exact absurd rfl h
  | cons y ys => rfl

theorem fillVerbs_ne_nil (segs args : List GoString) (h : segs ≠ []) :
    fillVerbs segs args ≠ [] := by
  cases segs with
  | nil => exact absurd rfl h
  | cons s segs =>
    cases args with
    | nil => simp [fillVerbs]
    | cons a args => simp only [fillVerbs]; split_ifs <;> simp

theorem fillVerbs_plain (s : GoString) (segs args : List GoString) (hs : s ≠ utf8 "%s") :
    fillVerbs (s :: segs) args = s :: fillVerbs segs args := by
  cases args with
  | nil => rfl
  | cons a args => simp [fillVerbs, hs]

theorem verb_eq : utf8 "%s" = [37, 115] := by rfl

theorem Sprintf_joinSep :
    ∀ (segs args : List GoString),
      (∀ s ∈ segs, s = utf8 "%s" ∨ (37 : UInt8) ∉ s) →
      segs.count (utf8 "%s") = args.length →
      Sprintf (joinSep 39 segs) (args.map Arg.str) = joinSep 39 (fillVerbs segs args) := by
  intro segs
  induction segs with
  | nil =>
    intro args _ hc
    have : args = [] := by simpa using hc.symm
    subst this
    simp [joinSep, fillVerbs, Sprintf_nil]
  | cons s rest ih =>
    intro args hsegs hc
    have hrest : ∀ t ∈ rest, t = utf8 "%s" ∨ (37 : UInt8) ∉ t :=
      fun t ht => hsegs t (List.mem_cons_of_mem _ ht)
    rcases hsegs s (List.mem_cons_self _ _) with hs | hs
    · -- the piece is a verb
      subst hs
      rw [List.count_cons_self] at hc
      cases args with
      | nil => simp at hc
      | cons a args =>
        have hc2 : rest.count (utf8 "%s") = args.length := by simpa using hc
        have hfill : fillVerbs (utf8 "%s" :: rest) (a :: args) = a :: fillVerbs rest args := by
          simp [fillVerbs]
        rw [hfill]
        cases rest with
        | nil =>
          have : args = [] := by simpa using hc2.symm
          subst this
          simp [joinSep, fillVerbs, verb_eq, Sprintf_str, Sprintf_nil]
        | cons t rest =>
          rw [joinSep_cons _ _ _ (by simp), joinSep_cons _ _ _ (fillVerbs_ne_nil _ _ (by simp)),
            verb_eq]
          simp only [List.cons_append, List.nil_append, List.map_cons]
          rw [Sprintf_str, Sprintf_byte _ _ _ (by decide), ih args hrest hc2]
    · -- the piece is plain text
      have hne : s ≠ utf8 "%s" := by
        intro h; subst h; exact hs (by decide)
      have hc2 : rest.count (utf8 "%s") = args.length := by
        rw [List.count_cons_of_ne (Ne.symm hne)] at hc; exact hc
      rw [fillVerbs_plain _ _ _ hne]
      cases rest with
      | nil =>
        have : args = [] := by simpa using hc2.symm
        subst this
        simp only [joinSep, fillVerbs, List.map_nil]
        exact Sprintf_text_end s (fun c hcmem h37 => hs (h37 ▸ hcmem))
      | cons t rest =>
        rw [joinSep_cons _ _ _ (by simp), joinSep_cons _ _ _ (fillVerbs_ne_nil _ _ (by simp)),
          Sprintf_text _ _ _ (fun c hcmem h37 => hs (h37 ▸ hcmem)),
          Sprintf_byte _ _ _ (by decide), ih args hrest hc2]

/-- A text without a single quote that occurs neither in a piece of a quote-separated
format nor in an operand does not occur in the filled format. -/
theorem Sprintf_avoids (format : GoString) (args : List GoString) (m : GoString)
    (hf : quoteSeparated format args.length m = true)
    (hq : (39 : UInt8) ∉ m) (hm : m ≠ [])
    (ha : ∀ a ∈ args, Contains a m = false) :
    Contains (Sprintf format (args.map Arg.str)) m = false := by
  simp only [quoteSeparated, Bool.and_eq_true, decide_eq_true_eq, List.all_eq_true,
    Bool.or_eq_true, Bool.not_eq_true', List.contains_eq_any_beq] at hf
  obtain ⟨⟨⟨hjoin, hsegs⟩, hcount⟩, hfree⟩ := hf
  have hsegs2 : ∀ s ∈ format.splitOn 39, s = utf8 "%s" ∨ (37 : UInt8) ∉ s := by
    intro s hs
    rcases hsegs s hs with h | h
    · exact Or.inl h
    · right
      intro hmem
      have : s.any (fun x => 37 == x) = true := List.any_eq_true.mpr ⟨37, hmem, by simp⟩
      rw [h] at this
      exact absurd this (by simp)
  have hS := Sprintf_joinSep (format.splitOn 39) args hsegs2 hcount
  rw [hjoin] at hS
  rw [hS]
  by_contra hcon
  have hcon2 : Contains (joinSep 39 (fillVerbs (List.splitOn 39 format) args)) m = true := by
    simpa using hcon
  obtain ⟨x, hx, hxm⟩ := Contains_joinSep 39 m hq hm _ hcon2
  rcases mem_fillVerbs x _ _ hx with h | h
  · rw [hfree x h] at hxm; exact absurd hxm (by simp)
  · rw [ha x h] at hxm; exact absurd hxm (by simp)

/-! ## The `switch` of `buildXPathFromRole`, case by case -/

theorem buildXPathFromRole_button (mapLower : GoString → GoString) (role name : GoString)
    (h : ToLower mapLower (TrimSpace role) = utf8 "button") :
    buildXPathFromRole mapLower role name = buildButtonXPath (TrimSpace name) := by
  simp only [buildXPathFromRole, escapeXPathString_eq, h]
  rfl

theorem buildXPathFromRole_link (mapLower : GoString → GoString) (role name : GoString)
    (h : ToLower mapLower (TrimSpace role) = utf8 "link") :
    buildXPathFromRole mapLower role name = buildLinkXPath (TrimSpace name) := by
  simp only [buildXPathFromRole, escapeXPathString_eq, h]
  rfl

theorem buildXPathFromRole_textbox (mapLower : GoString → GoString) (role name : GoString)
    (h : ToLower mapLower (TrimSpace role) = utf8 "textbox") :
    buildXPathFromRole mapLower role name = buildTextboxXPath (TrimSpace name) := by
  simp only [buildXPathFromRole, escapeXPathString_eq, h]
  rfl

theorem buildXPathFromRole_searchbox (mapLower : GoString → GoString) (role name : GoString)
    (h : ToLower mapLower (TrimSpace role) = utf8 "searchbox") :
    buildXPathFromRole mapLower role name = buildTextboxXPath (TrimSpace name) := by
  simp only [buildXPathFromRole, escapeXPathString_eq, h]
  rfl

theorem buildXPathFromRole_checkbox (mapLower : GoString → GoString) (role name : GoString)
    (h : ToLower mapLower (TrimSpace role) = utf8 "checkbox") :
    buildXPathFromRole mapLower role name = buildCheckboxXPath (TrimSpace name) := by
  simp only [buildXPathFromRole, escapeXPathString_eq, h]
  rfl

theorem buildXPathFromRole_radio (mapLower : GoString → GoString) (role name : GoString)
    (h : ToLower mapLower (TrimSpace role) = utf8 "radio") :
    buildXPathFromRole mapLower role name = buildRadioXPath (TrimSpace name) := by
  simp only [buildXPathFromRole, escapeXPathString_eq, h]
  rfl

theorem buildXPathFromRole_combobox (mapLower : GoString → GoString) (role name : GoString)
    (h : ToLower mapLower (TrimSpace role) = utf8 "combobox") :
    buildXPathFromRole mapLower role name = buildComboboxXPath (TrimSpace name) := by
  simp only [buildXPathFromRole, escapeXPathString_eq, h]
  rfl

theorem buildXPathFromRole_listbox (mapLower : GoString → GoString) (role name : GoString)
    (h : ToLower mapLower (TrimSpace role) = utf8 "listbox") :
    buildXPathFromRole mapLower role name = buildComboboxXPath (TrimSpace name) := by
  simp only [buildXPathFromRole, escapeXPathString_eq, h]
  rfl

theorem buildXPathFromRole_heading (mapLower : GoString → GoString) (role name : GoString)
    (h : ToLower mapLower (TrimSpace role) = utf8 "heading") :
    buildXPathFromRole mapLower role name = buildHeadingXPath (TrimSpace name) := by
  simp only [buildXPathFromRole, escapeXPathString_eq, h]
  rfl

theorem buildXPathFromRole_list (mapLower : GoString → GoString) (role name : GoString)
    (h : ToLower mapLower (TrimSpace role) = utf8 "list") :
    buildXPathFromRole mapLower role name = buildListXPath (TrimSpace name) := by
  simp only [buildXPathFromRole, escapeXPathString_eq, h]
  rfl

theorem buildXPathFromRole_listitem (mapLower : GoString → GoString) (role name : GoString)
    (h : ToLower mapLower (TrimSpace role) = utf8 "listitem") :
    buildXPathFromRole mapLower role name = buildListItemXPath (TrimSpace name) := by
  simp only [buildXPathFromRole, escapeXPathString_eq, h]
  rfl

theorem buildXPathFromRole_cell (mapLower : GoString → GoString) (role name : GoString)
    (h : ToLower mapLower (TrimSpace role) = utf8 "cell") :
    buildXPathFromRole mapLower role name = buildCellXPath (TrimSpace name) := by
  simp only [buildXPathFromRole, escapeXPathString_eq, h]
  rfl

theorem buildXPathFromRole_gridcell (mapLower : GoString → GoString) (role name : GoString)
    (h : ToLower mapLower (TrimSpace role) = utf8 "gridcell") :
    buildXPathFromRole mapLower role name = buildCellXPath (TrimSpace name) := by
  simp only [buildXPathFromRole, escapeXPathString_eq, h]
  rfl

theorem buildXPathFromRole_row (mapLower : GoString → GoString) (role name : GoString)
    (h : ToLower mapLower (TrimSpace role) = utf8 "row") :
    buildXPathFromRole mapLower role name = buildRowXPath (TrimSpace name) := by
  simp only [buildXPathFromRole, escapeXPathString_eq, h]
  rfl

theorem buildXPathFromRole_menuitem (mapLower : GoString → GoString) (role name : GoString)
    (h : ToLower mapLower (TrimSpace role) = utf8 "menuitem") :
    buildXPathFromRole mapLower role name = buildMenuItemXPath (TrimSpace name) := by
  simp only [buildXPathFromRole, escapeXPathString_eq, h]
  rfl

theorem buildXPathFromRole_tab (mapLower : GoString → GoString) (role name : GoString)
    (h : ToLower mapLower (TrimSpace role) = utf8 "tab") :
    buildXPathFromRole mapLower role name = buildTabXPath (TrimSpace name) := by
  simp only [buildXPathFromRole, escapeXPathString_eq, h]
  rfl

theorem buildXPathFromRole_article (mapLower : GoString → GoString) (role name : GoString)
    (h : ToLower mapLower (TrimSpace role) = utf8 "article") :
    buildXPathFromRole mapLower role name = buildArticleXPath (TrimSpace name) := by
  simp only [buildXPathFromRole, escapeXPathString_eq, h]
  rfl

theorem buildXPathFromRole_region (mapLower : GoString → GoString) (role name : GoString)
    (h : ToLower mapLower (TrimSpace role) = utf8 "region") :
    buildXPathFromRole mapLower role name = buildRegionXPath (TrimSpace name) := by
  simp only [buildXPathFromRole, escapeXPathString_eq, h]
  rfl

theorem buildXPathFromRole_section (mapLower : GoString → GoString) (role name : GoString)
    (h : ToLower mapLower (TrimSpace role) = utf8 "section") :
    buildXPathFromRole mapLower role name = buildRegionXPath (TrimSpace name) := by
  simp only [buildXPathFromRole, escapeXPathString_eq, h]
  rfl

theorem buildXPathFromRole_navigation (mapLower : GoString → GoString) (role name : GoString)
    (h : ToLower mapLower (TrimSpace role) = utf8 "navigation") :
    buildXPathFromRole mapLower role name = buildNavigationXPath (TrimSpace name) := by
  simp only [buildXPathFromRole, escapeXPathString_eq, h]
  rfl

theorem buildXPathFromRole_nav (mapLower : GoString → GoString) (role name : GoString)
    (h : ToLower mapLower (TrimSpace role) = utf8 "nav") :
    buildXPathFromRole mapLower role name = buildNavigationXPath (TrimSpace name) := by
  simp only [buildXPathFromRole, escapeXPathString_eq, h]
  rfl

theorem buildXPathFromRole_main (mapLower : GoString → GoString) (role name : GoString)
    (h : ToLower mapLower (TrimSpace role) = utf8 "main") :
    buildXPathFromRole mapLower role name = buildMainXPath (TrimSpace name) := by
  simp only [buildXPathFromRole, escapeXPathString_eq, h]
  rfl

theorem buildXPathFromRole_banner (mapLower : GoString → GoString) (role name : GoString)
    (h : ToLower mapLower (TrimSpace role) = utf8 "banner") :
    buildXPathFromRole mapLower role name = buildBannerXPath (TrimSpace name) := by
  simp only [buildXPathFromRole, escapeXPathString_eq, h]
  rfl

theorem buildXPathFromRole_contentinfo (mapLower : GoString → GoString) (role name : GoString)
    (h : ToLower mapLower (TrimSpace role) = utf8 "contentinfo") :
    buildXPathFromRole mapLower role name = buildContentinfoXPath (TrimSpace name) := by
  simp only [buildXPathFromRole, escapeXPathString_eq, h]
  rfl

theorem buildXPathFromRole_complementary (mapLower : GoString → GoString) (role name : GoString)
    (h : ToLower mapLower (TrimSpace role) = utf8 "complementary") :
    buildXPathFromRole mapLower role name = buildComplementaryXPath (TrimSpace name) := by
  simp only [buildXPathFromRole, escapeXPathString_eq, h]
  rfl


/-! ## The builders, one by one -/

theorem buildTextboxXPath_named (n : GoString) (hn : n ≠ []) :
    ∃ F ∈ equalityFormats,
      buildTextboxXPath n = Sprintf F (strArgs (occurrences (utf8 "%s") F) n) := by
  refine ⟨textboxFormat, by simp [equalityFormats], ?_⟩
  rw [show occurrences (utf8 "%s") textboxFormat = 23 from by rfl]
  simp [buildTextboxXPath, hn]

theorem buildTextboxXPath_blank : buildTextboxXPath [] = textboxRoleOnly := by
  simp [buildTextboxXPath]

theorem buildCheckboxXPath_named (n : GoString) (hn : n ≠ []) :
    ∃ F ∈ equalityFormats,
      buildCheckboxXPath n = Sprintf F (strArgs (occurrences (utf8 "%s") F) n) := by
  refine ⟨checkboxFormat, by simp [equalityFormats], ?_⟩
  rw [show occurrences (utf8 "%s") checkboxFormat = 4 from by rfl]
  simp [buildCheckboxXPath, hn]

theorem buildCheckboxXPath_blank : buildCheckboxXPath [] = checkboxRoleOnly := by
  simp [buildCheckboxXPath]

theorem buildRadioXPath_named (n : GoString) (hn : n ≠ []) :
    ∃ F ∈ equalityFormats,
      buildRadioXPath n = Sprintf F (strArgs (occurrences (utf8 "%s") F) n) := by
  refine ⟨radioFormat, by simp [equalityFormats], ?_⟩
  rw [show occurrences (utf8 "%s") radioFormat = 4 from by rfl]
  simp [buildRadioXPath, hn]

theorem buildRadioXPath_blank : buildRadioXPath [] = radioRoleOnly := by
  simp [buildRadioXPath]

theorem buildComboboxXPath_named (n : GoString) (hn : n ≠ []) :
    ∃ F ∈ equalityFormats,
      buildComboboxXPath n = Sprintf F (strArgs (occurrences (utf8 "%s") F) n) := by
  refine ⟨comboboxFormat, by simp [equalityFormats], ?_⟩
  rw [show occurrences (utf8 "%s") comboboxFormat = 6 from by rfl]
  simp [buildComboboxXPath, hn]

theorem buildComboboxXPath_blank : buildComboboxXPath [] = comboboxRoleOnly := by
  simp [buildComboboxXPath]

theorem buildHeadingXPath_named (n : GoString) (hn : n ≠ []) :
    ∃ F ∈ equalityFormats,
      buildHeadingXPath n = Sprintf F (strArgs (occurrences (utf8 "%s") F) n) := by
  refine ⟨headingFormat, by simp [equalityFormats], ?_⟩
  rw [show occurrences (utf8 "%s") headingFormat = 7 from by rfl]
  simp [buildHeadingXPath, hn]

theorem buildHeadingXPath_blank : buildHeadingXPath [] = headingRoleOnly := by
  simp [buildHeadingXPath]

theorem buildListXPath_named (n : GoString) (hn : n ≠ []) :
    ∃ F ∈ equalityFormats,
      buildListXPath n = Sprintf F (strArgs (occurrences (utf8 "%s") F) n) := by
  refine ⟨listFormat, by simp [equalityFormats], ?_⟩
  rw [show occurrences (utf8 "%s") listFormat = 3 from by rfl]
  simp [buildListXPath, hn]

theorem buildListXPath_blank : buildListXPath [] = listRoleOnly := by
  simp [buildListXPath]

theorem buildListItemXPath_named (n : GoString) (hn : n ≠ []) :
    ∃ F ∈ equalityFormats,
      buildListItemXPath n = Sprintf F (strArgs (occurrences (utf8 "%s") F) n) := by
  refine ⟨listItemFormat, by simp [equalityFormats], ?_⟩
  rw [show occurrences (utf8 "%s") listItemFormat = 4 from by rfl]
  simp [buildListItemXPath, hn]

theorem buildListItemXPath_blank : buildListItemXPath [] = listItemRoleOnly := by
  simp [buildListItemXPath]

theorem buildCellXPath_named (n : GoString) (hn : n ≠ []) :
    ∃ F ∈ equalityFormats,
      buildCellXPath n = Sprintf F (strArgs (occurrences (utf8 "%s") F) n) := by
  refine ⟨cellFormat, by simp [equalityFormats], ?_⟩
  rw [show occurrences (utf8 "%s") cellFormat = 4 from by rfl]
  simp [buildCellXPath, hn]

theorem buildCellXPath_blank : buildCellXPath [] = cellRoleOnly := by
  simp [buildCellXPath]

theorem buildRowXPath_named (n : GoString) (hn : n ≠ []) :
    ∃ F ∈ equalityFormats,
      buildRowXPath n = Sprintf F (strArgs (occurrences (utf8 "%s") F) n) := by
  refine ⟨rowFormat, by simp [equalityFormats], ?_⟩
  rw [show occurrences (utf8 "%s") rowFormat = 2 from by rfl]
  simp [buildRowXPath, hn]

theorem buildRowXPath_blank : buildRowXPath [] = rowRoleOnly := by
  simp [buildRowXPath]

theorem buildMenuItemXPath_named (n : GoString) (hn : n ≠ []) :
    ∃ F ∈ equalityFormats,
      buildMenuItemXPath n = Sprintf F (strArgs (occurrences (utf8 "%s") F) n) := by
  refine ⟨menuItemFormat, by simp [equalityFormats], ?_⟩
  rw [show occurrences (utf8 "%s") menuItemFormat = 6 from by rfl]
  simp [buildMenuItemXPath, hn]

theorem buildMenuItemXPath_blank : buildMenuItemXPath [] = menuItemRoleOnly := by
  simp [buildMenuItemXPath]

theorem buildTabXPath_named (n : GoString) (hn : n ≠ []) :
    ∃ F ∈ equalityFormats,
      buildTabXPath n = Sprintf F (strArgs (occurrences (utf8 "%s") F) n) := by
  refine ⟨tabFormat, by simp [equalityFormats], ?_⟩
  rw [show occurrences (utf8 "%s") tabFormat = 2 from by rfl]
  simp [buildTabXPath, hn]

theorem buildTabXPath_blank : buildTabXPath [] = tabRoleOnly := by
  simp [buildTabXPath]

theorem buildArticleXPath_named (n : GoString) (hn : n ≠ []) :
    ∃ F ∈ equalityFormats,
      buildArticleXPath n = Sprintf F (strArgs (occurrences (utf8 "%s") F) n) := by
  refine ⟨articleFormat, by simp [equalityFormats], ?_⟩
  rw [show occurrences (utf8 "%s") articleFormat = 2 from by rfl]
  simp [buildArticleXPath, hn]

theorem buildArticleXPath_blank : buildArticleXPath [] = articleRoleOnly := by
  simp [buildArticleXPath]

theorem buildRegionXPath_named (n : GoString) (hn : n ≠ []) :
    ∃ F ∈ equalityFormats,
      buildRegionXPath n = Sprintf F (strArgs (occurrences (utf8 "%s") F) n) := by
  refine ⟨regionFormat, by simp [equalityFormats], ?_⟩
  rw [show occurrences (utf8 "%s") regionFormat = 2 from by rfl]
  simp [buildRegionXPath, hn]

theorem buildRegionXPath_blank : buildRegionXPath [] = regionRoleOnly := by
  simp [buildRegionXPath]

theorem buildNavigationXPath_named (n : GoString) (hn : n ≠ []) :
    ∃ F ∈ equalityFormats,
      buildNavigationXPath n = Sprintf F (strArgs (occurrences (utf8 "%s") F) n) := by
  refine ⟨navigationFormat, by simp [equalityFormats], ?_⟩
  rw [show occurrences (utf8 "%s") navigationFormat = 2 from by rfl]
  simp [buildNavigationXPath, hn]

theorem buildNavigationXPath_blank : buildNavigationXPath [] = navigationRoleOnly := by
  simp [buildNavigationXPath]

theorem buildMainXPath_named (n : GoString) (hn : n ≠ []) :
    ∃ F ∈ equalityFormats,
      buildMainXPath n = Sprintf F (strArgs (occurrences (utf8 "%s") F) n) := by
  refine ⟨mainFormat, by simp [equalityFormats], ?_⟩
  rw [show occurrences (utf8 "%s") mainFormat = 2 from by rfl]
  simp [buildMainXPath, hn]

theorem buildMainXPath_blank : buildMainXPath [] = mainRoleOnly := by
  simp [buildMainXPath]

theorem buildBannerXPath_named (n : GoString) (hn : n ≠ []) :
    ∃ F ∈ equalityFormats,
      buildBannerXPath n = Sprintf F (strArgs (occurrences (utf8 "%s") F) n) := by
  refine ⟨bannerFormat, by simp [equalityFormats], ?_⟩
  rw [show occurrences (utf8 "%s") bannerFormat = 2 from by rfl]
  simp [buildBannerXPath, hn]

theorem buildBannerXPath_blank : buildBannerXPath [] = bannerRoleOnly := by
  simp [buildBannerXPath]

theorem buildContentinfoXPath_named (n : GoString) (hn : n ≠ []) :
    ∃ F ∈ equalityFormats,
      buildContentinfoXPath n = Sprintf F (strArgs (occurrences (utf8 "%s") F) n) := by
  refine ⟨contentinfoFormat, by simp [equalityFormats], ?_⟩
  rw [show occurrences (utf8 "%s") contentinfoFormat = 2 from by rfl]
  simp [buildContentinfoXPath, hn]

theorem buildContentinfoXPath_blank : buildContentinfoXPath [] = contentinfoRoleOnly := by
  simp [buildContentinfoXPath]

theorem buildComplementaryXPath_named (n : GoString) (hn : n ≠ []) :
    ∃ F ∈ equalityFormats,
      buildComplementaryXPath n = Sprintf F (strArgs (occurrences (utf8 "%s") F) n) := by
  refine ⟨complementaryFormat, by simp [equalityFormats], ?_⟩
  rw [show occurrences (utf8 "%s") complementaryFormat = 2 from by rfl]
  simp [buildComplementaryXPath, hn]

theorem buildComplementaryXPath_blank : buildComplementaryXPath [] = complementaryRoleOnly := by
  simp [buildComplementaryXPath]



theorem buildButtonXPath_blank : buildButtonXPath [] = buttonRoleOnly := by
  simp [buildButtonXPath]

theorem buildLinkXPath_blank : buildLinkXPath [] = linkRoleOnly := by
  simp [buildLinkXPath]

theorem equalityFormats_facts :
    ∀ F ∈ equalityFormats,
      quoteSeparated F (occurrences (utf8 "%s") F) (utf8 "contains(") = true ∧
      verbsEnclosed (utf8 "='") (utf8 "'") F = true ∧
      occurrences (utf8 "contains(") F = 0 := by
  decide

theorem fallbackRoleOnlyFormat_facts :
    ∀ m ∈ textualMarkers,
      quoteSeparated fallbackRoleOnlyFormat 1 m = true ∧ (39 : UInt8) ∉ m ∧ m ≠ [] := by
  decide

theorem roleOnly_no_textual_predicate :
    ∀ x ∈ [buttonRoleOnly, linkRoleOnly, textboxRoleOnly, checkboxRoleOnly, radioRoleOnly,
        comboboxRoleOnly, headingRoleOnly, listRoleOnly, listItemRoleOnly, cellRoleOnly,
        rowRoleOnly, menuItemRoleOnly, tabRoleOnly, articleRoleOnly, regionRoleOnly,
        navigationRoleOnly, mainRoleOnly, bannerRoleOnly, contentinfoRoleOnly,
        complementaryRoleOnly],
      hasTextualPredicate x = false := by
  decide

theorem buildXPathFromRole_blank_handled (mapLower : GoString → GoString)
    (role name : GoString) (hn : TrimSpace name = [])
    (hr : ToLower mapLower (TrimSpace role) ∈ handledRoles) :
    hasTextualPredicate (buildXPathFromRole mapLower role name) = false := by
  have hall := roleOnly_no_textual_predicate
  simp only [handledRoles, List.mem_cons, List.mem_singleton, List.not_mem_nil, or_false] at hr
  rcases hr with h | h | h | h | h | h | h | h | h | h | h | h | h | h | h | h | h | h | h | h | h | h | h | h | h
  all_goals first
    | (rw [buildXPathFromRole_button _ _ _ h, hn, buildButtonXPath_blank]
       exact hall buttonRoleOnly (by simp))
    | (rw [buildXPathFromRole_link _ _ _ h, hn, buildLinkXPath_blank]
       exact hall linkRoleOnly (by simp))
    | (rw [buildXPathFromRole_textbox _ _ _ h, hn, buildTextboxXPath_blank]
       exact hall textboxRoleOnly (by simp))
    | (rw [buildXPathFromRole_searchbox _ _ _ h, hn, buildTextboxXPath_blank]
       exact hall textboxRoleOnly (by simp))
    | (rw [buildXPathFromRole_checkbox _ _ _ h, hn, buildCheckboxXPath_blank]
       exact hall checkboxRoleOnly (by simp))
    | (rw [buildXPathFromRole_radio _ _ _ h, hn, buildRadioXPath_blank]
       exact hall radioRoleOnly (by simp))
    | (rw [buildXPathFromRole_combobox _ _ _ h, hn, buildComboboxXPath_blank]
       exact hall comboboxRoleOnly (by simp))
    | (rw [buildXPathFromRole_listbox _ _ _ h, hn, buildComboboxXPath_blank]
       exact hall comboboxRoleOnly (by simp))
    | (rw [buildXPathFromRole_heading _ _ _ h, hn, buildHeadingXPath_blank]
       exact hall headingRoleOnly (by simp))
    | (rw [buildXPathFromRole_list _ _ _ h, hn, buildListXPath_blank]
       exact hall listRoleOnly (by simp))
    | (rw [buildXPathFromRole_listitem _ _ _ h, hn, buildListItemXPath_blank]
       exact hall listItemRoleOnly (by simp))
    | (rw [buildXPathFromRole_cell _ _ _ h, hn, buildCellXPath_blank]
       exact hall cellRoleOnly (by simp))
    | (rw [buildXPathFromRole_gridcell _ _ _ h, hn, buildCellXPath_blank]
       exact hall cellRoleOnly (by simp))
    | (rw [buildXPathFromRole_row _ _ _ h, hn, buildRowXPath_blank]
       exact hall rowRoleOnly (by simp))
    | (rw [buildXPathFromRole_menuitem _ _ _ h, hn, buildMenuItemXPath_blank]
       exact hall menuItemRoleOnly (by simp))
    | (rw [buildXPathFromRole_tab _ _ _ h, hn, buildTabXPath_blank]
       exact hall tabRoleOnly (by simp))
    | (rw [buildXPathFromRole_article _ _ _ h, hn, buildArticleXPath_blank]
       exact hall articleRoleOnly (by simp))
    | (rw [buildXPathFromRole_region _ _ _ h, hn, buildRegionXPath_blank]
       exact hall regionRoleOnly (by simp))
    | (rw [buildXPathFromRole_section _ _ _ h, hn, buildRegionXPath_blank]
       exact hall regionRoleOnly (by simp))
    | (rw [buildXPathFromRole_navigation _ _ _ h, hn, buildNavigationXPath_blank]
       exact hall navigationRoleOnly (by simp))
    | (rw [buildXPathFromRole_nav _ _ _ h, hn, buildNavigationXPath_blank]
       exact hall navigationRoleOnly (by simp))
    | (rw [buildXPathFromRole_main _ _ _ h, hn, buildMainXPath_blank]
       exact hall mainRoleOnly (by simp))
    | (rw [buildXPathFromRole_banner _ _ _ h, hn, buildBannerXPath_blank]
       exact hall bannerRoleOnly (by simp))
    | (rw [buildXPathFromRole_contentinfo _ _ _ h, hn, buildContentinfoXPath_blank]
       exact hall contentinfoRoleOnly (by simp))
    | (rw [buildXPathFromRole_complementary _ _ _ h, hn, buildComplementaryXPath_blank]
       exact hall complementaryRoleOnly (by simp))

theorem hasTextualPredicate_fallbackRoleOnly (r : GoString)
    (h : hasTextualPredicate r = false) :
    hasTextualPredicate (Sprintf fallbackRoleOnlyFormat [.str r]) = false := by
  simp only [hasTextualPredicate, List.any_eq_false, Bool.not_eq_true] at h ⊢
  intro m hm
  obtain ⟨hq, h39, hne⟩ := fallbackRoleOnlyFormat_facts m hm
  have := Sprintf_avoids fallbackRoleOnlyFormat [r] m hq h39 hne
    (by intro a ha; simp only [List.mem_singleton] at ha; subst ha; exact h m hm)
  simpa using this


theorem buildXPathFromRole_named_handled (mapLower : GoString → GoString)
    (role name : GoString) (hn : TrimSpace name ≠ [])
    (hb : ToLower mapLower (TrimSpace role) ≠ utf8 "button")
    (hl : ToLower mapLower (TrimSpace role) ≠ utf8 "link")
    (hr : ToLower mapLower (TrimSpace role) ∈ handledRoles) :
    ∃ F ∈ equalityFormats,
      buildXPathFromRole mapLower role name =
        Sprintf F (strArgs (occurrences (utf8 "%s") F) (TrimSpace name)) := by
  simp only [handledRoles, List.mem_cons, List.mem_singleton, List.not_mem_nil, or_false] at hr
  rcases hr with h | h | h | h | h | h | h | h | h | h | h | h | h | h | h | h | h | h | h | h | h | h | h | h | h
  all_goals first
    | exact absurd h hb
    | exact absurd h hl
    | (rw [buildXPathFromRole_textbox _ _ _ h]; exact buildTextboxXPath_named _ hn)
    | (rw [buildXPathFromRole_searchbox _ _ _ h]; exact buildTextboxXPath_named _ hn)
    | (rw [buildXPathFromRole_checkbox _ _ _ h]; exact buildCheckboxXPath_named _ hn)
    | (rw [buildXPathFromRole_radio _ _ _ h]; exact buildRadioXPath_named _ hn)
    | (rw [buildXPathFromRole_combobox _ _ _ h]; exact buildComboboxXPath_named _ hn)
    | (rw [buildXPathFromRole_listbox _ _ _ h]; exact buildComboboxXPath_named _ hn)
    | (rw [buildXPathFromRole_heading _ _ _ h]; exact buildHeadingXPath_named _ hn)
    | (rw [buildXPathFromRole_list _ _ _ h]; exact buildListXPath_named _ hn)
    | (rw [buildXPathFromRole_listitem _ _ _ h]; exact buildListItemXPath_named _ hn)
    | (rw [buildXPathFromRole_cell _ _ _ h]; exact buildCellXPath_named _ hn)
    | (rw [buildXPathFromRole_gridcell _ _ _ h]; exact buildCellXPath_named _ hn)
    | (rw [buildXPathFromRole_row _ _ _ h]; exact buildRowXPath_named _ hn)
    | (rw [buildXPathFromRole_menuitem _ _ _ h]; exact buildMenuItemXPath_named _ hn)
    | (rw [buildXPathFromRole_tab _ _ _ h]; exact buildTabXPath_named _ hn)
    | (rw [buildXPathFromRole_article _ _ _ h]; exact buildArticleXPath_named _ hn)
    | (rw [buildXPathFromRole_region _ _ _ h]; exact buildRegionXPath_named _ hn)
    | (rw [buildXPathFromRole_section _ _ _ h]; exact buildRegionXPath_named _ hn)
    | (rw [buildXPathFromRole_navigation _ _ _ h]; exact buildNavigationXPath_named _ hn)
    | (rw [buildXPathFromRole_nav _ _ _ h]; exact buildNavigationXPath_named _ hn)
    | (rw [buildXPathFromRole_main _ _ _ h]; exact buildMainXPath_named _ hn)
    | (rw [buildXPathFromRole_banner _ _ _ h]; exact buildBannerXPath_named _ hn)
    | (rw [buildXPathFromRole_contentinfo _ _ _ h]; exact buildContentinfoXPath_named _ hn)
    | (rw [buildXPathFromRole_complementary _ _ _ h]; exact buildComplementaryXPath_named _ hn)

/-! ## Trimming and role normalisation -/

theorem leadingSpaceWidth_whiteSpace :
    ∀ x ∈ whiteSpaceEncodings, ∀ rest : GoString,
      leadingSpaceWidth (x ++ rest) = x.length ∧ 0 < x.length := by
  intro x hx rest
  simp only [whiteSpaceEncodings, whiteSpaceRunes, List.map_cons, List.map_nil, List.mem_cons,
    List.mem_singleton, List.not_mem_nil, or_false] at hx
  rcases hx with h | h | h | h | h | h | h | h | h | h | h | h | h | h | h | h | h | h | h | h |
    h | h | h | h | h
  all_goals (subst h; exact ⟨by rfl, by decide⟩)

theorem trimLeftFuel_nil (fuel : Nat) : trimLeftFuel fuel [] = [] := by
  cases fuel <;> rfl

theorem trimLeftFuel_blank :
    ∀ (runs : List GoString) (fuel : Nat), (∀ r ∈ runs, r ∈ whiteSpaceEncodings) →
      runs.length ≤ fuel → trimLeftFuel fuel runs.flatten = [] := by
  intro runs
  induction runs with
  | nil => intro fuel _ _; simpa using trimLeftFuel_nil fuel
  | cons x runs ih =>
    intro fuel hall hlen
    cases fuel with
    | zero => simp at hlen
    | succ f =>
      obtain ⟨hw, hpos⟩ := leadingSpaceWidth_whiteSpace x (hall x (List.mem_cons_self _ _))
        runs.flatten
      have hstep : trimLeftFuel (f + 1) (x ++ runs.flatten) =
          trimLeftFuel f ((x ++ runs.flatten).drop x.length) := by
        rw [trimLeftFuel, hw]
        split
        · rename_i h0; omega
        · rfl
      rw [List.flatten_cons, hstep, List.drop_left]
      exact ih f (fun r hr => hall r (List.mem_cons_of_mem _ hr)) (by simpa using hlen)

theorem TrimSpace_blank (s : GoString) (h : isBlank s) : TrimSpace s = [] := by
  obtain ⟨runs, hall, rfl⟩ := h
  have hlen : runs.length ≤ runs.flatten.length := by
    induction runs with
    | nil => simp
    | cons x runs ih =>
      have := (leadingSpaceWidth_whiteSpace x (hall x (List.mem_cons_self _ _)) []).2
      have := ih (fun r hr => hall r (List.mem_cons_of_mem _ hr))
      simp only [List.flatten_cons, List.length_append, List.length_cons]
      omega
  have hl : TrimLeftSpace runs.flatten = [] := trimLeftFuel_blank runs _ hall hlen
  rw [TrimSpace, hl]
  rfl
theorem leadingSpaceWidth_ascii (c : UInt8) (rest : GoString) (hc : c < 0x80)
    (hs : asciiSpace c = false) : leadingSpaceWidth (c :: rest) = 0 := by
  have h1 : c ≠ 0xC2 := by intro h; subst h; exact absurd hc (by decide)
  have h2 : c ≠ 0xE1 := by intro h; subst h; exact absurd hc (by decide)
  have h3 : c ≠ 0xE2 := by intro h; subst h; exact absurd hc (by decide)
  have h4 : c ≠ 0xE3 := by intro h; subst h; exact absurd hc (by decide)
  unfold leadingSpaceWidth
  simp only [hs, Bool.false_eq_true, if_false]
  split <;> first | rfl | (exfalso; simp_all)

theorem trailingSpaceWidth_ascii (c : UInt8) (rest : GoString) (hc : c < 0x80)
    (hs : asciiSpace c = false) : trailingSpaceWidth (c :: rest) = 0 := by
  have hge : ¬ (0x80 ≤ c) := UInt8.not_le.mpr hc
  have h1 : c ≠ 0x85 := by intro h; subst h; exact absurd hc (by decide)
  have h2 : c ≠ 0xA0 := by intro h; subst h; exact absurd hc (by decide)
  have h3 : c ≠ 0x80 := by intro h; subst h; exact absurd hc (by decide)
  have h4 : c ≠ 0x9F := by intro h; subst h; exact absurd hc (by decide)
  have h5 : c ≠ 0xA8 := by intro h; subst h; exact absurd hc (by decide)
  have h6 : c ≠ 0xA9 := by intro h; subst h; exact absurd hc (by decide)
  have h7 : c ≠ 0xAF := by intro h; subst h; exact absurd hc (by decide)
  unfold trailingSpaceWidth
  simp only [hs, Bool.false_eq_true, if_false]
  cases rest with
  | nil => rfl
  | cons d more =>
    cases more with
    | nil => simp [h1, h2]
    | cons e more => simp [h1, h2, h3, h4, h5, h6, h7, hge]

theorem trimLeftFuel_stop (fuel : Nat) (s : GoString) (h : leadingSpaceWidth s = 0) :
    trimLeftFuel fuel s = s := by
  cases fuel with
  | zero => rfl
  | succ f => rw [trimLeftFuel, h]

theorem trimRightFuel_stop (fuel : Nat) (s : GoString) (h : trailingSpaceWidth s = 0) :
    trimRightFuel fuel s = s := by
  cases fuel with
  | zero => rfl
  | succ f => rw [trimRightFuel, h]

theorem trimRightFuel_nil (fuel : Nat) : trimRightFuel fuel [] = [] := by
  cases fuel <;> rfl

theorem trimLeftFuel_asciiSpaces :
    ∀ (pre s : GoString) (fuel : Nat), (∀ c ∈ pre, asciiSpace c = true) →
      pre.length ≤ fuel → trimLeftFuel fuel (pre ++ s) = trimLeftFuel (fuel - pre.length) s := by
  intro pre
  induction pre with
  | nil => intro s fuel _ _; simp
  | cons c pre ih =>
    intro s fuel hall hlen
    cases fuel with
    | zero => simp at hlen
    | succ f =>
      have hc : asciiSpace c = true := hall c (List.mem_cons_self _ _)
      have hw : leadingSpaceWidth (c :: (pre ++ s)) = 1 := by
        simp [leadingSpaceWidth, hc]
      rw [List.cons_append, trimLeftFuel, hw]
      simp only [List.drop_succ_cons, List.drop_zero, List.length_cons, Nat.add_sub_add_right]
      exact ih s f (fun d hd => hall d (List.mem_cons_of_mem _ hd)) (by simpa using hlen)

theorem trimRightFuel_asciiSpaces :
    ∀ (pre s : GoString) (fuel : Nat), (∀ c ∈ pre, asciiSpace c = true) →
      pre.length ≤ fuel →
      trimRightFuel fuel (pre ++ s) = trimRightFuel (fuel - pre.length) s := by
  intro pre
  induction pre with
  | nil => intro s fuel _ _; simp
  | cons c pre ih =>
    intro s fuel hall hlen
    cases fuel with
    | zero => simp at hlen
    | succ f =>
      have hc : asciiSpace c = true := hall c (List.mem_cons_self _ _)
      have hw : trailingSpaceWidth (c :: (pre ++ s)) = 1 := by
        simp [trailingSpaceWidth, hc]
      rw [List.cons_append, trimRightFuel, hw]
      simp only [List.drop_succ_cons, List.drop_zero, List.length_cons, Nat.add_sub_add_right]
      exact ih s f (fun d hd => hall d (List.mem_cons_of_mem _ hd)) (by simpa using hlen)

/-- Trimming a string of ASCII bytes that neither starts nor ends with white space,
padded with ASCII white space on both sides, gives the string back. -/
theorem TrimSpace_padded (pre core post : GoString)
    (hpre : ∀ c ∈ pre, asciiSpace c = true) (hpost : ∀ c ∈ post, asciiSpace c = true)
    (hascii : ∀ c ∈ core, c < 0x80)
    (hfirst : ∀ c ∈ core.head?, asciiSpace c = false)
    (hlast : ∀ c ∈ core.getLast?, asciiSpace c = false) :
    TrimSpace (pre ++ core ++ post) = core := by
  cases core with
  | nil =>
    have hall : ∀ c ∈ pre ++ post, asciiSpace c = true := by
      intro c hc
      rcases List.mem_append.mp hc with h | h
      · exact hpre c h
      · exact hpost c h
    have := trimLeftFuel_asciiSpaces (pre ++ post) [] (pre ++ post).length hall (le_refl _)
    simp only [List.append_nil] at this
    rw [TrimSpace, TrimLeftSpace, List.append_nil, this, trimLeftFuel_nil]
    rfl
  | cons a core =>
    have hleft : TrimLeftSpace (pre ++ (a :: core) ++ post) = (a :: core) ++ post := by
      rw [TrimLeftSpace, List.append_assoc,
        trimLeftFuel_asciiSpaces pre ((a :: core) ++ post) _ hpre (by simp)]
      exact trimLeftFuel_stop _ _ (leadingSpaceWidth_ascii a _
        (hascii a (List.mem_cons_self _ _)) (hfirst a (by simp)))
    rw [TrimSpace, hleft, TrimRightSpace, List.reverse_append,
      trimRightFuel_asciiSpaces post.reverse (a :: core).reverse _
        (fun c hc => hpost c (List.mem_reverse.mp hc)) (by simp; omega)]
    cases hrev : (a :: core).reverse with
    | nil => simp at hrev
    | cons c rest =>
      have hmem : c ∈ a :: core := by
        have : c ∈ (a :: core).reverse := by rw [hrev]; exact List.mem_cons_self _ _
        exact List.mem_reverse.mp this
      have hl : (a :: core).getLast? = some c := by
        rw [List.getLast?_eq_head?_reverse, hrev]; rfl
      rw [trimRightFuel_stop _ _ (trailingSpaceWidth_ascii c rest (hascii c hmem)
        (hlast c (by rw [hl]; rfl))), ← hrev, List.reverse_reverse]

/-- The normalised role of an ASCII word in any letter case, padded with ASCII white
space, is the word in lower case. -/
theorem normalizedRole_padded (mapLower : GoString → GoString) (pre core post : GoString)
    (hpre : ∀ c ∈ pre, asciiSpace c = true) (hpost : ∀ c ∈ post, asciiSpace c = true)
    (hascii : ∀ c ∈ core, c < 0x80)
    (hfirst : ∀ c ∈ core.head?, asciiSpace c = false)
    (hlast : ∀ c ∈ core.getLast?, asciiSpace c = false) :
    ToLower mapLower (TrimSpace (pre ++ core ++ post)) = core.map asciiLower := by
  rw [TrimSpace_padded pre core post hpre hpost hascii hfirst hlast, ToLower]
  have : core.all (fun c => decide (c < 0x80)) = true := by
    simpa [List.all_eq_true] using hascii
  rw [if_pos this]
/-! ## The locator engine -/

/-- C1 (code at the failing input). `escapeXPathString` returns the name unchanged and
every format wraps it in single quotes, so a single quote in the name ends the literal
early: for the button role and the name `It's` a literal of the result is left open (the
expression is malformed), and for the tab role the literals of the result are `tab`,
`It`, ` or @aria-label=` and `s`, none of which is the name. -/
theorem buildXPathFromRole_single_quote_breaks_literal :
    xpathLiterals (buildXPathFromRole id (utf8 "button") (utf8 "It's")) = none ∧
    xpathLiterals (buildXPathFromRole id (utf8 "tab") (utf8 "It's")) =
      some [utf8 "tab", utf8 "It", utf8 " or @aria-label=", utf8 "s"] ∧
    buildXPathFromRole id (utf8 "tab") (utf8 "It's") =
      utf8 "//*[@role='tab' and (normalize-space(.)='It's' or @aria-label='It's')]" := by
  refine ⟨?_, ?_, ?_⟩ <;> rfl

/-- C2 (code at the failing inputs). `escapeXPathString` returns its argument on every
path: a name with only single quotes is not moved into double quotes, and a name with
both kinds of quote is not assembled with `concat(...)`; the formats then wrap the raw
name in single quotes. -/
theorem escapeXPathString_returns_name_unquoted :
    (∀ s : GoString, escapeXPathString s = s) ∧
    escapeXPathString (utf8 "He said \"It's ok\"") ≠
      utf8 "concat('He said \"It', \"'\", 's ok\"')" ∧
    buildXPathFromRole id (utf8 "tab") (utf8 "He said \"It's ok\"") =
      utf8 ("//*[@role='tab' and (normalize-space(.)='He said \"It's ok\"' " ++
        "or @aria-label='He said \"It's ok\"')]") ∧
    buildXPathFromRole id (utf8 "row") (utf8 "It's") =
      utf8 "(\n\t\t//tr[@aria-label='It's'] |\n\t\t//*[@role='row' and @aria-label='It's']\n\t)" := by
  refine ⟨escapeXPathString_eq, ?_, ?_, ?_⟩
  · rw [escapeXPathString_eq]; decide
  · rfl
  · rfl


/-! ## Blank names, long names, and the roles without a threshold -/

/-- C3 (counterexample). For the unhandled role `x' or @aria-label='y` and the empty
name the result is `//*[@role='x' or @aria-label='y']`: the role is embedded as it is,
and the result carries a comparison on `@aria-label`. -/
theorem buildXPathFromRole_blank_name_role_carries_predicate :
    buildXPathFromRole id (utf8 "x' or @aria-label='y") [] =
      utf8 "//*[@role='x' or @aria-label='y']" ∧
    hasTextualPredicate (buildXPathFromRole id (utf8 "x' or @aria-label='y") []) = true := by
  constructor <;> rfl

/-- The expression of a handled role for a name that trims to the empty string. -/
theorem buildXPathFromRole_role_only (mapLower : GoString → GoString)
    (role name : GoString) (hn : TrimSpace name = []) :
    ∀ entry ∈ roleOnlyExpressions, ToLower mapLower (TrimSpace role) = entry.1 →
      buildXPathFromRole mapLower role name = entry.2 := by
  intro entry he hrole
  simp only [roleOnlyExpressions, List.mem_cons, List.mem_singleton, List.not_mem_nil,
    or_false] at he
  rcases he with rfl | rfl | rfl | rfl | rfl | rfl | rfl | rfl | rfl | rfl | rfl | rfl | rfl | rfl | rfl | rfl | rfl | rfl | rfl | rfl | rfl | rfl | rfl | rfl | rfl
  · rw [buildXPathFromRole_button mapLower role name hrole, hn, buildButtonXPath_blank]
    rfl
  · rw [buildXPathFromRole_link mapLower role name hrole, hn, buildLinkXPath_blank]
    rfl
  · rw [buildXPathFromRole_textbox mapLower role name hrole, hn, buildTextboxXPath_blank]
    rfl
  · rw [buildXPathFromRole_searchbox mapLower role name hrole, hn, buildTextboxXPath_blank]
    rfl
  · rw [buildXPathFromRole_checkbox mapLower role name hrole, hn, buildCheckboxXPath_blank]
    rfl
  · rw [buildXPathFromRole_radio mapLower role name hrole, hn, buildRadioXPath_blank]
    rfl
  · rw [buildXPathFromRole_combobox mapLower role name hrole, hn, buildComboboxXPath_blank]
    rfl
  · rw [buildXPathFromRole_listbox mapLower role name hrole, hn, buildComboboxXPath_blank]
    rfl
  · rw [buildXPathFromRole_heading mapLower role name hrole, hn, buildHeadingXPath_blank]
    rfl
  · rw [buildXPathFromRole_list mapLower role name hrole, hn, buildListXPath_blank]
    rfl
  · rw [buildXPathFromRole_listitem mapLower role name hrole, hn, buildListItemXPath_blank]
    rfl
  · rw [buildXPathFromRole_cell mapLower role name hrole, hn, buildCellXPath_blank]
    rfl
  · rw [buildXPathFromRole_gridcell mapLower role name hrole, hn, buildCellXPath_blank]
    rfl
  · rw [buildXPathFromRole_row mapLower role name hrole, hn, buildRowXPath_blank]
    rfl
  · rw [buildXPathFromRole_menuitem mapLower role name hrole, hn, buildMenuItemXPath_blank]
    rfl
  · rw [buildXPathFromRole_tab mapLower role name hrole, hn, buildTabXPath_blank]
    rfl
  · rw [buildXPathFromRole_article mapLower role name hrole, hn, buildArticleXPath_blank]
    rfl
  · rw [buildXPathFromRole_region mapLower role name hrole, hn, buildRegionXPath_blank]
    rfl
  · rw [buildXPathFromRole_section mapLower role name hrole, hn, buildRegionXPath_blank]
    rfl
  · rw [buildXPathFromRole_navigation mapLower role name hrole, hn, buildNavigationXPath_blank]
    rfl
  · rw [buildXPathFromRole_nav mapLower role name hrole, hn, buildNavigationXPath_blank]
    rfl
  · rw [buildXPathFromRole_main mapLower role name hrole, hn, buildMainXPath_blank]
    rfl
  · rw [buildXPathFromRole_banner mapLower role name hrole, hn, buildBannerXPath_blank]
    rfl
  · rw [buildXPathFromRole_contentinfo mapLower role name hrole, hn, buildContentinfoXPath_blank]
    rfl
  · rw [buildXPathFromRole_complementary mapLower role name hrole, hn, buildComplementaryXPath_blank]
    rfl

/-- C3 (as amended). For every role string and every name that is empty or consists only
of white space, `buildXPathFromRole` returns the role-only expression of the role: the
result is the one for the empty name; for a handled role it is the union listed for
the role in `roleOnlyExpressions`, which has an entry for every handled role and none
with a textual predicate; for any other role it is `//*[@role='r']` with the trimmed,
lower-cased role `r` embedded as it is, and it contains no textual predicate unless `r`
itself carries the text of one. -/
theorem buildXPathFromRole_blank_name (mapLower : GoString → GoString)
    (role name : GoString) (hblank : isBlank name) :
    buildXPathFromRole mapLower role name = buildXPathFromRole mapLower role [] ∧
    (ToLower mapLower (TrimSpace role) ∈ handledRoles →
      hasTextualPredicate (buildXPathFromRole mapLower role name) = false) ∧
    (ToLower mapLower (TrimSpace role) ∉ handledRoles →
      buildXPathFromRole mapLower role name =
        utf8 "//*[@role='" ++ ToLower mapLower (TrimSpace role) ++ utf8 "']") ∧
    (hasTextualPredicate (ToLower mapLower (TrimSpace role)) = false →
      hasTextualPredicate (buildXPathFromRole mapLower role name) = false) ∧
    (∀ entry ∈ roleOnlyExpressions, ToLower mapLower (TrimSpace role) = entry.1 →
      buildXPathFromRole mapLower role name = entry.2) ∧
    roleOnlyExpressions.map Prod.fst = handledRoles ∧
    (∀ entry ∈ roleOnlyExpressions, hasTextualPredicate entry.2 = false) := by
  have hn : TrimSpace name = [] := TrimSpace_blank name hblank
  have hnil : TrimSpace ([] : GoString) = [] := by rfl
  refine ⟨?_, buildXPathFromRole_blank_handled mapLower role name hn, ?_, ?_,
    buildXPathFromRole_role_only mapLower role name hn, by rfl, by decide⟩
  · simp only [buildXPathFromRole, hn, hnil]
  · intro hr
    rw [buildXPathFromRole_unhandled _ _ _ hr, if_neg (by simpa using hn), fallbackRoleOnly_eq]
  · intro hfree
    by_cases hr : ToLower mapLower (TrimSpace role) ∈ handledRoles
    · exact buildXPathFromRole_blank_handled mapLower role name hn hr
    · rw [buildXPathFromRole_unhandled _ _ _ hr, if_neg (by simpa using hn)]
      exact hasTextualPredicate_fallbackRoleOnly _ hfree

/-- C3, at concrete inputs: the handled role `Heading` and the unhandled role `slider`,
with a name of ASCII and ideographic spaces. -/
theorem buildXPathFromRole_blank_name_witness :
    isBlank (utf8 " \t　 ") ∧
    buildXPathFromRole id (utf8 "Heading") (utf8 " \t　 ") =
      utf8 "//h1 | //h2 | //h3 | //h4 | //h5 | //h6 | //*[@role='heading']" ∧
    buildXPathFromRole id (utf8 "slider") (utf8 " \t　 ") = utf8 "//*[@role='slider']" := by
  have hn : isBlank (utf8 " \t　 ") :=
    ⟨[utf8 " ", utf8 "\t", utf8 "　", utf8 " "], by decide, by rfl⟩
  have h1 := buildXPathFromRole_blank_name id (utf8 "Heading") (utf8 " \t　 ") hn
  have h2 := buildXPathFromRole_blank_name id (utf8 "slider") (utf8 " \t　 ") hn
  refine ⟨hn, ?_, ?_⟩
  · rw [h1.1]; rfl
  · rw [h2.2.2.1 (by decide)]; rfl

theorem strArgs_eq (k : Nat) (n : GoString) :
    strArgs k n = (List.replicate k n).map Arg.str := by
  simp [strArgs]

theorem buildButtonXPath_long (n : GoString) (h : 20 < n.length) :
    buildButtonXPath n = Sprintf buttonContainsFormat (strArgs 7 (n.take 20)) := by
  have hne : n ≠ [] := by intro h0; subst h0; simp at h
  simp [buildButtonXPath, hne, h]

theorem buildButtonXPath_short (n : GoString) (hne : n ≠ []) (h : n.length ≤ 20) :
    buildButtonXPath n = Sprintf buttonFormat (strArgs 7 n) := by
  simp [buildButtonXPath, hne, Nat.not_lt.mpr h]

theorem buildLinkXPath_long (n : GoString) (h : 30 < n.length) :
    buildLinkXPath n = Sprintf linkContainsFormat (strArgs 5 (n.take 30)) := by
  have hne : n ≠ [] := by intro h0; subst h0; simp at h
  simp [buildLinkXPath, hne, h]

theorem buildLinkXPath_short (n : GoString) (hne : n ≠ []) (h : n.length ≤ 30) :
    buildLinkXPath n = Sprintf linkFormat (strArgs 5 n) := by
  simp [buildLinkXPath, hne, Nat.not_lt.mpr h]

theorem Sprintf_take_text (format : GoString) (args : List Arg) (k : Nat)
    (h : ∀ c ∈ format.take k, c ≠ 37) (hk : k ≤ format.length) :
    (Sprintf format args).take k = format.take k := by
  have hsplit : format = format.take k ++ format.drop k := (List.take_append_drop k format).symm
  have hlen : (format.take k).length = k := by simp [hk]
  rw [hsplit, Sprintf_text _ _ _ h]
  rw [List.take_append_of_le_length (by rw [hlen]), List.take_of_length_le (by rw [hlen])]
  simp

theorem contains_format_ne_equality_format (args1 args2 : List Arg) :
    Sprintf buttonContainsFormat args1 ≠ Sprintf buttonFormat args2 ∧
    Sprintf linkContainsFormat args1 ≠ Sprintf linkFormat args2 := by
  constructor
  · intro h
    have h1 := Sprintf_take_text buttonContainsFormat args1 5 (by decide) (by decide)
    have h2 := Sprintf_take_text buttonFormat args2 5 (by decide) (by decide)
    rw [h, h2] at h1
    exact absurd h1 (by decide)
  · intro h
    have h1 := Sprintf_take_text linkContainsFormat args1 5 (by decide) (by decide)
    have h2 := Sprintf_take_text linkFormat args2 5 (by decide) (by decide)
    rw [h, h2] at h1
    exact absurd h1 (by decide)

/-- C4. Name length policy of button (threshold 20) and link (threshold 30), lengths
counted in bytes as `len` does. For a name that trims to a non-empty `n`: the result is
the `contains(...)` format of the role filled with the first threshold bytes of `n` if
and only if `len(n)` exceeds the threshold, and it is the equality format filled with
the whole of `n` if and only if `len(n)` is at most the threshold (also when it equals
it). In the `contains` formats every `%s` is the second argument of a `contains(` call
and none is compared with `=`; in the equality formats every `%s` is compared with `=`
and `contains(` does not occur. -/
theorem button_link_length_policy (mapLower : GoString → GoString) (role name : GoString)
    (hn : TrimSpace name ≠ []) :
    (ToLower mapLower (TrimSpace role) = utf8 "button" →
      (20 < (TrimSpace name).length ↔
        buildXPathFromRole mapLower role name =
          Sprintf buttonContainsFormat (strArgs 7 ((TrimSpace name).take 20))) ∧
      ((TrimSpace name).length ≤ 20 ↔
        buildXPathFromRole mapLower role name =
          Sprintf buttonFormat (strArgs 7 (TrimSpace name)))) ∧
    (ToLower mapLower (TrimSpace role) = utf8 "link" →
      (30 < (TrimSpace name).length ↔
        buildXPathFromRole mapLower role name =
          Sprintf linkContainsFormat (strArgs 5 ((TrimSpace name).take 30))) ∧
      ((TrimSpace name).length ≤ 30 ↔
        buildXPathFromRole mapLower role name =
          Sprintf linkFormat (strArgs 5 (TrimSpace name)))) ∧
    (verbLeadIns buttonContainsFormat =
        [utf8 "contains(normalize-space(.), '", utf8 "@type='button' and contains(@value, '",
         utf8 "@type='submit' and contains(@value, '",
         utf8 "@type='reset' and contains(@value, '", utf8 "contains(@aria-label, '",
         utf8 "@role='button' and contains(normalize-space(.), '",
         utf8 "@role='button' and contains(@aria-label, '"] ∧
      verbsEnclosed (utf8 ", '") (utf8 "')") buttonContainsFormat = true ∧
      occurrences (utf8 "='%s") buttonContainsFormat = 0) ∧
    (verbLeadIns linkContainsFormat =
        [utf8 "@href and contains(normalize-space(.), '",
         utf8 "@href and contains(@aria-label, '", utf8 "@href and contains(@title, '",
         utf8 "@role='link' and contains(normalize-space(.), '",
         utf8 "@role='link' and contains(@aria-label, '"] ∧
      verbsEnclosed (utf8 ", '") (utf8 "')") linkContainsFormat = true ∧
      occurrences (utf8 "='%s") linkContainsFormat = 0) ∧
    (verbLeadIns buttonFormat =
        [utf8 "normalize-space(.)='", utf8 "@type='button' and @value='",
         utf8 "@type='submit' and @value='", utf8 "@type='reset' and @value='",
         utf8 "@aria-label='", utf8 "@role='button' and normalize-space(.)='",
         utf8 "@role='button' and @aria-label='"] ∧
      verbsEnclosed (utf8 "='") (utf8 "'") buttonFormat = true ∧
      occurrences (utf8 "contains(") buttonFormat = 0) ∧
    (verbLeadIns linkFormat =
        [utf8 "@href and normalize-space(.)='", utf8 "@href and @aria-label='",
         utf8 "@href and @title='", utf8 "@role='link' and normalize-space(.)='",
         utf8 "@role='link' and @aria-label='"] ∧
      verbsEnclosed (utf8 "='") (utf8 "'") linkFormat = true ∧
      occurrences (utf8 "contains(") linkFormat = 0) := by
  refine ⟨fun hb => ⟨⟨fun h => ?_, fun h => ?_⟩, ⟨fun h => ?_, fun h => ?_⟩⟩,
    fun hl => ⟨⟨fun h => ?_, fun h => ?_⟩, ⟨fun h => ?_, fun h => ?_⟩⟩,
    ⟨?_, ?_, ?_⟩, ⟨?_, ?_, ?_⟩, ⟨?_, ?_, ?_⟩, ⟨?_, ?_, ?_⟩⟩
  · rw [buildXPathFromRole_button _ _ _ hb, buildButtonXPath_long _ h]
  · by_contra hle
    rw [buildXPathFromRole_button _ _ _ hb,
      buildButtonXPath_short _ hn (Nat.le_of_not_lt hle)] at h
    exact (contains_format_ne_equality_format _ _).1 h.symm
  · rw [buildXPathFromRole_button _ _ _ hb, buildButtonXPath_short _ hn h]
  · by_contra hgt
    rw [buildXPathFromRole_button _ _ _ hb,
      buildButtonXPath_long _ (Nat.lt_of_not_le hgt)] at h
    exact (contains_format_ne_equality_format _ _).1 h
  · rw [buildXPathFromRole_link _ _ _ hl, buildLinkXPath_long _ h]
  · by_contra hle
    rw [buildXPathFromRole_link _ _ _ hl,
      buildLinkXPath_short _ hn (Nat.le_of_not_lt hle)] at h
    exact (contains_format_ne_equality_format _ _).2 h.symm
  · rw [buildXPathFromRole_link _ _ _ hl, buildLinkXPath_short _ hn h]
  · by_contra hgt
    rw [buildXPathFromRole_link _ _ _ hl,
      buildLinkXPath_long _ (Nat.lt_of_not_le hgt)] at h
    exact (contains_format_ne_equality_format _ _).2 h
  all_goals rfl

/-- C4, at concrete inputs: a 50-byte button name is matched by `contains` on its first
20 bytes, a 50-byte link name on its first 30, and a 20-byte button name by equality
on the whole name. -/
theorem button_link_length_policy_witness :
    TrimSpace (utf8 "abcdefghijklmnopqrstuvwxyzABCDEFGHIJKLMNOPQRSTUVWX") ≠ [] ∧
    buildXPathFromRole id (utf8 "button")
        (utf8 "abcdefghijklmnopqrstuvwxyzABCDEFGHIJKLMNOPQRSTUVWX") =
      Sprintf buttonContainsFormat (strArgs 7 (utf8 "abcdefghijklmnopqrst")) ∧
    buildXPathFromRole id (utf8 "link")
        (utf8 "abcdefghijklmnopqrstuvwxyzABCDEFGHIJKLMNOPQRSTUVWX") =
      Sprintf linkContainsFormat (strArgs 5 (utf8 "abcdefghijklmnopqrstuvwxyzABCD")) ∧
    buildXPathFromRole id (utf8 "button") (utf8 "abcdefghijklmnopqrst") =
      Sprintf buttonFormat (strArgs 7 (utf8 "abcdefghijklmnopqrst")) := by
  have hn : TrimSpace (utf8 "abcdefghijklmnopqrstuvwxyzABCDEFGHIJKLMNOPQRSTUVWX") ≠ [] := by
    decide
  have hn2 : TrimSpace (utf8 "abcdefghijklmnopqrst") ≠ [] := by decide
  have h := button_link_length_policy id (utf8 "button")
    (utf8 "abcdefghijklmnopqrstuvwxyzABCDEFGHIJKLMNOPQRSTUVWX") hn
  have h2 := button_link_length_policy id (utf8 "link")
    (utf8 "abcdefghijklmnopqrstuvwxyzABCDEFGHIJKLMNOPQRSTUVWX") hn
  have h3 := button_link_length_policy id (utf8 "button") (utf8 "abcdefghijklmnopqrst") hn2
  refine ⟨hn, ?_, ?_, ?_⟩
  · rw [((h.1 (by rfl)).1).mp (by decide)]; rfl
  · rw [((h2.2.1 (by rfl)).1).mp (by decide)]; rfl
  · rw [((h3.1 (by rfl)).2).mp (by decide)]; rfl

/-- C5 (counterexample). For the heading role and the name `contains(` the result holds
the text `contains(`: the name is embedded as it is. -/
theorem buildXPathFromRole_heading_name_with_contains :
    Contains (buildXPathFromRole id (utf8 "heading") (utf8 "contains(")) (utf8 "contains(")
      = true := by
  rfl

/-- C5 (as amended). No length threshold outside button and link. For a role whose
trimmed, lower-cased form `r` is neither `button` nor `link` and a name that trims to a
non-empty `n` of any length, the result is a format filled with operands, where the
format is the equality format of a handled role and every operand is the whole of `n`,
or the format is the fallback format and the operands are `r`, `n`, `n`. In that format
every `%s` stands between `='` and `'` and `contains(` does not occur, so `contains(`
occurs in the result only where `n` or `r` holds that text. A heading is matched on
exact text by its own format. -/
theorem buildXPathFromRole_no_threshold (mapLower : GoString → GoString)
    (role name : GoString) (hn : TrimSpace name ≠ [])
    (hb : ToLower mapLower (TrimSpace role) ≠ utf8 "button")
    (hl : ToLower mapLower (TrimSpace role) ≠ utf8 "link") :
    (∃ (F : GoString) (args : List GoString),
      buildXPathFromRole mapLower role name = Sprintf F (args.map Arg.str) ∧
      ((F ∈ equalityFormats ∧
          args = List.replicate (occurrences (utf8 "%s") F) (TrimSpace name)) ∨
        (F = fallbackFormat ∧
          args = [ToLower mapLower (TrimSpace role), TrimSpace name, TrimSpace name])) ∧
      verbsEnclosed (utf8 "='") (utf8 "'") F = true ∧
      occurrences (utf8 "contains(") F = 0) ∧
    (Contains (TrimSpace name) (utf8 "contains(") = false →
      Contains (ToLower mapLower (TrimSpace role)) (utf8 "contains(") = false →
      Contains (buildXPathFromRole mapLower role name) (utf8 "contains(") = false) ∧
    (ToLower mapLower (TrimSpace role) = utf8 "heading" →
      buildXPathFromRole mapLower role name =
        Sprintf headingFormat (strArgs 7 (TrimSpace name))) := by
  have hq : (39 : UInt8) ∉ utf8 "contains(" := by decide
  have hm : utf8 "contains(" ≠ [] := by decide
  refine ⟨?_, ?_, ?_⟩
  · by_cases hr : ToLower mapLower (TrimSpace role) ∈ handledRoles
    · obtain ⟨F, hF, hres⟩ := buildXPathFromRole_named_handled mapLower role name hn hb hl hr
      obtain ⟨_, h2, h3⟩ := equalityFormats_facts F hF
      exact ⟨F, _, by rw [hres, strArgs_eq], Or.inl ⟨hF, rfl⟩, h2, h3⟩
    · refine ⟨fallbackFormat, _, ?_, Or.inr ⟨rfl, rfl⟩, by rfl, by rfl⟩
      rw [buildXPathFromRole_unhandled _ _ _ hr, if_pos hn]; rfl
  · intro hfn hfr
    by_cases hr : ToLower mapLower (TrimSpace role) ∈ handledRoles
    · obtain ⟨F, hF, hres⟩ := buildXPathFromRole_named_handled mapLower role name hn hb hl hr
      obtain ⟨h1, _, _⟩ := equalityFormats_facts F hF
      rw [hres, strArgs_eq]
      have := Sprintf_avoids F (List.replicate (occurrences (utf8 "%s") F) (TrimSpace name))
        (utf8 "contains(") (by simpa using h1) hq hm
        (by intro a ha; rw [List.eq_of_mem_replicate ha]; exact hfn)
      exact this
    · rw [buildXPathFromRole_unhandled _ _ _ hr, if_pos hn]
      have := Sprintf_avoids fallbackFormat
        [ToLower mapLower (TrimSpace role), TrimSpace name, TrimSpace name]
        (utf8 "contains(") (by rfl) hq hm
        (by
          intro a ha
          simp only [List.mem_cons, List.mem_singleton, List.not_mem_nil, or_false] at ha
          rcases ha with h | h | h <;> subst h <;> assumption)
      exact this
  · intro hh
    rw [buildXPathFromRole_heading _ _ _ hh]
    simp [buildHeadingXPath, hn]

/-- C5, at concrete inputs: a 60-byte heading name and a 60-byte name under an
unhandled role are embedded whole. -/
theorem buildXPathFromRole_no_threshold_witness :
    TrimSpace (utf8 "0123456789012345678901234567890123456789012345678901234567890") ≠ [] ∧
    ToLower id (TrimSpace (utf8 "heading")) ≠ utf8 "button" ∧
    ToLower id (TrimSpace (utf8 "heading")) ≠ utf8 "link" ∧
    buildXPathFromRole id (utf8 "heading")
        (utf8 "0123456789012345678901234567890123456789012345678901234567890") =
      Sprintf headingFormat
        (strArgs 7 (utf8 "0123456789012345678901234567890123456789012345678901234567890")) ∧
    Contains (buildXPathFromRole id (utf8 "slider")
        (utf8 "0123456789012345678901234567890123456789012345678901234567890"))
      (utf8 "contains(") = false := by
  have hn : TrimSpace (utf8 "0123456789012345678901234567890123456789012345678901234567890")
      ≠ [] := by decide
  have hb : ToLower id (TrimSpace (utf8 "heading")) ≠ utf8 "button" := by decide
  have hl : ToLower id (TrimSpace (utf8 "heading")) ≠ utf8 "link" := by decide
  have h := buildXPathFromRole_no_threshold id (utf8 "heading")
    (utf8 "0123456789012345678901234567890123456789012345678901234567890") hn hb hl
  have h2 := buildXPathFromRole_no_threshold id (utf8 "slider")
    (utf8 "0123456789012345678901234567890123456789012345678901234567890") hn
    (by decide) (by decide)
  refine ⟨hn, hb, hl, ?_, ?_⟩
  · rw [h.2.2 (by rfl)]; rfl
  · exact h2.2.1 (by rfl) (by rfl)

/-! ## The fallback and the normalisation of the role -/

/-- C6. `buildXPathFromRole` is a total function. When the trimmed, lower-cased role `r`
is none of the handled roles the result is exactly `//*[@role='r']` for a name that trims
to nothing and `//*[@role='r' and (normalize-space(.)='n' or @aria-label='n')]` for a name
that trims to a non-empty `n`. The role enters only through `r`: two role strings with
the same trimmed, lower-cased form give the same result; so do two ASCII words that
agree up to letter case, each padded with any ASCII white space; and ` BUTTON ` is
treated as `button`. -/
theorem buildXPathFromRole_fallback (mapLower : GoString → GoString) (role name : GoString)
    (hr : ToLower mapLower (TrimSpace role) ∉ handledRoles) :
    (TrimSpace name = [] →
      buildXPathFromRole mapLower role name =
        utf8 "//*[@role='" ++ ToLower mapLower (TrimSpace role) ++ utf8 "']") ∧
    (TrimSpace name ≠ [] →
      buildXPathFromRole mapLower role name =
        utf8 "//*[@role='" ++ ToLower mapLower (TrimSpace role) ++
          utf8 "' and (normalize-space(.)='" ++ TrimSpace name ++
          utf8 "' or @aria-label='" ++ TrimSpace name ++ utf8 "')]") ∧
    (∀ role2 : GoString,
      ToLower mapLower (TrimSpace role2) = ToLower mapLower (TrimSpace role) →
      buildXPathFromRole mapLower role2 name = buildXPathFromRole mapLower role name) ∧
    (∀ pre1 word1 post1 pre2 word2 post2 name2 : GoString,
      (∀ c ∈ pre1 ++ post1 ++ pre2 ++ post2, asciiSpace c = true) →
      asciiWord word1 → asciiWord word2 → word1.map asciiLower = word2.map asciiLower →
      buildXPathFromRole mapLower (pre1 ++ word1 ++ post1) name2 =
        buildXPathFromRole mapLower (pre2 ++ word2 ++ post2) name2) ∧
    (∀ name2 : GoString, buildXPathFromRole mapLower (utf8 " BUTTON ") name2 =
      buildXPathFromRole mapLower (utf8 "button") name2) := by
  refine ⟨fun hn => ?_, fun hn => ?_, fun role2 h2 => ?_, ?_, fun name2 => ?_⟩
  · rw [buildXPathFromRole_unhandled _ _ _ hr, if_neg (by simpa using hn), fallbackRoleOnly_eq]
  · rw [buildXPathFromRole_unhandled _ _ _ hr, if_pos hn, fallback_eq]
  · simp only [buildXPathFromRole, h2]
  · intro pre1 word1 post1 pre2 word2 post2 name2 hsp hw1 hw2 hcase
    have h1 := normalizedRole_padded mapLower pre1 word1 post1
      (fun c hc => hsp c (by simp [hc])) (fun c hc => hsp c (by simp [hc])) hw1.1 hw1.2.1 hw1.2.2
    have h2 := normalizedRole_padded mapLower pre2 word2 post2
      (fun c hc => hsp c (by simp [hc])) (fun c hc => hsp c (by simp [hc])) hw2.1 hw2.2.1 hw2.2.2
    simp only [buildXPathFromRole, h1, h2, hcase]
  · have h : ToLower mapLower (TrimSpace (utf8 " BUTTON ")) =
        ToLower mapLower (TrimSpace (utf8 "button")) := by rfl
    simp only [buildXPathFromRole, h]

/-- C6, at a concrete input: the unhandled role ` Slider ` with the names `Volume` and
blank. -/
theorem buildXPathFromRole_fallback_witness :
    ToLower id (TrimSpace (utf8 " Slider ")) ∉ handledRoles ∧
    buildXPathFromRole id (utf8 " Slider ") (utf8 " Volume ") =
      utf8 "//*[@role='slider' and (normalize-space(.)='Volume' or @aria-label='Volume')]" ∧
    buildXPathFromRole id (utf8 " Slider ") (utf8 "  ") = utf8 "//*[@role='slider']" := by
  have hr : ToLower id (TrimSpace (utf8 " Slider ")) ∉ handledRoles := by decide
  have h := buildXPathFromRole_fallback id (utf8 " Slider ") (utf8 " Volume ") hr
  have h2 := buildXPathFromRole_fallback id (utf8 " Slider ") (utf8 "  ") hr
  refine ⟨hr, ?_, ?_⟩
  · rw [h.2.1 (by decide)]; rfl
  · rw [h2.1 (by decide)]; rfl


/-! ## Maps, handles and keys -/

theorem GoMap.lookup_filter_ne {κ ν : Type} [DecidableEq κ] (m : GoMap κ ν) (k k' : κ)
    (h : k' ≠ k) : GoMap.lookup (m.filter (fun kv => kv.1 ≠ k)) k' = GoMap.lookup m k' := by
  induction m with
  | nil => rfl
  | cons kv m ih =>
    obtain ⟨a, v⟩ := kv
    by_cases ha : a = k
    · subst ha
      have : GoMap.lookup ((a, v) :: m) k' = GoMap.lookup m k' := by
        simp [GoMap.lookup, Ne.symm h]
      rw [this, ← ih]
      simp [List.filter]
    · have hf : List.filter (fun kv : κ × ν => decide (kv.1 ≠ k)) ((a, v) :: m) =
          (a, v) :: List.filter (fun kv : κ × ν => decide (kv.1 ≠ k)) m := by
        simp [List.filter, ha]
      rw [hf]
      simp only [GoMap.lookup]
      split_ifs
      · rfl
      · exact ih

theorem GoMap.lookup_store_self {κ ν : Type} [DecidableEq κ] (m : GoMap κ ν) (k : κ) (v : ν) :
    GoMap.lookup (m.store k v) k = some v := by
  simp [GoMap.store, GoMap.lookup]

theorem GoMap.lookup_store_ne {κ ν : Type} [DecidableEq κ] (m : GoMap κ ν) (k k' : κ) (v : ν)
    (h : k' ≠ k) : GoMap.lookup (m.store k v) k' = GoMap.lookup m k' := by
  simp only [GoMap.store, GoMap.lookup, if_neg (Ne.symm h)]
  exact GoMap.lookup_filter_ne m k k' h

theorem Sprintf_int (rest : GoString) (n : Int) (args : List Arg) :
    Sprintf (37 :: 100 :: rest) (.int n :: args) = formatInt n ++ Sprintf rest args := by
  simp [Sprintf]

theorem refIDFor_eq (n : Nat) : refIDFor n = 101 :: Itoa n := by
  have hf : utf8 "e%d" = [101, 37, 100] := by rfl
  rw [refIDFor, hf, Sprintf_byte _ _ _ (by decide), Sprintf_int, Sprintf_nil]
  simp [formatInt]

theorem roleNameKey_eq (node : AccessibilityNode) :
    roleNameKey node = node.Role ++ 58 :: node.Label := by
  have hf : utf8 "%s:%s" = [37, 115, 58, 37, 115] := by rfl
  rw [roleNameKey, hf, Sprintf_str, Sprintf_byte _ _ _ (by decide), Sprintf_str, Sprintf_nil]
  simp

theorem digitsFuel_eq (m : Nat) :
    ∀ (fuel : Nat) (acc : List UInt8), m < fuel → digitsFuel fuel m acc = Itoa m ++ acc := by
  induction m using Nat.strong_induction_on with
  | _ m ih =>
    intro fuel acc hlt
    cases fuel with
    | zero => omega
    | succ f =>
      by_cases h10 : m < 10
      · simp [Itoa, digitsFuel, h10]
      · have hdiv : m / 10 < m := Nat.div_lt_self (by omega) (by omega)
        have h1 : digitsFuel (f + 1) m acc =
            digitsFuel f (m / 10) ((48 + m % 10).toUInt8 :: acc) := by
          simp [digitsFuel, h10]
        have h2 : Itoa m = digitsFuel m (m / 10) [(48 + m % 10).toUInt8] := by
          simp [Itoa, digitsFuel, h10]
        rw [h1, h2, ih (m / 10) hdiv f _ (by omega), ih (m / 10) hdiv m _ hdiv]
        simp

theorem Itoa_small (m : Nat) (h : m < 10) : Itoa m = [(48 + m).toUInt8] := by
  simp [Itoa, digitsFuel, h]

theorem Itoa_large (m : Nat) (h : ¬ m < 10) :
    Itoa m = Itoa (m / 10) ++ [(48 + m % 10).toUInt8] := by
  have hdiv : m / 10 < m := Nat.div_lt_self (by omega) (by omega)
  have h2 : Itoa m = digitsFuel m (m / 10) [(48 + m % 10).toUInt8] := by
    simp [Itoa, digitsFuel, h]
  rw [h2, digitsFuel_eq (m / 10) m _ hdiv]

theorem digit_value (d : Nat) (h : d < 10) : ((48 + d).toUInt8).toNat - 48 = d := by
  interval_cases d <;> rfl

theorem decimalValue_snoc (ds : GoString) (c : UInt8) :
    decimalValue (ds ++ [c]) = 10 * decimalValue ds + (c.toNat - 48) := by
  simp [decimalValue, List.foldl_append]

theorem decimalValue_Itoa (m : Nat) : decimalValue (Itoa m) = m := by
  induction m using Nat.strong_induction_on with
  | _ m ih =>
    by_cases h10 : m < 10
    · rw [Itoa_small m h10]
      simp only [decimalValue, List.foldl_cons, List.foldl_nil, Nat.mul_zero, Nat.zero_add]
      exact digit_value m h10
    · have hdiv : m / 10 < m := Nat.div_lt_self (by omega) (by omega)
      rw [Itoa_large m h10, decimalValue_snoc, ih (m / 10) hdiv,
        digit_value (m % 10) (Nat.mod_lt _ (by omega))]
      omega

theorem Itoa_injective {m n : Nat} (h : Itoa m = Itoa n) : m = n := by
  have := congrArg decimalValue h
  rwa [decimalValue_Itoa, decimalValue_Itoa] at this

theorem refIDFor_injective {m n : Nat} (h : refIDFor m = refIDFor n) : m = n := by
  rw [refIDFor_eq, refIDFor_eq] at h
  exact Itoa_injective (List.cons.inj h).2

theorem refIDFor_ne_nil (n : Nat) : refIDFor n ≠ [] := by
  rw [refIDFor_eq]; simp

/-! ## The loops of `assignRefIDs` -/

theorem roleNameKey_setRefID (node : AccessibilityNode) (r : GoString) :
    roleNameKey { node with RefID := r } = roleNameKey node := rfl

theorem clickableRefData_setRefID (node : AccessibilityNode) (r : GoString) (nth : Nat) :
    clickableRefData { node with RefID := r } nth = clickableRefData node nth := rfl

theorem inputRefData_setRefID (node : AccessibilityNode) (r : GoString) (nth : Nat) :
    inputRefData { node with RefID := r } nth = inputRefData node nth := rfl

/-- A node of the current heap is the node of the start with, at most, another handle. -/
theorem Logged.node_eq {heap0 : Heap} {map0 : GoMap GoString RefData} {counter0 : Nat}
    {log : List (NodePtr × Bool)} {st : AssignState} (h : Logged heap0 map0 counter0 log st)
    (p : NodePtr) : st.heap p = { heap0 p with RefID := (st.heap p).RefID } := by
  by_cases hp : p ∈ log.map Prod.fst
  · obtain ⟨i, b, _, hh⟩ := h.handle p hp
    rw [hh]
  · rw [h.untouched p hp]

theorem Logged.at_start (heap0 : Heap) (map0 : GoMap GoString RefData) (counter0 : Nat) :
    Logged heap0 map0 counter0 []
      { heap := heap0, refIDMap := map0, refIDCounter := counter0, roleNameCounter := [] } where
  counter := by simp
  untouched := by intro p _; rfl
  handle := by intro p hp; simp at hp
  stored := by intro i hi; simp at hi
  others := by intro k _; rfl
  counts := by intro key; simp [GoMap.lookup]

theorem loggedRefData_append_left (heap0 : Heap) (log : List (NodePtr × Bool))
    (x : NodePtr × Bool) (i : Nat) (hi : i < log.length) :
    loggedRefData heap0 (log ++ [x]) i = loggedRefData heap0 log i := by
  have h1 : (log ++ [x])[i]? = log[i]? := List.getElem?_append_left hi
  have h2 : (log ++ [x]).take i = log.take i := by
    rw [List.take_append_of_le_length (Nat.le_of_lt hi)]
  simp only [loggedRefData, h1, h2]

theorem loggedRefData_append_last (heap0 : Heap) (log : List (NodePtr × Bool))
    (p : NodePtr) (b : Bool) :
    loggedRefData heap0 (log ++ [(p, b)]) log.length =
      some (if b then
          clickableRefData (heap0 p)
            (log.filter (fun q => decide (roleNameKey (heap0 q.1) = roleNameKey (heap0 p)))).length
        else
          inputRefData (heap0 p)
            (log.filter (fun q => decide (roleNameKey (heap0 q.1) = roleNameKey (heap0 p)))).length)
    := by
  have h1 : (log ++ [(p, b)])[log.length]? = some (p, b) := by simp
  have h2 : (log ++ [(p, b)]).take log.length = log := by simp
  simp only [loggedRefData, h1, h2]

/-- One assignment: the state after giving `p` the next handle and storing `data`. -/
theorem Logged.assign {heap0 : Heap} {map0 : GoMap GoString RefData} {counter0 : Nat}
    {log : List (NodePtr × Bool)} {st : AssignState} (h : Logged heap0 map0 counter0 log st)
    (p : NodePtr) (b : Bool) (data : RefData)
    (hdata : loggedRefData heap0 (log ++ [(p, b)]) log.length = some data) :
    Logged heap0 map0 counter0 (log ++ [(p, b)])
      { heap := Function.update st.heap p
          { st.heap p with RefID := refIDFor (st.refIDCounter + 1) },
        refIDMap := st.refIDMap.store (refIDFor (st.refIDCounter + 1)) data,
        refIDCounter := st.refIDCounter + 1,
        roleNameCounter := st.roleNameCounter.store (roleNameKey (st.heap p))
          ((st.roleNameCounter.lookup (roleNameKey (st.heap p))).getD 0 + 1) } where
  counter := by simp [h.counter]; omega
  untouched := by
    intro q hq
    simp only [List.map_append, List.map_cons, List.map_nil, List.mem_append,
      List.mem_singleton, not_or] at hq
    simp only [Function.update_noteq hq.2]
    exact h.untouched q hq.1
  handle := by
    intro q hq
    by_cases hqp : q = p
    · subst hqp
      refine ⟨log.length, b, by simp, ?_⟩
      simp only [Function.update_same]
      rw [h.node_eq q, h.counter]
    · simp only [List.map_append, List.map_cons, List.map_nil, List.mem_append,
        List.mem_singleton, hqp, or_false] at hq
      obtain ⟨i, c, hi, hh⟩ := h.handle q hq
      have hlt : i < log.length := by
        by_contra hcon
        rw [List.getElem?_eq_none (Nat.le_of_not_lt hcon)] at hi
        exact absurd hi (by simp)
      refine ⟨i, c, ?_, ?_⟩
      · rw [List.getElem?_append_left hlt]; exact hi
      · simp only [Function.update_noteq hqp]; exact hh
  stored := by
    intro i hi
    simp only [List.length_append, List.length_singleton] at hi
    by_cases hlast : i = log.length
    · subst hlast
      simp only [h.counter]
      rw [GoMap.lookup_store_self, hdata]
    · have hlt : i < log.length := by omega
      have hne : refIDFor (counter0 + i + 1) ≠ refIDFor (st.refIDCounter + 1) := by
        intro heq
        have := refIDFor_injective heq
        rw [h.counter] at this
        omega
      simp only []
      rw [GoMap.lookup_store_ne _ _ _ _ hne, h.stored i hlt,
        loggedRefData_append_left heap0 log (p, b) i hlt]
  others := by
    intro k hk
    have hne : k ≠ refIDFor (st.refIDCounter + 1) := by
      have := hk log.length (by simp)
      rwa [← h.counter] at this
    simp only []
    rw [GoMap.lookup_store_ne _ _ _ _ hne]
    exact h.others k (fun i hi => hk i (by simp; omega))
  counts := by
    intro key
    have hkey : roleNameKey (st.heap p) = roleNameKey (heap0 p) := by
      rw [h.node_eq p, roleNameKey_setRefID]
    simp only [hkey, List.filter_append]
    by_cases hk : key = roleNameKey (heap0 p)
    · subst hk
      rw [GoMap.lookup_store_self, h.counts]
      simp
    · rw [GoMap.lookup_store_ne _ _ _ _ hk, h.counts]
      simp [List.filter, Ne.symm hk]

theorem Logged.after_clickableStep {heap0 : Heap} {map0 : GoMap GoString RefData} {counter0 : Nat}
    {log : List (NodePtr × Bool)} {st : AssignState} (h : Logged heap0 map0 counter0 log st)
    (p : NodePtr) :
    Logged heap0 map0 counter0 (log ++ [(p, true)]) (BrowserWing.clickableStep st p) := by
  have hkey : roleNameKey (st.heap p) = roleNameKey (heap0 p) := by
    rw [h.node_eq p, roleNameKey_setRefID]
  have hdata : loggedRefData heap0 (log ++ [(p, true)]) log.length =
      some (clickableRefData (st.heap p)
        ((st.roleNameCounter.lookup (roleNameKey (st.heap p))).getD 0)) := by
    rw [loggedRefData_append_last, h.counts, hkey]
    simp only [if_true]
    rw [h.node_eq p]
    rfl
  exact h.assign p true _ hdata

theorem Logged.after_inputStep {heap0 : Heap} {map0 : GoMap GoString RefData}
    {counter0 : Nat} {log : List (NodePtr × Bool)} {st : AssignState}
    (h : Logged heap0 map0 counter0 log st) (p : NodePtr) (hp : (st.heap p).RefID = []) :
    Logged heap0 map0 counter0 (log ++ [(p, false)]) (BrowserWing.inputStep st p) := by
  have hkey : roleNameKey (st.heap p) = roleNameKey (heap0 p) := by
    rw [h.node_eq p, roleNameKey_setRefID]
  have hdata : loggedRefData heap0 (log ++ [(p, false)]) log.length =
      some (inputRefData (st.heap p)
        ((st.roleNameCounter.lookup (roleNameKey (st.heap p))).getD 0)) := by
    rw [loggedRefData_append_last, h.counts, hkey]
    simp only [Bool.false_eq_true, if_false]
    rw [h.node_eq p]
    rfl
  have hstep : BrowserWing.inputStep st p =
      { heap := Function.update st.heap p
          { st.heap p with RefID := refIDFor (st.refIDCounter + 1) },
        refIDMap := st.refIDMap.store (refIDFor (st.refIDCounter + 1))
          (inputRefData (st.heap p)
            ((st.roleNameCounter.lookup (roleNameKey (st.heap p))).getD 0)),
        refIDCounter := st.refIDCounter + 1,
        roleNameCounter := st.roleNameCounter.store (roleNameKey (st.heap p))
          ((st.roleNameCounter.lookup (roleNameKey (st.heap p))).getD 0 + 1) } := by
    simp [BrowserWing.inputStep, hp]
  rw [hstep]
  exact h.assign p false _ hdata

theorem inputStep_skip (st : AssignState) (p : NodePtr) (hp : (st.heap p).RefID ≠ []) :
    inputStep st p = st := by
  simp [inputStep, hp]

theorem Logged.after_clickables {heap0 : Heap} {map0 : GoMap GoString RefData} {counter0 : Nat} :
    ∀ (ps : List NodePtr) (log : List (NodePtr × Bool)) (st : AssignState),
      Logged heap0 map0 counter0 log st →
      Logged heap0 map0 counter0 (log ++ ps.map (fun p => (p, true)))
        (ps.foldl BrowserWing.clickableStep st) := by
  intro ps
  induction ps with
  | nil => intro log st h; simpa using h
  | cons p ps ih =>
    intro log st h
    have := ih (log ++ [(p, true)]) _ (h.after_clickableStep p)
    simpa using this

theorem assignedInputs_congr (heap : Heap) :
    ∀ (ps done1 done2 : List NodePtr), (∀ x, x ∈ done1 ↔ x ∈ done2) →
      assignedInputs heap done1 ps = assignedInputs heap done2 ps := by
  intro ps
  induction ps with
  | nil => intro d1 d2 _; rfl
  | cons p ps ih =>
    intro d1 d2 hd
    simp only [assignedInputs, hd p]
    split_ifs
    · exact ih d1 d2 hd
    · rw [ih (p :: d1) (p :: d2) (by intro x; simp [hd x])]

theorem Logged.after_inputs {heap0 : Heap} {map0 : GoMap GoString RefData} {counter0 : Nat} :
    ∀ (ps : List NodePtr) (log : List (NodePtr × Bool)) (st : AssignState),
      Logged heap0 map0 counter0 log st →
      Logged heap0 map0 counter0
        (log ++ (assignedInputs heap0 (log.map Prod.fst) ps).map (fun p => (p, false)))
        (ps.foldl BrowserWing.inputStep st) := by
  intro ps
  induction ps with
  | nil => intro log st h; simpa [assignedInputs] using h
  | cons p ps ih =>
    intro log st h
    by_cases hp : p ∈ log.map Prod.fst
    · -- the node has a handle of this run: skipped
      obtain ⟨i, b, _, hh⟩ := h.handle p hp
      have hne : (st.heap p).RefID ≠ [] := by rw [hh]; exact refIDFor_ne_nil _
      simp only [List.foldl_cons, inputStep_skip st p hne, assignedInputs, hp, true_or, if_true]
      exact ih log st h
    · by_cases hr : (heap0 p).RefID = []
      · have hcur : (st.heap p).RefID = [] := by rw [h.untouched p hp]; exact hr
        have hnext := ih (log ++ [(p, false)]) _ (h.after_inputStep p hcur)
        have hcongr := assignedInputs_congr heap0 ps
          ((log ++ [(p, false)]).map Prod.fst) (p :: log.map Prod.fst)
          (by intro x; simp [or_comm])
        rw [hcongr] at hnext
        simp only [List.foldl_cons, assignedInputs, hp, hr, ne_eq, not_true_eq_false, or_self,
          if_false, List.map_cons]
        simpa using hnext
      · have hne : (st.heap p).RefID ≠ [] := by rw [h.untouched p hp]; exact hr
        simp only [List.foldl_cons, inputStep_skip st p hne, assignedInputs, hr, ne_eq,
          not_false_eq_true, or_true, if_true]
        exact ih log st h

/-- The state `assignRefIDs` ends in: the one established by the assignment log of the
snapshot, from the map and the counter the executor came with. -/
theorem assignRefIDs_logged (e : Executor) (heap : Heap) (snapshot : AccessibilitySnapshot) :
    ∃ st : AssignState,
      Logged heap e.refIDMap e.refIDCounter (assignmentLog heap snapshot) st ∧
      assignRefIDs e heap snapshot =
        ({ e with refIDMap := st.refIDMap, refIDCounter := st.refIDCounter }, st.heap) := by
  have h0 := Logged.at_start heap e.refIDMap e.refIDCounter
  have h1 := Logged.after_clickables snapshot.clickables [] _ h0
  have h2 := Logged.after_inputs snapshot.inputs _ _ h1
  refine ⟨_, ?_, rfl⟩
  have hfst : (([] : List (NodePtr × Bool)) ++
      snapshot.clickables.map (fun p => (p, true))).map Prod.fst = snapshot.clickables := by
    simp [Function.comp_def]
  rw [hfst] at h2
  simpa [assignmentLog] using h2

/-! ## Consequences for a run of `assignRefIDs` -/

theorem mem_assignedInputs (heap : Heap) (p : NodePtr) :
    ∀ (ps done : List NodePtr),
      p ∈ assignedInputs heap done ps ↔ p ∈ ps ∧ p ∉ done ∧ (heap p).RefID = [] := by
  intro ps
  induction ps with
  | nil => intro done; simp [assignedInputs]
  | cons q ps ih =>
    intro done
    simp only [assignedInputs]
    split_ifs with hskip
    · rw [ih done]
      constructor
      · rintro ⟨h1, h2, h3⟩; exact ⟨List.mem_cons_of_mem _ h1, h2, h3⟩
      · rintro ⟨h1, h2, h3⟩
        refine ⟨?_, h2, h3⟩
        rcases List.mem_cons.mp h1 with h | h
        · subst h
          rcases hskip with h | h
          · exact absurd h h2
          · exact absurd h3 h
        · exact h
    · have hq : q ∉ done ∧ (heap q).RefID = [] := by
        constructor
        · exact fun h => hskip (Or.inl h)
        · by_contra h; exact hskip (Or.inr h)
      rw [List.mem_cons, ih (q :: done)]
      constructor
      · rintro (h | ⟨h1, h2, h3⟩)
        · subst h; exact ⟨List.mem_cons_self _ _, hq.1, hq.2⟩
        · exact ⟨List.mem_cons_of_mem _ h1, fun h => h2 (List.mem_cons_of_mem _ h), h3⟩
      · rintro ⟨h1, h2, h3⟩
        by_cases hpq : p = q
        · exact Or.inl hpq
        · right
          refine ⟨?_, ?_, h3⟩
          · rcases List.mem_cons.mp h1 with h | h
            · exact absurd h hpq
            · exact h
          · intro h
            rcases List.mem_cons.mp h with h | h
            · exact hpq h
            · exact h2 h

theorem assignedInputs_eq_filter (heap : Heap) :
    ∀ (ps done : List NodePtr), ps.Nodup →
      (∀ p ∈ ps, p ∉ done → (heap p).RefID = []) →
      assignedInputs heap done ps = ps.filter (fun p => decide (p ∉ done)) := by
  intro ps
  induction ps with
  | nil => intro done _ _; rfl
  | cons q ps ih =>
    intro done hnd hfresh
    have hq : q ∉ ps := (List.nodup_cons.mp hnd).1
    have hps : ps.Nodup := (List.nodup_cons.mp hnd).2
    simp only [assignedInputs]
    by_cases hqd : q ∈ done
    · simp only [hqd, true_or, if_true]
      rw [ih done hps (fun p hp => hfresh p (List.mem_cons_of_mem _ hp))]
      simp [List.filter, hqd]
    · have hr : (heap q).RefID = [] := hfresh q (List.mem_cons_self _ _) hqd
      simp only [hqd, hr, ne_eq, not_true_eq_false, or_self, if_false]
      rw [ih (q :: done) hps (fun p hp hpd =>
        hfresh p (List.mem_cons_of_mem _ hp) (fun h => hpd (List.mem_cons_of_mem _ h)))]
      have hfilter : ps.filter (fun p => decide (p ∉ q :: done)) =
          ps.filter (fun p => decide (p ∉ done)) := by
        apply List.filter_congr
        intro x hx
        have hxq : x ≠ q := fun h => hq (h ▸ hx)
        simp [hxq]
      rw [hfilter]
      simp [List.filter, hqd]

theorem assignmentLog_fst (heap : Heap) (snapshot : AccessibilitySnapshot) :
    (assignmentLog heap snapshot).map Prod.fst =
      snapshot.clickables ++ assignedInputs heap snapshot.clickables snapshot.inputs := by
  simp [assignmentLog, Function.comp_def]

theorem assignmentLog_input (heap : Heap) (snapshot : AccessibilitySnapshot) (p : NodePtr)
    (h : (p, false) ∈ assignmentLog heap snapshot) :
    p ∈ snapshot.inputs ∧ p ∉ snapshot.clickables ∧ (heap p).RefID = [] := by
  simp only [assignmentLog, List.mem_append, List.mem_map, Prod.mk.injEq, Bool.true_eq_false,
    and_false, exists_false, and_true, exists_eq_right, false_or] at h
  exact (mem_assignedInputs heap p _ _).mp h

theorem GetAccessibilitySnapshot_refresh (e : Executor) (heap : Heap) (call : SnapshotCall)
    (snapshot : AccessibilitySnapshot) (hpage : call.activePage = true)
    (hstale : ∀ cached, e.refIDSnapshot = some cached →
      ¬ (call.now - e.refIDTimestamp < e.refIDTTL))
    (hfetch : call.fetched = .ok snapshot) :
    GetAccessibilitySnapshot e heap call =
      (({ (assignRefIDs { e with refIDMap := [], refIDCounter := 0 } heap snapshot).1 with
            refIDSnapshot := some snapshot, refIDTimestamp := call.storedAt },
          (assignRefIDs { e with refIDMap := [], refIDCounter := 0 } heap snapshot).2),
        .ok snapshot) := by
  have hr : GetAccessibilitySnapshot.refresh e heap call =
      (({ (assignRefIDs { e with refIDMap := [], refIDCounter := 0 } heap snapshot).1 with
            refIDSnapshot := some snapshot, refIDTimestamp := call.storedAt },
          (assignRefIDs { e with refIDMap := [], refIDCounter := 0 } heap snapshot).2),
        .ok snapshot) := by
    simp [GetAccessibilitySnapshot.refresh, hfetch]
  unfold GetAccessibilitySnapshot
  simp only [hpage, Bool.not_true, Bool.false_eq_true, if_false]
  cases hs : e.refIDSnapshot with
  | none => simpa using hr
  | some cached =>
    simp only [if_neg (hstale cached hs)]
    exact hr

theorem assignmentLog_nodup (heap : Heap) (snapshot : AccessibilitySnapshot)
    (hc : snapshot.clickables.Nodup) (hi : snapshot.inputs.Nodup)
    (hfresh : ∀ p ∈ snapshot.clickables ++ snapshot.inputs, (heap p).RefID = []) :
    ((assignmentLog heap snapshot).map Prod.fst).Nodup ∧
    (∀ p, p ∈ (assignmentLog heap snapshot).map Prod.fst ↔
      p ∈ snapshot.clickables ++ snapshot.inputs) ∧
    ((assignmentLog heap snapshot).map Prod.fst).length =
      (snapshot.clickables.toFinset ∪ snapshot.inputs.toFinset).card := by
  have hfilter := assignedInputs_eq_filter heap snapshot.inputs snapshot.clickables hi
    (fun p hp _ => hfresh p (List.mem_append_right _ hp))
  have hnd : (snapshot.clickables ++
      snapshot.inputs.filter (fun p => decide (p ∉ snapshot.clickables))).Nodup := by
    rw [List.nodup_append]
    refine ⟨hc, hi.filter _, ?_⟩
    intro x hx hx2
    have := (List.mem_filter.mp hx2).2
    simp at this
    exact this hx
  have hmem : ∀ p, p ∈ snapshot.clickables ++
      snapshot.inputs.filter (fun p => decide (p ∉ snapshot.clickables)) ↔
      p ∈ snapshot.clickables ++ snapshot.inputs := by
    intro p
    simp only [List.mem_append, List.mem_filter, decide_eq_true_eq]
    tauto
  rw [assignmentLog_fst, hfilter]
  refine ⟨hnd, hmem, ?_⟩
  rw [← List.toFinset_union, ← List.toFinset_card_of_nodup hnd]
  congr 1
  ext p
  simp only [List.mem_toFinset, List.mem_union_iff]
  rw [hmem p, List.mem_append]

/-- C7. After a snapshot refresh (an active page, no cached snapshot younger than the
TTL, a snapshot fetched), whatever map and counter the executor came with, for a
snapshot whose clickable list and input list are each duplicate-free and whose nodes
start without a handle: the call returns the snapshot, the counter is the number `K` of
distinct nodes of the two lists, every such node carries a handle `e<i>` with
`1 ≤ i ≤ K`, no two of them carry the same handle, every `e<i>` with `1 ≤ i ≤ K` is
carried by one of them, and the keys of the map are exactly `e1..eK`. -/
theorem refresh_handles_bijective (e : Executor) (heap : Heap) (call : SnapshotCall)
    (snapshot : AccessibilitySnapshot) (hpage : call.activePage = true)
    (hstale : ∀ cached, e.refIDSnapshot = some cached →
      ¬ (call.now - e.refIDTimestamp < e.refIDTTL))
    (hfetch : call.fetched = .ok snapshot)
    (hc : snapshot.clickables.Nodup) (hi : snapshot.inputs.Nodup)
    (hfresh : ∀ p ∈ snapshot.clickables ++ snapshot.inputs, (heap p).RefID = []) :
    (GetAccessibilitySnapshot e heap call).2 = .ok snapshot ∧
    (GetAccessibilitySnapshot e heap call).1.1.refIDCounter =
      (snapshot.clickables.toFinset ∪ snapshot.inputs.toFinset).card ∧
    (∀ p ∈ snapshot.clickables ++ snapshot.inputs,
      ∃ i, 1 ≤ i ∧ i ≤ (snapshot.clickables.toFinset ∪ snapshot.inputs.toFinset).card ∧
        ((GetAccessibilitySnapshot e heap call).1.2 p).RefID = utf8 "e" ++ Itoa i) ∧
    (∀ p ∈ snapshot.clickables ++ snapshot.inputs,
      ∀ q ∈ snapshot.clickables ++ snapshot.inputs,
        ((GetAccessibilitySnapshot e heap call).1.2 p).RefID =
          ((GetAccessibilitySnapshot e heap call).1.2 q).RefID → p = q) ∧
    (∀ i, 1 ≤ i → i ≤ (snapshot.clickables.toFinset ∪ snapshot.inputs.toFinset).card →
      ∃ p ∈ snapshot.clickables ++ snapshot.inputs,
        ((GetAccessibilitySnapshot e heap call).1.2 p).RefID = utf8 "e" ++ Itoa i) ∧
    (∀ k, (GetAccessibilitySnapshot e heap call).1.1.refIDMap.lookup k ≠ none ↔
      ∃ i, 1 ≤ i ∧ i ≤ (snapshot.clickables.toFinset ∪ snapshot.inputs.toFinset).card ∧
        k = utf8 "e" ++ Itoa i) := by
  obtain ⟨st, hlog, hres⟩ :=
    assignRefIDs_logged { e with refIDMap := [], refIDCounter := 0 } heap snapshot
  obtain ⟨hnd, hmem, hlen⟩ := assignmentLog_nodup heap snapshot hc hi hfresh
  rw [GetAccessibilitySnapshot_refresh e heap call snapshot hpage hstale hfetch, hres]
  simp only [List.length_map] at hlen
  have hid : ∀ i, refIDFor i = utf8 "e" ++ Itoa i := fun i => refIDFor_eq i
  simp only [← hid, ← hlen]
  have hhandle : ∀ p ∈ snapshot.clickables ++ snapshot.inputs,
      ∃ i b, (assignmentLog heap snapshot)[i]? = some (p, b) ∧
        i < (assignmentLog heap snapshot).length ∧ (st.heap p).RefID = refIDFor (i + 1) := by
    intro p hp
    obtain ⟨i, b, hi1, hi2⟩ := hlog.handle p ((hmem p).mpr hp)
    refine ⟨i, b, hi1, ?_, ?_⟩
    · by_contra hcon
      rw [List.getElem?_eq_none (Nat.le_of_not_lt hcon)] at hi1
      exact absurd hi1 (by simp)
    · rw [hi2]; simp
  refine ⟨trivial, ?_, ?_, ?_, ?_, ?_⟩
  · simpa using hlog.counter
  · intro p hp
    obtain ⟨i, b, _, hlt, hid2⟩ := hhandle p hp
    exact ⟨i + 1, by omega, by omega, hid2⟩
  · intro p hp q hq heq
    obtain ⟨i, b, hi1, _, hi2⟩ := hhandle p hp
    obtain ⟨j, c, hj1, _, hj2⟩ := hhandle q hq
    rw [hi2, hj2] at heq
    have hij : i = j := by have := refIDFor_injective heq; omega
    subst hij
    rw [hi1] at hj1
    exact (Prod.mk.inj (Option.some.inj hj1)).1
  · intro i h1 hK
    have hlt : i - 1 < (assignmentLog heap snapshot).length := by omega
    have hget : (assignmentLog heap snapshot)[i - 1]? =
        some ((assignmentLog heap snapshot)[i - 1]) := List.getElem?_eq_getElem hlt
    have hp : ((assignmentLog heap snapshot)[i - 1]).1 ∈
        (assignmentLog heap snapshot).map Prod.fst :=
      List.mem_map.mpr ⟨_, List.getElem_mem hlt, rfl⟩
    refine ⟨((assignmentLog heap snapshot)[i - 1]).1, (hmem _).mp hp, ?_⟩
    obtain ⟨j, c, hj1, hjlt, hj2⟩ := hhandle _ ((hmem _).mp hp)
    have hjget : (assignmentLog heap snapshot)[j]? =
        some ((assignmentLog heap snapshot)[j]) := List.getElem?_eq_getElem hjlt
    have hjlt2 : j < ((assignmentLog heap snapshot).map Prod.fst).length := by
      simpa using hjlt
    have hlt2 : i - 1 < ((assignmentLog heap snapshot).map Prod.fst).length := by
      simpa using hlt
    have hfst : ((assignmentLog heap snapshot).map Prod.fst)[j] =
        ((assignmentLog heap snapshot).map Prod.fst)[i - 1] := by
      rw [hjget] at hj1
      simp only [List.getElem_map]
      rw [Option.some.inj hj1]
    have hji : j = i - 1 := (List.Nodup.getElem_inj_iff hnd).mp hfst
    rw [hj2, hji]
    congr 1
    omega
  · intro k
    constructor
    · intro hk
      by_contra hcon
      apply hk
      have := hlog.others k (by
        intro i hi heq
        exact hcon ⟨i + 1, by omega, by omega, by simpa using heq⟩)
      simpa [GoMap.lookup] using this
    · rintro ⟨i, h1, hK, rfl⟩
      have hlt : i - 1 < (assignmentLog heap snapshot).length := by omega
      have hst := hlog.stored (i - 1) hlt
      have hi1 : 0 + (i - 1) + 1 = i := by omega
      simp only [hi1] at hst
      rw [hst]
      simp [loggedRefData, List.getElem?_eq_getElem hlt]

/-- C7, at a concrete input: the example executor, whose cache of an earlier snapshot
has expired, refreshed with the example snapshot of four distinct nodes. -/
theorem refresh_handles_bijective_witness :
    exampleCall.activePage = true ∧
    (∀ cached, exampleExecutor.refIDSnapshot = some cached →
      ¬ (exampleCall.now - exampleExecutor.refIDTimestamp < exampleExecutor.refIDTTL)) ∧
    exampleCall.fetched = .ok exampleSnapshot ∧
    exampleSnapshot.clickables.Nodup ∧ exampleSnapshot.inputs.Nodup ∧
    (∀ p ∈ exampleSnapshot.clickables ++ exampleSnapshot.inputs, (exampleHeap p).RefID = []) ∧
    (GetAccessibilitySnapshot exampleExecutor exampleHeap exampleCall).1.1.refIDCounter =
      (exampleSnapshot.clickables.toFinset ∪ exampleSnapshot.inputs.toFinset).card ∧
    (exampleSnapshot.clickables.toFinset ∪ exampleSnapshot.inputs.toFinset).card = 4 ∧
    [0, 1, 2, 3].map (fun p =>
        ((GetAccessibilitySnapshot exampleExecutor exampleHeap exampleCall).1.2 p).RefID) =
      [utf8 "e1", utf8 "e4", utf8 "e2", utf8 "e3"] ∧
    (GetAccessibilitySnapshot exampleExecutor exampleHeap exampleCall).1.1.refIDMap.lookup
      (utf8 "e9") = none := by
  have h1 : exampleCall.activePage = true := by rfl
  have h2 : ∀ cached, exampleExecutor.refIDSnapshot = some cached →
      ¬ (exampleCall.now - exampleExecutor.refIDTimestamp < exampleExecutor.refIDTTL) := by
    intro _ _; decide
  have h3 : exampleCall.fetched = .ok exampleSnapshot := by rfl
  have h4 : exampleSnapshot.clickables.Nodup := by decide
  have h5 : exampleSnapshot.inputs.Nodup := by decide
  have h6 : ∀ p ∈ exampleSnapshot.clickables ++ exampleSnapshot.inputs,
      (exampleHeap p).RefID = [] := by decide
  have h := refresh_handles_bijective exampleExecutor exampleHeap exampleCall exampleSnapshot
    h1 h2 h3 h4 h5 h6
  exact ⟨h1, h2, h3, h4, h5, h6, h.2.1, by decide, by rfl, by rfl⟩


theorem id_ne_class : utf8 "id" ≠ utf8 "class" := by decide

theorem storeKeyAttributes_fields (node : AccessibilityNode) (d : RefData) :
    (storeKeyAttributes node d).Role = d.Role ∧ (storeKeyAttributes node d).Name = d.Name ∧
    (storeKeyAttributes node d).Nth = d.Nth ∧
    (storeKeyAttributes node d).BackendID = d.BackendID ∧
    (storeKeyAttributes node d).Href = d.Href ∧
    (storeKeyAttributes node d).Placeholder = d.Placeholder := by
  unfold storeKeyAttributes
  cases node.Attributes with
  | none => simp
  | some attrs =>
    simp only
    cases attrs.lookup (utf8 "id") <;> cases attrs.lookup (utf8 "class") <;>
      simp only <;> (try split_ifs) <;> simp

theorem storeKeyAttributes_attributes (node : AccessibilityNode) (d : RefData)
    (hd : d.Attributes = []) (k v : GoString) :
    (storeKeyAttributes node d).Attributes.lookup k = some v ↔
      (k = utf8 "id" ∨ k = utf8 "class") ∧
        (node.Attributes.getD []).lookup k = some v ∧ v ≠ [] := by
  have hne := id_ne_class
  unfold storeKeyAttributes
  cases hA : node.Attributes with
  | none => simp [hd, GoMap.lookup]
  | some attrs =>
    simp only [Option.getD_some]
    cases h1 : attrs.lookup (utf8 "id") with
    | none =>
      cases h2 : attrs.lookup (utf8 "class") with
      | none =>
        simp only [hd, GoMap.lookup]
        constructor
        · intro h; exact absurd h (by simp)
        · rintro ⟨hk | hk, hv, _⟩ <;> subst hk <;> simp_all
      | some c =>
        by_cases hc : c = []
        · simp [hd, GoMap.lookup, hc]
          rintro (hk | hk) hv <;> subst hk <;> simp_all
        · simp [hd, GoMap.lookup, GoMap.store, hc]
          constructor
          · rintro ⟨hk, hv⟩; subst hk; subst hv; exact ⟨Or.inr rfl, h2, hc⟩
          · rintro ⟨hk | hk, hv, _⟩ <;> subst hk <;> simp_all
    | some i =>
      by_cases hi : i = []
      · cases h2 : attrs.lookup (utf8 "class") with
        | none =>
          simp [hd, GoMap.lookup, hi]
          rintro (hk | hk) hv <;> subst hk <;> simp_all
        | some c =>
          by_cases hc : c = []
          · simp [hd, GoMap.lookup, hc, hi]
            rintro (hk | hk) hv <;> subst hk <;> simp_all
          · simp [hd, GoMap.lookup, GoMap.store, hc, hi]
            constructor
            · rintro ⟨hk, hv⟩; subst hk; subst hv; exact ⟨Or.inr rfl, h2, hc⟩
            · rintro ⟨hk | hk, hv, _⟩ <;> subst hk <;> simp_all
      · cases h2 : attrs.lookup (utf8 "class") with
        | none =>
          simp [hd, GoMap.lookup, GoMap.store, hi]
          constructor
          · rintro ⟨hk, hv⟩; subst hk; subst hv; exact ⟨Or.inl rfl, h1, hi⟩
          · rintro ⟨hk | hk, hv, _⟩ <;> subst hk <;> simp_all
        | some c =>
          by_cases hc : c = []
          · simp [hd, GoMap.lookup, GoMap.store, hc, hi]
            constructor
            · rintro ⟨hk, hv⟩; subst hk; subst hv; exact ⟨Or.inl rfl, h1, hi⟩
            · rintro ⟨hk | hk, hv, _⟩ <;> subst hk <;> simp_all
          · simp [hd, GoMap.lookup, GoMap.store, hc, hi, hne]
            by_cases hk2 : utf8 "class" = k
            · subst hk2
              simp only [if_true, Option.some.injEq]
              constructor
              · intro hv; subst hv; exact ⟨Or.inr trivial, h2, hc⟩
              · rintro ⟨_, hv, _⟩; rw [h2] at hv; exact Option.some.inj hv
            · by_cases hk1 : utf8 "id" = k
              · subst hk1
                simp only [hk2, if_false, if_true, Option.some.injEq]
                constructor
                · intro hv; subst hv; exact ⟨Or.inl trivial, h1, hi⟩
                · rintro ⟨_, hv, _⟩; rw [h1] at hv; exact Option.some.inj hv
              · simp only [hk2, hk1, if_false]
                constructor
                · intro h; exact absurd h (by simp)
                · rintro ⟨hk | hk, _, _⟩
                  · exact absurd hk.symm hk1
                  · exact absurd hk.symm hk2

theorem clickableRefData_split (node : AccessibilityNode) (nth : Nat) :
    ∃ d0 : RefData, clickableRefData node nth = storeKeyAttributes node d0 ∧
      d0.Role = node.Role ∧ d0.Name = node.Label ∧ d0.Nth = nth ∧
      d0.BackendID = node.BackendNodeID ∧
      d0.Href = (if node.Role = utf8 "link" then
          ((node.Attributes.getD []).lookup (utf8 "href")).getD []
        else []) ∧
      d0.Placeholder = [] ∧ d0.Attributes = [] := by
  refine ⟨_, rfl, ?_⟩
  by_cases hl : node.Role = utf8 "link"
  · cases hA : node.Attributes with
    | none => simp [hl, GoMap.lookup]
    | some attrs =>
      simp only [hl, ne_eq, not_false_eq_true, and_self, if_true, Option.getD_some,
        reduceCtorEq]
      cases attrs.lookup (utf8 "href") <;> simp
  · simp [hl]

theorem inputRefData_split (node : AccessibilityNode) (nth : Nat) :
    ∃ d0 : RefData, inputRefData node nth = storeKeyAttributes node d0 ∧
      d0.Role = node.Role ∧ d0.Name = node.Label ∧ d0.Nth = nth ∧
      d0.BackendID = node.BackendNodeID ∧ d0.Href = [] ∧
      d0.Placeholder = node.Placeholder ∧ d0.Attributes = [] := by
  refine ⟨_, rfl, ?_⟩
  by_cases hp : node.Placeholder = []
  · simp [hp]
  · simp [hp]

theorem clickableRefData_fields (node : AccessibilityNode) (nth : Nat) :
    (clickableRefData node nth).Role = node.Role ∧
    (clickableRefData node nth).Name = node.Label ∧
    (clickableRefData node nth).Nth = nth ∧
    (clickableRefData node nth).BackendID = node.BackendNodeID ∧
    (clickableRefData node nth).Href =
      (if node.Role = utf8 "link" then
        ((node.Attributes.getD []).lookup (utf8 "href")).getD []
      else []) ∧
    (clickableRefData node nth).Placeholder = [] ∧
    (∀ k v, (clickableRefData node nth).Attributes.lookup k = some v ↔
      (k = utf8 "id" ∨ k = utf8 "class") ∧
        (node.Attributes.getD []).lookup k = some v ∧ v ≠ []) := by
  obtain ⟨d0, hd, g1, g2, g3, g4, g5, g6, g7⟩ := clickableRefData_split node nth
  obtain ⟨f1, f2, f3, f4, f5, f6⟩ := storeKeyAttributes_fields node d0
  rw [hd, f1, f2, f3, f4, f5, f6, g1, g2, g3, g4, g5, g6]
  exact ⟨rfl, rfl, rfl, rfl, rfl, rfl, storeKeyAttributes_attributes node d0 g7⟩

theorem inputRefData_fields (node : AccessibilityNode) (nth : Nat) :
    (inputRefData node nth).Role = node.Role ∧
    (inputRefData node nth).Name = node.Label ∧
    (inputRefData node nth).Nth = nth ∧
    (inputRefData node nth).BackendID = node.BackendNodeID ∧
    (inputRefData node nth).Href = [] ∧
    (inputRefData node nth).Placeholder = node.Placeholder ∧
    (∀ k v, (inputRefData node nth).Attributes.lookup k = some v ↔
      (k = utf8 "id" ∨ k = utf8 "class") ∧
        (node.Attributes.getD []).lookup k = some v ∧ v ≠ []) := by
  obtain ⟨d0, hd, g1, g2, g3, g4, g5, g6, g7⟩ := inputRefData_split node nth
  obtain ⟨f1, f2, f3, f4, f5, f6⟩ := storeKeyAttributes_fields node d0
  rw [hd, f1, f2, f3, f4, f5, f6, g1, g2, g3, g4, g5, g6]
  exact ⟨rfl, rfl, rfl, rfl, rfl, rfl, storeKeyAttributes_attributes node d0 g7⟩

theorem append_colon_inj :
    ∀ (r1 r2 l1 l2 : GoString), (58 : UInt8) ∉ r1 → (58 : UInt8) ∉ r2 →
      r1 ++ 58 :: l1 = r2 ++ 58 :: l2 → r1 = r2 ∧ l1 = l2 := by
  intro r1
  induction r1 with
  | nil =>
    intro r2 l1 l2 _ h2 h
    cases r2 with
    | nil => simpa using h
    | cons c r2 =>
      simp only [List.nil_append, List.cons_append, List.cons.injEq] at h
      exact absurd (h.1 ▸ List.mem_cons_self _ _) h2
  | cons c r1 ih =>
    intro r2 l1 l2 h1 h2 h
    cases r2 with
    | nil =>
      simp only [List.nil_append, List.cons_append, List.cons.injEq] at h
      exact absurd (h.1 ▸ List.mem_cons_self _ _) h1
    | cons d r2 =>
      simp only [List.cons_append, List.cons.injEq] at h
      obtain ⟨hr, hl⟩ := ih r2 l1 l2 (fun hm => h1 (List.mem_cons_of_mem _ hm))
        (fun hm => h2 (List.mem_cons_of_mem _ hm)) h.2
      exact ⟨by rw [h.1, hr], hl⟩

theorem roleNameKey_eq_iff (a b : AccessibilityNode) (ha : (58 : UInt8) ∉ a.Role)
    (hb : (58 : UInt8) ∉ b.Role) :
    roleNameKey a = roleNameKey b ↔ a.Role = b.Role ∧ a.Label = b.Label := by
  rw [roleNameKey_eq, roleNameKey_eq]
  constructor
  · exact append_colon_inj _ _ _ _ ha hb
  · rintro ⟨h1, h2⟩; rw [h1, h2]

theorem mem_assignmentLog (heap : Heap) (snapshot : AccessibilitySnapshot) (p : NodePtr) :
    p ∈ (assignmentLog heap snapshot).map Prod.fst ↔
      p ∈ snapshot.clickables ∨ (p ∈ snapshot.inputs ∧ (heap p).RefID = []) := by
  rw [assignmentLog_fst, List.mem_append, mem_assignedInputs]
  tauto

theorem mem_assignmentLog_sub (heap : Heap) (snapshot : AccessibilitySnapshot)
    (q : NodePtr × Bool) (hq : q ∈ assignmentLog heap snapshot) :
    q.1 ∈ snapshot.clickables ++ snapshot.inputs := by
  have : q.1 ∈ (assignmentLog heap snapshot).map Prod.fst := List.mem_map.mpr ⟨q, hq, rfl⟩
  rw [mem_assignmentLog] at this
  rw [List.mem_append]
  tauto

/-- The node that received a handle carries the handle of one of its assignments, and
the map holds the `refData` of that assignment under it. -/
theorem assignRefIDs_entry (e : Executor) (heap : Heap) (snapshot : AccessibilitySnapshot)
    (p : NodePtr)
    (hp : p ∈ snapshot.clickables ∨ (p ∈ snapshot.inputs ∧ (heap p).RefID = [])) :
    ∃ i b, (assignmentLog heap snapshot)[i]? = some (p, b) ∧
      i < (assignmentLog heap snapshot).length ∧
      ((assignRefIDs e heap snapshot).2 p).RefID = refIDFor (e.refIDCounter + i + 1) ∧
      (assignRefIDs e heap snapshot).1.refIDMap.lookup
          ((assignRefIDs e heap snapshot).2 p).RefID =
        some (if b then
            clickableRefData (heap p)
              (((assignmentLog heap snapshot).take i).filter
                (fun q => decide (roleNameKey (heap q.1) = roleNameKey (heap p)))).length
          else
            inputRefData (heap p)
              (((assignmentLog heap snapshot).take i).filter
                (fun q => decide (roleNameKey (heap q.1) = roleNameKey (heap p)))).length) := by
  obtain ⟨st, hlog, hres⟩ := assignRefIDs_logged e heap snapshot
  obtain ⟨i, b, hi1, hi2⟩ := hlog.handle p ((mem_assignmentLog heap snapshot p).mpr hp)
  have hlt : i < (assignmentLog heap snapshot).length := by
    by_contra hcon
    rw [List.getElem?_eq_none (Nat.le_of_not_lt hcon)] at hi1
    exact absurd hi1 (by simp)
  refine ⟨i, b, hi1, hlt, ?_, ?_⟩
  · rw [hres]; simp only []; rw [hi2]
  · rw [hres]
    simp only []
    rw [hi2]
    simp only []
    rw [hlog.stored i hlt]
    simp only [loggedRefData, hi1]

/-- C8 (counterexample). The nodes `0` (role `a`, name `b:c`) and `1` (role `a:b`, name
`c`) differ in role and in name, yet both have the key `a:b:c`: node `1` receives
`e2` with `nth = 1` although no node assigned before it has its role and name. -/
theorem assignRefIDs_nth_colon_collision :
    ((assignRefIDs newExecutor colonHeap { clickables := [0, 1], inputs := [] }).2 1).RefID =
      utf8 "e2" ∧
    ((assignRefIDs newExecutor colonHeap { clickables := [0, 1], inputs := [] }).1.refIDMap.lookup
      (utf8 "e2")).map RefData.Nth = some 1 ∧
    (colonHeap 0).Role ≠ (colonHeap 1).Role ∧ (colonHeap 0).Label ≠ (colonHeap 1).Label := by
  refine ⟨by rfl, by rfl, by decide, by decide⟩

/-- C8 (as amended). When no role of the snapshot's nodes contains a colon (as no role
of the data model does), for every node that receives a handle in `assignRefIDs` the
`RefData` stored under the node's handle has `nth` equal to the number of assignments
made earlier in the same run, in the clickable pass or the input pass, to nodes with
the same role and the same name. So the first node of a (role, name) pair gets `0`
and nodes that differ in role or name do not share a counter. -/
theorem assignRefIDs_nth_counts_earlier (e : Executor) (heap : Heap)
    (snapshot : AccessibilitySnapshot)
    (hcolon : ∀ p ∈ snapshot.clickables ++ snapshot.inputs, (58 : UInt8) ∉ (heap p).Role)
    (p : NodePtr)
    (hp : p ∈ snapshot.clickables ∨ (p ∈ snapshot.inputs ∧ (heap p).RefID = [])) :
    ∃ i b d, (assignmentLog heap snapshot)[i]? = some (p, b) ∧
      ((assignRefIDs e heap snapshot).2 p).RefID = refIDFor (e.refIDCounter + i + 1) ∧
      (assignRefIDs e heap snapshot).1.refIDMap.lookup
          ((assignRefIDs e heap snapshot).2 p).RefID = some d ∧
      d.Nth = (((assignmentLog heap snapshot).take i).filter
        (fun q => decide ((heap q.1).Role = (heap p).Role ∧
          (heap q.1).Label = (heap p).Label))).length := by
  obtain ⟨i, b, h1, hlt, h2, h3⟩ := assignRefIDs_entry e heap snapshot p hp
  have hpm : p ∈ snapshot.clickables ++ snapshot.inputs := by
    rw [List.mem_append]; tauto
  have hfilter : ((assignmentLog heap snapshot).take i).filter
      (fun q => decide (roleNameKey (heap q.1) = roleNameKey (heap p))) =
      ((assignmentLog heap snapshot).take i).filter
        (fun q => decide ((heap q.1).Role = (heap p).Role ∧
          (heap q.1).Label = (heap p).Label)) := by
    apply List.filter_congr
    intro q hq
    have hqm := mem_assignmentLog_sub heap snapshot q (List.mem_of_mem_take hq)
    rw [decide_eq_decide]
    exact roleNameKey_eq_iff _ _ (hcolon _ hqm) (hcolon _ hpm)
  refine ⟨i, b, _, h1, h2, h3, ?_⟩
  rw [← hfilter]
  cases b
  · simp only [Bool.false_eq_true, if_false]
    exact (inputRefData_fields _ _).2.2.1
  · simp only [if_true]
    exact (clickableRefData_fields _ _).2.2.1

/-- C8, at a concrete input: in the example snapshot the second link `Home` (node `3`)
receives its handle after the first, with `nth` counting that one earlier assignment. -/
theorem assignRefIDs_nth_counts_earlier_witness :
    (∀ p ∈ exampleSnapshot.clickables ++ exampleSnapshot.inputs,
      (58 : UInt8) ∉ (exampleHeap p).Role) ∧
    (3 ∈ exampleSnapshot.clickables ∨
      (3 ∈ exampleSnapshot.inputs ∧ (exampleHeap 3).RefID = [])) ∧
    (∃ i b d, (assignmentLog exampleHeap exampleSnapshot)[i]? = some (3, b) ∧
      ((assignRefIDs newExecutor exampleHeap exampleSnapshot).2 3).RefID =
        refIDFor (newExecutor.refIDCounter + i + 1) ∧
      (assignRefIDs newExecutor exampleHeap exampleSnapshot).1.refIDMap.lookup
          ((assignRefIDs newExecutor exampleHeap exampleSnapshot).2 3).RefID = some d ∧
      d.Nth = (((assignmentLog exampleHeap exampleSnapshot).take i).filter
        (fun q => decide ((exampleHeap q.1).Role = (exampleHeap 3).Role ∧
          (exampleHeap q.1).Label = (exampleHeap 3).Label))).length) ∧
    ((assignRefIDs newExecutor exampleHeap exampleSnapshot).2 3).RefID = utf8 "e3" ∧
    ((assignRefIDs newExecutor exampleHeap exampleSnapshot).1.refIDMap.lookup
      (utf8 "e3")).map RefData.Nth = some 1 ∧
    ((assignRefIDs newExecutor exampleHeap exampleSnapshot).1.refIDMap.lookup
      (utf8 "e1")).map RefData.Nth = some 0 :=
  ⟨by decide, by decide,
    assignRefIDs_nth_counts_earlier newExecutor exampleHeap exampleSnapshot (by decide) 3
      (by decide), by rfl, by rfl, by rfl⟩

/-- C9 (code at the failing input). A text box with the placeholder `Search` that is
also clickable (it carries `onclick`) gets its handle `e1` in the clickable pass, whose
`refData` has no placeholder, and is skipped by the input pass: the `RefData` stored
under its handle has an empty placeholder. The same node listed as an input only gets
the placeholder `Search`. -/
theorem assignRefIDs_clickable_input_loses_placeholder :
    (searchHeap 0).Placeholder = utf8 "Search" ∧
    ((assignRefIDs newExecutor searchHeap { clickables := [0], inputs := [0] }).2 0).RefID =
      utf8 "e1" ∧
    ((assignRefIDs newExecutor searchHeap
        { clickables := [0], inputs := [0] }).1.refIDMap.lookup (utf8 "e1")).map
      RefData.Placeholder = some [] ∧
    ((assignRefIDs newExecutor searchHeap
        { clickables := [], inputs := [0] }).1.refIDMap.lookup (utf8 "e1")).map
      RefData.Placeholder = some (utf8 "Search") := by
  refine ⟨by rfl, by rfl, by rfl, by rfl⟩

/-- The stored fields when no link is assigned by the input pass. When every link among
the inputs is also among the clickables, for every node that receives a handle in
`assignRefIDs` the `RefData` stored under the node's handle has the node's role, name
and backend id; its `href` is the node's `href` attribute (empty when the node has
none) if the role is `link` and is empty for every other role; and its attribute map
binds a key to a value exactly when the key is `id` or `class` and the node has that
non-empty value for it. -/
theorem assignRefIDs_refData_fields (e : Executor) (heap : Heap)
    (snapshot : AccessibilitySnapshot)
    (hlink : ∀ p ∈ snapshot.inputs, (heap p).Role = utf8 "link" → p ∈ snapshot.clickables)
    (p : NodePtr)
    (hp : p ∈ snapshot.clickables ∨ (p ∈ snapshot.inputs ∧ (heap p).RefID = [])) :
    ∃ d, (assignRefIDs e heap snapshot).1.refIDMap.lookup
          ((assignRefIDs e heap snapshot).2 p).RefID = some d ∧
      d.Role = (heap p).Role ∧ d.Name = (heap p).Label ∧
      d.BackendID = (heap p).BackendNodeID ∧
      d.Href = (if (heap p).Role = utf8 "link" then
          (((heap p).Attributes.getD []).lookup (utf8 "href")).getD []
        else []) ∧
      (∀ k v, d.Attributes.lookup k = some v ↔
        (k = utf8 "id" ∨ k = utf8 "class") ∧
          ((heap p).Attributes.getD []).lookup k = some v ∧ v ≠ []) := by
  obtain ⟨i, b, h1, hlt, _, h3⟩ := assignRefIDs_entry e heap snapshot p hp
  refine ⟨_, h3, ?_⟩
  cases b
  · -- assigned by the input pass: not a clickable, hence not a link
    have hmem : (p, false) ∈ assignmentLog heap snapshot := List.getElem?_mem h1
    obtain ⟨hin, hnc, _⟩ := assignmentLog_input heap snapshot p hmem
    have hnl : (heap p).Role ≠ utf8 "link" := fun hl => hnc (hlink p hin hl)
    obtain ⟨f1, f2, _, f4, f5, _, f7⟩ := inputRefData_fields (heap p)
      (((assignmentLog heap snapshot).take i).filter
        (fun q => decide (roleNameKey (heap q.1) = roleNameKey (heap p)))).length
    simp only [Bool.false_eq_true, if_false, hnl]
    exact ⟨f1, f2, f4, f5, f7⟩
  · obtain ⟨f1, f2, _, f4, f5, _, f7⟩ := clickableRefData_fields (heap p)
      (((assignmentLog heap snapshot).take i).filter
        (fun q => decide (roleNameKey (heap q.1) = roleNameKey (heap p)))).length
    simp only [if_true]
    exact ⟨f1, f2, f4, f5, f7⟩

/-- The stored fields at a concrete input: the link `Home` of the example snapshot (node `0`, with
`href`, `id`, an empty `class` and a `title`) and the text box (node `1`). -/
theorem assignRefIDs_refData_fields_witness :
    (∀ p ∈ exampleSnapshot.inputs,
      (exampleHeap p).Role = utf8 "link" → p ∈ exampleSnapshot.clickables) ∧
    (0 ∈ exampleSnapshot.clickables ∨
      (0 ∈ exampleSnapshot.inputs ∧ (exampleHeap 0).RefID = [])) ∧
    (∃ d, (assignRefIDs newExecutor exampleHeap exampleSnapshot).1.refIDMap.lookup
          ((assignRefIDs newExecutor exampleHeap exampleSnapshot).2 0).RefID = some d ∧
      d.Role = (exampleHeap 0).Role ∧ d.Name = (exampleHeap 0).Label ∧
      d.BackendID = (exampleHeap 0).BackendNodeID ∧
      d.Href = (if (exampleHeap 0).Role = utf8 "link" then
          (((exampleHeap 0).Attributes.getD []).lookup (utf8 "href")).getD []
        else []) ∧
      (∀ k v, d.Attributes.lookup k = some v ↔
        (k = utf8 "id" ∨ k = utf8 "class") ∧
          ((exampleHeap 0).Attributes.getD []).lookup k = some v ∧ v ≠ [])) ∧
    (assignRefIDs newExecutor exampleHeap exampleSnapshot).1.refIDMap.lookup (utf8 "e1") =
      some { Role := utf8 "link", Name := utf8 "Home", Nth := 0, BackendID := 11,
             Href := utf8 "/", Placeholder := [], Attributes := [(utf8 "id", utf8 "home")] } ∧
    (assignRefIDs newExecutor exampleHeap exampleSnapshot).1.refIDMap.lookup (utf8 "e4") =
      some { Role := utf8 "textbox", Name := utf8 "Search", Nth := 0, BackendID := 12,
             Href := [], Placeholder := utf8 "Search", Attributes := [] } :=
  ⟨by decide, by decide,
    assignRefIDs_refData_fields newExecutor exampleHeap exampleSnapshot (by decide) 0
      (by decide), by rfl, by rfl⟩

theorem getElem?_lt_length {α : Type} {l : List α} {i : Nat} {a : α} (h : l[i]? = some a) :
    i < l.length := by
  by_contra hcon
  rw [List.getElem?_eq_none (Nat.le_of_not_lt hcon)] at h
  exact absurd h (by simp)

theorem index_unique_of_nodup_fst {α β : Type} (l : List (α × β)) (hnd : (l.map Prod.fst).Nodup)
    (i j : Nat) (a : α) (b c : β) (hi : l[i]? = some (a, b)) (hj : l[j]? = some (a, c)) :
    i = j := by
  have hil : i < l.length := by
    by_contra hcon
    rw [List.getElem?_eq_none (Nat.le_of_not_lt hcon)] at hi
    exact absurd hi (by simp)
  have hjl : j < l.length := by
    by_contra hcon
    rw [List.getElem?_eq_none (Nat.le_of_not_lt hcon)] at hj
    exact absurd hj (by simp)
  have hil2 : i < (l.map Prod.fst).length := by simpa using hil
  have hjl2 : j < (l.map Prod.fst).length := by simpa using hjl
  have h1 : (l.map Prod.fst)[i] = a := by
    rw [List.getElem?_eq_getElem hil] at hi
    simp only [List.getElem_map]
    rw [Option.some.inj hi]
  have h2 : (l.map Prod.fst)[j] = a := by
    rw [List.getElem?_eq_getElem hjl] at hj
    simp only [List.getElem_map]
    rw [Option.some.inj hj]
  exact (List.Nodup.getElem_inj_iff hnd).mp (h1.trans h2.symm)

theorem filterMap_fst_cons {α β : Type} (a : Option α × β) (l : List (Option α × β)) :
    (a :: l).filterMap Prod.fst = a.1.toList ++ l.filterMap Prod.fst := by
  rcases a with ⟨_ | x, b⟩ <;> simp [List.filterMap_cons]

/-! ## The cache of the snapshot -/

theorem GetAccessibilitySnapshot_no_page (e : Executor) (heap : Heap) (call : SnapshotCall)
    (hpage : call.activePage = false) :
    GetAccessibilitySnapshot e heap call = ((e, heap), .error (utf8 "no active page")) := by
  unfold GetAccessibilitySnapshot
  simp [hpage]

theorem GetAccessibilitySnapshot_cached (e : Executor) (heap : Heap) (call : SnapshotCall)
    (cached : AccessibilitySnapshot) (hpage : call.activePage = true)
    (hcached : e.refIDSnapshot = some cached)
    (hyoung : call.now - e.refIDTimestamp < e.refIDTTL) :
    GetAccessibilitySnapshot e heap call = ((e, heap), .ok cached) := by
  unfold GetAccessibilitySnapshot
  simp [hpage, hcached, hyoung]

theorem GetAccessibilitySnapshot_stale (e : Executor) (heap : Heap) (call : SnapshotCall)
    (hpage : call.activePage = true)
    (hstale : ¬ (e.refIDSnapshot ≠ none ∧ call.now - e.refIDTimestamp < e.refIDTTL)) :
    GetAccessibilitySnapshot e heap call = GetAccessibilitySnapshot.refresh e heap call := by
  unfold GetAccessibilitySnapshot
  simp only [hpage, Bool.not_true, Bool.false_eq_true, if_false]
  cases hs : e.refIDSnapshot with
  | none => rfl
  | some cached =>
    have : ¬ (call.now - e.refIDTimestamp < e.refIDTTL) := by
      intro h; exact hstale ⟨by simp [hs], h⟩
    simp only [if_neg this]

theorem GetAccessibilitySnapshot_refresh_error (e : Executor) (heap : Heap) (call : SnapshotCall)
    (err : GoString) (hfetch : call.fetched = .error err) :
    GetAccessibilitySnapshot.refresh e heap call = ((e, heap), .error err) := by
  simp [GetAccessibilitySnapshot.refresh, hfetch]

/-- C11. With an active page, `GetAccessibilitySnapshot` answers from the cache, which
is to say it returns the cached snapshot and leaves executor and nodes as they are
whatever a fetch would return, if and only if a snapshot is cached and the time since
its timestamp is less than the TTL; so on such a call that time is at most the TTL. An
executor made by `NewExecutor` has a TTL of 300 seconds. In every other case the new
snapshot is fetched and, when that succeeds, it is returned and cached with the time
of storing as timestamp, the TTL is kept, and the map is exactly the assignments of the
new snapshot under `e1`, `e2`, ... (nothing of the old map is left). -/
theorem GetAccessibilitySnapshot_cache_policy (e : Executor) (heap : Heap)
    (call : SnapshotCall) (hpage : call.activePage = true) :
    ((∃ cached, e.refIDSnapshot = some cached ∧
        ∀ fetched storedAt,
          GetAccessibilitySnapshot e heap
              { call with fetched := fetched, storedAt := storedAt } =
            ((e, heap), .ok cached)) ↔
      (e.refIDSnapshot ≠ none ∧ call.now - e.refIDTimestamp < e.refIDTTL)) ∧
    ((∃ cached, e.refIDSnapshot = some cached ∧
        ∀ fetched storedAt,
          GetAccessibilitySnapshot e heap
              { call with fetched := fetched, storedAt := storedAt } =
            ((e, heap), .ok cached)) →
      call.now - e.refIDTimestamp ≤ e.refIDTTL) ∧
    newExecutor.refIDTTL = 300 * Second ∧
    (¬ (e.refIDSnapshot ≠ none ∧ call.now - e.refIDTimestamp < e.refIDTTL) →
      ∀ snapshot, call.fetched = .ok snapshot →
        (GetAccessibilitySnapshot e heap call).2 = .ok snapshot ∧
        (GetAccessibilitySnapshot e heap call).1.1.refIDSnapshot = some snapshot ∧
        (GetAccessibilitySnapshot e heap call).1.1.refIDTimestamp = call.storedAt ∧
        (GetAccessibilitySnapshot e heap call).1.1.refIDTTL = e.refIDTTL ∧
        (GetAccessibilitySnapshot e heap call).1.1.refIDCounter =
          (assignmentLog heap snapshot).length ∧
        (∀ i, i < (assignmentLog heap snapshot).length →
          (GetAccessibilitySnapshot e heap call).1.1.refIDMap.lookup (refIDFor (i + 1)) =
            loggedRefData heap (assignmentLog heap snapshot) i) ∧
        (∀ k, (∀ i, i < (assignmentLog heap snapshot).length → k ≠ refIDFor (i + 1)) →
          (GetAccessibilitySnapshot e heap call).1.1.refIDMap.lookup k = none)) := by
  have hiff : (∃ cached, e.refIDSnapshot = some cached ∧
        ∀ fetched storedAt,
          GetAccessibilitySnapshot e heap
              { call with fetched := fetched, storedAt := storedAt } =
            ((e, heap), .ok cached)) ↔
      (e.refIDSnapshot ≠ none ∧ call.now - e.refIDTimestamp < e.refIDTTL) := by
    constructor
    · rintro ⟨cached, hc, hall⟩
      by_contra hstale
      have h1 := hall (.error []) 0
      rw [GetAccessibilitySnapshot_stale e heap
          { call with fetched := .error [], storedAt := 0 } hpage hstale,
        GetAccessibilitySnapshot_refresh_error e heap
          { call with fetched := .error [], storedAt := 0 } [] rfl] at h1
      simp at h1
    · rintro ⟨hsome, hyoung⟩
      obtain ⟨cached, hc⟩ := Option.ne_none_iff_exists'.mp hsome
      exact ⟨cached, hc, fun fetched storedAt =>
        GetAccessibilitySnapshot_cached e heap _ cached hpage hc hyoung⟩
  refine ⟨hiff, fun h => le_of_lt (hiff.mp h).2, by decide, ?_⟩
  intro hstale snapshot hfetch
  have hst : ∀ cached, e.refIDSnapshot = some cached →
      ¬ (call.now - e.refIDTimestamp < e.refIDTTL) := by
    intro cached hc h
    exact hstale ⟨by simp [hc], h⟩
  obtain ⟨st, hlog, hres⟩ :=
    assignRefIDs_logged { e with refIDMap := [], refIDCounter := 0 } heap snapshot
  rw [GetAccessibilitySnapshot_refresh e heap call snapshot hpage hst hfetch, hres]
  refine ⟨rfl, rfl, rfl, rfl, ?_, ?_, ?_⟩
  · simpa using hlog.counter
  · intro i hi
    have := hlog.stored i hi
    simpa using this
  · intro k hk
    have := hlog.others k (by intro i hi; simpa using hk i hi)
    simpa [GoMap.lookup] using this

/-- C11, at concrete inputs: on the example executor (cached at `0`, TTL `300`) a call
at `100` is within the TTL, and the call at `500` stores the new snapshot at its time
of storing. -/
theorem GetAccessibilitySnapshot_cache_policy_witness :
    youngCall.activePage = true ∧ exampleCall.activePage = true ∧
    youngCall.now - exampleExecutor.refIDTimestamp ≤ exampleExecutor.refIDTTL ∧
    (GetAccessibilitySnapshot exampleExecutor exampleHeap exampleCall).1.1.refIDTimestamp =
      exampleCall.storedAt ∧
    GetAccessibilitySnapshot exampleExecutor exampleHeap youngCall =
      ((exampleExecutor, exampleHeap), .ok ⟨[7], []⟩) :=
  ⟨rfl, rfl,
    (GetAccessibilitySnapshot_cache_policy exampleExecutor exampleHeap youngCall rfl).2.1
      ((GetAccessibilitySnapshot_cache_policy exampleExecutor exampleHeap youngCall rfl).1.mpr
        ⟨by decide, by decide⟩),
    ((GetAccessibilitySnapshot_cache_policy exampleExecutor exampleHeap exampleCall rfl).2.2.2
      (by decide) exampleSnapshot rfl).2.2.1,
    by rfl⟩

/-- C12. After `InvalidateRefIDCache` every lookup in the RefID map finds nothing, the
counter is `0` and no snapshot is cached, while the TTL is the one before; invalidating
twice gives the same executor as invalidating once. The next `GetAccessibilitySnapshot`
with an active page, at whatever time it is made, goes to the fetch: it returns the
error of a failed fetch, and a fetched snapshot is returned and cached. -/
theorem InvalidateRefIDCache_drops_cache (e : Executor) :
    (∀ k, (InvalidateRefIDCache e).refIDMap.lookup k = none) ∧
    (InvalidateRefIDCache e).refIDCounter = 0 ∧
    (InvalidateRefIDCache e).refIDSnapshot = none ∧
    (InvalidateRefIDCache e).refIDTTL = e.refIDTTL ∧
    InvalidateRefIDCache (InvalidateRefIDCache e) = InvalidateRefIDCache e ∧
    (∀ (heap : Heap) (call : SnapshotCall), call.activePage = true →
      (∀ err, call.fetched = .error err →
        GetAccessibilitySnapshot (InvalidateRefIDCache e) heap call =
          ((InvalidateRefIDCache e, heap), .error err)) ∧
      (∀ snapshot, call.fetched = .ok snapshot →
        (GetAccessibilitySnapshot (InvalidateRefIDCache e) heap call).2 = .ok snapshot ∧
        (GetAccessibilitySnapshot (InvalidateRefIDCache e) heap call).1.1.refIDSnapshot =
          some snapshot ∧
        (GetAccessibilitySnapshot (InvalidateRefIDCache e) heap call).1.1.refIDTimestamp =
          call.storedAt)) := by
  refine ⟨fun k => rfl, rfl, rfl, rfl, rfl, ?_⟩
  intro heap call hpage
  have hstale : ¬ ((InvalidateRefIDCache e).refIDSnapshot ≠ none ∧
      call.now - (InvalidateRefIDCache e).refIDTimestamp < (InvalidateRefIDCache e).refIDTTL) := by
    rintro ⟨h, _⟩
    exact h rfl
  constructor
  · intro err herr
    rw [GetAccessibilitySnapshot_stale _ heap call hpage hstale,
      GetAccessibilitySnapshot_refresh_error _ heap call err herr]
  · intro snapshot hfetch
    rw [GetAccessibilitySnapshot_refresh _ heap call snapshot hpage
      (fun cached hc => by simp [InvalidateRefIDCache] at hc) hfetch]
    exact ⟨rfl, rfl, rfl⟩

/-- C12, at a concrete input: the example executor holds a snapshot cached at `0` with
a TTL of `300`; once invalidated, a call at `100` returns the fetched snapshot. -/
theorem InvalidateRefIDCache_drops_cache_witness :
    youngCall.activePage = true ∧ youngCall.fetched = .ok exampleSnapshot ∧
    (GetAccessibilitySnapshot exampleExecutor exampleHeap youngCall).2 = .ok ⟨[7], []⟩ ∧
    (GetAccessibilitySnapshot (InvalidateRefIDCache exampleExecutor) exampleHeap youngCall).2 =
      .ok exampleSnapshot :=
  ⟨rfl, rfl, by rfl,
    (((InvalidateRefIDCache_drops_cache exampleExecutor).2.2.2.2.2 exampleHeap youngCall rfl).2
      exampleSnapshot rfl).1⟩

/-! ## Batches -/

theorem runOperations_cons {σ : Type} (v : Verbs σ) (op : Operation) (rest : List Operation)
    (w : σ) :
    runOperations v (op :: rest) w =
      ((dispatchOperation v op w).1 :: (runOperations v rest (dispatchOperation v op w).2).1,
        (runOperations v rest (dispatchOperation v op w).2).2) := rfl

theorem batchLoop_stop {σ : Type} (v : Verbs σ) (i : Nat) (op : Operation)
    (rest : List Operation) (results : BatchResult) (w : σ)
    (hstop : (dispatchOperation v op w).1.2 ≠ none ∧ op.StopOnError = true) :
    batchLoop v i (op :: rest) results w =
      ({ Operations := results.Operations ++ (dispatchOperation v op w).1.1.toList,
         Success := results.Success, Failed := i + 1, StartTime := results.StartTime,
         EndTime := results.EndTime, Duration := results.Duration },
        (dispatchOperation v op w).2) := by
  rcases h : dispatchOperation v op w with ⟨⟨result, err⟩, w1⟩
  rw [h] at hstop
  simp only [batchLoop, h]
  rw [if_pos hstop]
  cases result <;> simp

theorem batchLoop_continue {σ : Type} (v : Verbs σ) (i : Nat) (op : Operation)
    (rest : List Operation) (results : BatchResult) (w : σ)
    (hgo : ¬ ((dispatchOperation v op w).1.2 ≠ none ∧ op.StopOnError = true)) :
    batchLoop v i (op :: rest) results w =
      batchLoop v (i + 1) rest
        { Operations := results.Operations ++ (dispatchOperation v op w).1.1.toList,
          Success := results.Success +
            (if ((dispatchOperation v op w).1.1.map OperationResult.Success).getD false = true
              then 1 else 0),
          Failed := results.Failed +
            (if ((dispatchOperation v op w).1.1.map OperationResult.Success).getD false = true
              then 0 else 1),
          StartTime := results.StartTime, EndTime := results.EndTime,
          Duration := results.Duration }
        (dispatchOperation v op w).2 := by
  rcases h : dispatchOperation v op w with ⟨⟨result, err⟩, w1⟩
  rw [h] at hgo
  simp only [batchLoop, h]
  rw [if_neg hgo]
  cases result with
  | none => simp
  | some r => cases hr : r.Success <;> simp [hr]

/-- What the loop of `ExecuteBatch` has done when it ends: it has run the first `n`
operations, appended their results, and `n` is the position after the first operation
that failed with `StopOnError`, or the number of operations when there is none. -/
theorem batchLoop_runs_prefix {σ : Type} (v : Verbs σ) :
    ∀ (ops : List Operation) (i : Nat) (results : BatchResult) (w : σ),
      ∃ n, n ≤ ops.length ∧
        (batchLoop v i ops results w).1.Operations =
          results.Operations ++ (runOperations v (ops.take n) w).1.filterMap Prod.fst ∧
        (batchLoop v i ops results w).2 = (runOperations v (ops.take n) w).2 ∧
        (runOperations v (ops.take n) w).1.length = n ∧
        (∀ k op outcome, ops[k]? = some op →
          (runOperations v (ops.take n) w).1[k]? = some outcome →
          outcome.2 ≠ none → op.StopOnError = true → k + 1 = n) ∧
        (n < ops.length → 0 < n ∧ ∃ op outcome, ops[n - 1]? = some op ∧
          (runOperations v (ops.take n) w).1[n - 1]? = some outcome ∧
          outcome.2 ≠ none ∧ op.StopOnError = true) := by
  intro ops
  induction ops with
  | nil =>
    intro i results w
    exact ⟨0, le_refl _, by simp [batchLoop, runOperations], rfl, rfl,
      by intro k op outcome h; simp at h, by intro h; simp at h⟩
  | cons op rest ih =>
    intro i results w
    by_cases hstop : (dispatchOperation v op w).1.2 ≠ none ∧ op.StopOnError = true
    · refine ⟨1, by simp, ?_, ?_, ?_, ?_, ?_⟩
      · rw [batchLoop_stop v i op rest results w hstop]
        simp [runOperations_cons, runOperations, filterMap_fst_cons]
      · rw [batchLoop_stop v i op rest results w hstop]
        simp [runOperations_cons, runOperations]
      · simp [runOperations_cons, runOperations]
      · intro k op' outcome _ hk _ _
        have := getElem?_lt_length hk
        simp [runOperations_cons, runOperations] at this
        omega
      · intro _
        refine ⟨by omega, op, (dispatchOperation v op w).1, by simp, ?_, hstop.1, hstop.2⟩
        simp [runOperations_cons, runOperations]
    · obtain ⟨n, hn, h1, h2, h3, h4, h5⟩ := ih (i + 1)
        { Operations := results.Operations ++ (dispatchOperation v op w).1.1.toList,
          Success := results.Success +
            (if ((dispatchOperation v op w).1.1.map OperationResult.Success).getD false = true
              then 1 else 0),
          Failed := results.Failed +
            (if ((dispatchOperation v op w).1.1.map OperationResult.Success).getD false = true
              then 0 else 1),
          StartTime := results.StartTime, EndTime := results.EndTime,
          Duration := results.Duration }
        (dispatchOperation v op w).2
      refine ⟨n + 1, by simpa using hn, ?_, ?_, ?_, ?_, ?_⟩
      · rw [batchLoop_continue v i op rest results w hstop, h1]
        simp [runOperations_cons, filterMap_fst_cons]
      · rw [batchLoop_continue v i op rest results w hstop, h2]
        simp [runOperations_cons]
      · simp [runOperations_cons, h3]
      · intro k op' outcome hop hout herr hflag
        cases k with
        | zero =>
          simp only [List.getElem?_cons_zero, Option.some.injEq] at hop
          simp only [List.take_succ_cons, runOperations_cons, List.getElem?_cons_zero,
            Option.some.injEq] at hout
          subst hop hout
          exact absurd ⟨herr, hflag⟩ hstop
        | succ k =>
          simp only [List.getElem?_cons_succ] at hop
          simp only [List.take_succ_cons, runOperations_cons, List.getElem?_cons_succ] at hout
          have := h4 k op' outcome hop hout herr hflag
          omega
      · intro hlt
        have hlt2 : n < rest.length := by simpa using hlt
        obtain ⟨hpos, op', outcome, hop, hout, herr, hflag⟩ := h5 hlt2
        refine ⟨by omega, op', outcome, ?_, ?_, herr, hflag⟩
        · have : n + 1 - 1 = (n - 1) + 1 := by omega
          rw [this, List.getElem?_cons_succ]
          exact hop
        · have : n + 1 - 1 = (n - 1) + 1 := by omega
          rw [this]
          simp only [List.take_succ_cons, runOperations_cons, List.getElem?_cons_succ]
          exact hout

theorem ExecuteBatch_eq {σ : Type} (v : Verbs σ) (operations : List Operation) (w : σ) :
    ExecuteBatch v operations w =
      (({ (batchLoop v 0 operations
              { Operations := [], Success := 0, Failed := 0, StartTime := (v.Now w).1,
                EndTime := 0, Duration := 0 } (v.Now w).2).1 with
            EndTime := (v.Now (batchLoop v 0 operations
              { Operations := [], Success := 0, Failed := 0, StartTime := (v.Now w).1,
                EndTime := 0, Duration := 0 } (v.Now w).2).2).1,
            Duration := (v.Now (batchLoop v 0 operations
              { Operations := [], Success := 0, Failed := 0, StartTime := (v.Now w).1,
                EndTime := 0, Duration := 0 } (v.Now w).2).2).1 -
              (batchLoop v 0 operations
              { Operations := [], Success := 0, Failed := 0, StartTime := (v.Now w).1,
                EndTime := 0, Duration := 0 } (v.Now w).2).1.StartTime }, none),
        (v.Now (batchLoop v 0 operations
              { Operations := [], Success := 0, Failed := 0, StartTime := (v.Now w).1,
                EndTime := 0, Duration := 0 } (v.Now w).2).2).2) := rfl

theorem dispatchOperation_unknown {σ : Type} (v : Verbs σ) (op : Operation) (w : σ)
    (hop : op.Type_ ∉ knownOperationTypes) :
    dispatchOperation v op w =
      ((some { Success := false, Message := [],
               Error := utf8 "Unknown operation type: " ++ op.Type_,
               Timestamp := (v.Now w).1, Data := none },
        some (utf8 "unknown operation type: " ++ op.Type_)), (v.Now w).2) := by
  simp only [knownOperationTypes, List.mem_cons, List.mem_singleton, not_or, List.not_mem_nil,
    not_false_eq_true, and_true] at hop
  obtain ⟨h1, h2, h3, h4, h5⟩ := hop
  have e1 : Sprintf (utf8 "Unknown operation type: %s") [.str op.Type_] =
      utf8 "Unknown operation type: " ++ op.Type_ := by
    have hf : utf8 "Unknown operation type: %s" =
        utf8 "Unknown operation type: " ++ (37 :: 115 :: []) := by rfl
    rw [hf, Sprintf_text _ _ _ (by decide), Sprintf_str, Sprintf_nil]
    simp
  have e2 : Sprintf (utf8 "unknown operation type: %s") [.str op.Type_] =
      utf8 "unknown operation type: " ++ op.Type_ := by
    have hf : utf8 "unknown operation type: %s" =
        utf8 "unknown operation type: " ++ (37 :: 115 :: []) := by rfl
    rw [hf, Sprintf_text _ _ _ (by decide), Sprintf_str, Sprintf_nil]
    simp
  simp only [dispatchOperation, h1, h2, h3, h4, h5, if_false, e1, e2]

theorem asString_stringParam (op : Operation) (key : GoString) :
    (GoValue.asString (op.Params.lookup key)).1 = stringParam op key := by
  unfold stringParam
  rcases op.Params.lookup key with _ | (s | j) <;> rfl

/-- Running an operation of a known type is the call of the verb of that type. -/
theorem dispatchOperation_known {σ : Type} (v : Verbs σ) (op : Operation) (w : σ) :
    (op.Type_ = utf8 "navigate" →
      dispatchOperation v op w = v.Navigate (stringParam op (utf8 "url")) w) ∧
    (op.Type_ = utf8 "click" →
      dispatchOperation v op w = v.Click (stringParam op (utf8 "identifier")) w) ∧
    (op.Type_ = utf8 "type" →
      dispatchOperation v op w =
        v.Type_ (stringParam op (utf8 "identifier")) (stringParam op (utf8 "text")) w) ∧
    (op.Type_ = utf8 "select" →
      dispatchOperation v op w =
        v.Select (stringParam op (utf8 "identifier")) (stringParam op (utf8 "value")) w) ∧
    (op.Type_ = utf8 "wait" →
      dispatchOperation v op w = v.WaitFor (stringParam op (utf8 "identifier")) w) := by
  have n1 : utf8 "click" ≠ utf8 "navigate" := by decide
  have n2 : utf8 "type" ≠ utf8 "navigate" := by decide
  have n3 : utf8 "type" ≠ utf8 "click" := by decide
  have n4 : utf8 "select" ≠ utf8 "navigate" := by decide
  have n5 : utf8 "select" ≠ utf8 "click" := by decide
  have n6 : utf8 "select" ≠ utf8 "type" := by decide
  have n7 : utf8 "wait" ≠ utf8 "navigate" := by decide
  have n8 : utf8 "wait" ≠ utf8 "click" := by decide
  have n9 : utf8 "wait" ≠ utf8 "type" := by decide
  have n10 : utf8 "wait" ≠ utf8 "select" := by decide
  refine ⟨?_, ?_, ?_, ?_, ?_⟩ <;> intro h <;>
    simp only [dispatchOperation, h, n1, n2, n3, n4, n5, n6, n7, n8, n9, n10, if_true,
      if_false, asString_stringParam]

/-- C13. `ExecuteBatch` returns no error, and there is a number `n` of operations, at
most their number, such that the batch has run exactly the first `n` operations one
after another in input order (the world afterwards is the one after reading the clock,
running them in order and reading the clock again) and `Operations` holds what they
returned, in that order, an operation that returned no result contributing none; when
each returned a result, `Operations` has one entry per executed operation, entry `k`
being the result of operation `k`. An executed operation that returned an error and
has `StopOnError` is the last one executed; when operations are left over, the last
one executed returned an error and has `StopOnError`; so after an operation without
`StopOnError` the next one, if any, is executed too. An operation of an unknown type
returns a failed result and an error naming the type, and running an operation of a
known type is the call of the verb of that type with the string parameters of the
operation: `Navigate(url)`, `Click(identifier)`, `Type(identifier, text)`,
`Select(identifier, value)` and `WaitFor(identifier)`. -/
theorem ExecuteBatch_sequential_until_stop {σ : Type} (v : Verbs σ)
    (operations : List Operation) (w : σ) :
    (ExecuteBatch v operations w).1.2 = none ∧
    (∃ n, n ≤ operations.length ∧
      (runOperations v (operations.take n) (v.Now w).2).1.length = n ∧
      (ExecuteBatch v operations w).1.1.Operations =
        (runOperations v (operations.take n) (v.Now w).2).1.filterMap Prod.fst ∧
      (ExecuteBatch v operations w).2 =
        (v.Now (runOperations v (operations.take n) (v.Now w).2).2).2 ∧
      ((∀ outcome ∈ (runOperations v (operations.take n) (v.Now w).2).1, outcome.1 ≠ none) →
        (ExecuteBatch v operations w).1.1.Operations.map some =
          (runOperations v (operations.take n) (v.Now w).2).1.map Prod.fst) ∧
      (∀ k op outcome, operations[k]? = some op →
        (runOperations v (operations.take n) (v.Now w).2).1[k]? = some outcome →
        outcome.2 ≠ none → op.StopOnError = true → k + 1 = n) ∧
      (n < operations.length → 0 < n ∧ ∃ op outcome, operations[n - 1]? = some op ∧
        (runOperations v (operations.take n) (v.Now w).2).1[n - 1]? = some outcome ∧
        outcome.2 ≠ none ∧ op.StopOnError = true) ∧
      (∀ k op outcome, operations[k]? = some op →
        (runOperations v (operations.take n) (v.Now w).2).1[k]? = some outcome →
        op.StopOnError = false → k + 1 < operations.length → k + 1 < n)) ∧
    (∀ (op : Operation) (w' : σ), op.Type_ ∉ knownOperationTypes →
      dispatchOperation v op w' =
        ((some { Success := false, Message := [],
                 Error := utf8 "Unknown operation type: " ++ op.Type_,
                 Timestamp := (v.Now w').1, Data := none },
          some (utf8 "unknown operation type: " ++ op.Type_)), (v.Now w').2)) ∧
    (∀ (op : Operation) (w' : σ), op.Type_ = utf8 "navigate" →
      dispatchOperation v op w' = v.Navigate (stringParam op (utf8 "url")) w') ∧
    (∀ (op : Operation) (w' : σ), op.Type_ = utf8 "click" →
      dispatchOperation v op w' = v.Click (stringParam op (utf8 "identifier")) w') ∧
    (∀ (op : Operation) (w' : σ), op.Type_ = utf8 "type" →
      dispatchOperation v op w' =
        v.Type_ (stringParam op (utf8 "identifier")) (stringParam op (utf8 "text")) w') ∧
    (∀ (op : Operation) (w' : σ), op.Type_ = utf8 "select" →
      dispatchOperation v op w' =
        v.Select (stringParam op (utf8 "identifier")) (stringParam op (utf8 "value")) w') ∧
    (∀ (op : Operation) (w' : σ), op.Type_ = utf8 "wait" →
      dispatchOperation v op w' = v.WaitFor (stringParam op (utf8 "identifier")) w') := by
  refine ⟨rfl, ?_, fun op w' hop => dispatchOperation_unknown v op w' hop,
    fun op w' h => (dispatchOperation_known v op w').1 h,
    fun op w' h => (dispatchOperation_known v op w').2.1 h,
    fun op w' h => (dispatchOperation_known v op w').2.2.1 h,
    fun op w' h => (dispatchOperation_known v op w').2.2.2.1 h,
    fun op w' h => (dispatchOperation_known v op w').2.2.2.2 h⟩
  obtain ⟨n, hn, h1, h2, h3, h4, h5⟩ := batchLoop_runs_prefix v operations 0
    { Operations := [], Success := 0, Failed := 0, StartTime := (v.Now w).1,
      EndTime := 0, Duration := 0 } (v.Now w).2
  have hops : (ExecuteBatch v operations w).1.1.Operations =
      (runOperations v (operations.take n) (v.Now w).2).1.filterMap Prod.fst := by
    rw [ExecuteBatch_eq]
    simp only []
    rw [h1]
    simp
  refine ⟨n, hn, h3, hops, ?_, ?_, h4, h5, ?_⟩
  · rw [ExecuteBatch_eq]
    simp only []
    rw [h2]
  · intro hall
    rw [hops]
    generalize (runOperations v (operations.take n) (v.Now w).2).1 = outcomes at hall
    induction outcomes with
    | nil => rfl
    | cons a l ih =>
      rcases a with ⟨_ | r, err⟩
      · exact absurd rfl (hall _ (List.mem_cons_self _ _))
      · simp only [List.filterMap_cons, List.map_cons]
        rw [ih (fun o ho => hall o (List.mem_cons_of_mem _ ho))]
  · intro k op outcome hop hout hflag hnext
    have hk : k < n := by
      have := getElem?_lt_length hout
      omega
    by_contra hcon
    have hkn : k + 1 = n := by omega
    have hlt : n < operations.length := by omega
    obtain ⟨_, op', outcome', hop', _, _, hflag'⟩ := h5 hlt
    have : n - 1 = k := by omega
    rw [this, hop] at hop'
    have := Option.some.inj hop'
    subst this
    rw [hflag] at hflag'
    exact absurd hflag' (by simp)

/-- C13, at a concrete input: on a browser that records its calls, the batch of seven
operations runs the first six, in order and each with the string parameters given (the
value of the select, a number, is passed as the empty string): the failed click without
`stop_on_error` and the successful select with it do not end the batch, the unknown
operation with `stop_on_error` does, and the click after it is not made. The clock is
read at the start, for the result of the unknown operation, and at the end. -/
theorem ExecuteBatch_sequential_until_stop_witness :
    (ExecuteBatch recordingBrowser recordedBatch []).1.2 = none ∧
    recordedBatch.length = 7 ∧
    (ExecuteBatch recordingBrowser recordedBatch []).2 =
      [utf8 "Now", utf8 "Navigate https://example.com/", utf8 "Click e1",
       utf8 "Type e2 hello", utf8 "Select e3 ", utf8 "WaitFor e4", utf8 "Now", utf8 "Now"] ∧
    (ExecuteBatch recordingBrowser recordedBatch []).1.1.Operations.map
        OperationResult.Success = [true, false, true, true, true, false] ∧
    (ExecuteBatch recordingBrowser recordedBatch []).1.1.Operations.map
        OperationResult.Error =
      [[], utf8 "element not found: e1", [], [], [],
       utf8 "Unknown operation type: frobnicate"] :=
  ⟨(ExecuteBatch_sequential_until_stop recordingBrowser recordedBatch []).1,
    by rfl, by rfl, by rfl, by rfl⟩

/-! ## The web fetch tool -/

theorem Errorf_text (text : GoString) (h : ∀ c ∈ text, c ≠ 37) : Errorf text [] = text := by
  have hw : ∀ t : GoString, (∀ c ∈ t, c ≠ 37) → wrapVerbs t = t := by
    intro t
    induction t with
    | nil => intro _; rfl
    | cons c t ih =>
      intro ht
      have hc : c ≠ 37 := ht c (List.mem_cons_self _ _)
      rw [wrapVerbs]
      · rw [ih (fun d hd => ht d (List.mem_cons_of_mem _ hd))]
      · intro rest hcon
        simp at hcon
        exact fun _ => hc hcon
  rw [Errorf, hw text h, Sprintf_text_end text h]

theorem wrapVerbs_text (pre rest : GoString) (h : ∀ c ∈ pre, c ≠ 37) :
    wrapVerbs (pre ++ rest) = pre ++ wrapVerbs rest := by
  induction pre with
  | nil => rfl
  | cons c pre ih =>
    have hc : c ≠ 37 := h c (List.mem_cons_self _ _)
    rw [List.cons_append, wrapVerbs]
    · rw [ih (fun d hd => h d (List.mem_cons_of_mem _ hd))]
      rfl
    · intro rest' hcon
      simp at hcon
      exact fun _ => hc hcon

/-- An error message that ends in its one verb, `%w` or `%s`. -/
theorem Errorf_wrap (text : GoString) (verb : UInt8) (err : GoString)
    (h : ∀ c ∈ text, c ≠ 37) (hv : verb = 119 ∨ verb = 115) :
    Errorf (text ++ [37, verb]) [.str err] = text ++ err := by
  have hw : wrapVerbs [37, verb] = [37, 115] := by
    rcases hv with rfl | rfl <;> rfl
  rw [Errorf, wrapVerbs_text text _ h, hw, Sprintf_text _ _ _ h, Sprintf_str, Sprintf_nil]
  simp

theorem httpError_eq (code : Int) (status : GoString) :
    Errorf (utf8 "HTTP error: %d %s") [.int code, .str status] =
      utf8 "HTTP error: " ++ formatInt code ++ utf8 " " ++ status := by
  have hf : wrapVerbs (utf8 "HTTP error: %d %s") =
      utf8 "HTTP error: " ++ (37 :: 100 :: (utf8 " " ++ (37 :: 115 :: []))) := by rfl
  rw [Errorf, hf, Sprintf_text _ _ _ (by decide), Sprintf_int, Sprintf_text _ _ _ (by decide),
    Sprintf_str, Sprintf_nil]
  simp

theorem formatError_eq (format : GoString) :
    Errorf (utf8 "format must be 'html' or 'markdown', got: %s") [.str format] =
      utf8 "format must be 'html' or 'markdown', got: " ++ format :=
  Errorf_wrap (utf8 "format must be 'html' or 'markdown', got: ") 115 format (by decide)
    (Or.inr rfl)

/-- What `Execute` does with valid input: the request it sends and what it makes of the
answer. -/
theorem Execute_accepted {σ : Type} (env : FetchEnv σ) (input : GoString) (w : σ)
    (params : GoMap GoString GoValue) (urlStr : GoString)
    (hparse : env.Unmarshal input = .ok params)
    (hurl : params.lookup (utf8 "url") = some (.str urlStr)) (hne : urlStr ≠ [])
    (hformat : requestedFormat params = utf8 "html" ∨ requestedFormat params = utf8 "markdown")
    (hparseURL : env.urlError urlStr = none) :
    WebFetchTool.Execute env input w =
      match env.Do { Timeout := 30 * Second }
          { Method := utf8 "GET", URL := urlStr, Header := [(utf8 "User-Agent", userAgent)] } w with
      | (.error err, w') => (.error (utf8 "failed to fetch URL: " ++ err), w')
      | (.ok resp, w') =>
        if resp.StatusCode ≠ 200 then
          (.error (utf8 "HTTP error: " ++ formatInt resp.StatusCode ++ utf8 " " ++ resp.Status),
            w')
        else
          match resp.Body with
          | .error err => (.error (utf8 "failed to read response body: " ++ err), w')
          | .ok body =>
            if requestedFormat params = utf8 "markdown" then
              match env.ConvertString body with
              | .error err => (.error (utf8 "failed to convert to markdown: " ++ err), w')
              | .ok markdown =>
                (marshalled env [(utf8 "url", .str urlStr),
                  (utf8 "format", .str (requestedFormat params)),
                  (utf8 "content", .str markdown)], w')
            else
              (marshalled env [(utf8 "url", .str urlStr),
                (utf8 "format", .str (requestedFormat params)),
                (utf8 "content", .str body)], w') := by
  have hfmt : ¬ (requestedFormat params ≠ utf8 "html" ∧
      requestedFormat params ≠ utf8 "markdown") := by
    rintro ⟨h1, h2⟩
    rcases hformat with h | h
    · exact h1 h
    · exact h2 h
  have e1 : ∀ err, Errorf (utf8 "failed to fetch URL: %w") [.str err] =
      utf8 "failed to fetch URL: " ++ err :=
    fun err => Errorf_wrap (utf8 "failed to fetch URL: ") 119 err (by decide) (Or.inl rfl)
  have e2 : ∀ err, Errorf (utf8 "failed to read response body: %w") [.str err] =
      utf8 "failed to read response body: " ++ err :=
    fun err => Errorf_wrap (utf8 "failed to read response body: ") 119 err (by decide)
      (Or.inl rfl)
  have e3 : ∀ err, Errorf (utf8 "failed to convert to markdown: %w") [.str err] =
      utf8 "failed to convert to markdown: " ++ err :=
    fun err => Errorf_wrap (utf8 "failed to convert to markdown: ") 119 err (by decide)
      (Or.inl rfl)
  have e4 : ∀ err, Errorf (utf8 "failed to marshal output: %w") [.str err] =
      utf8 "failed to marshal output: " ++ err :=
    fun err => Errorf_wrap (utf8 "failed to marshal output: ") 119 err (by decide)
      (Or.inl rfl)
  simp only [WebFetchTool.Execute, hparse, hurl, GoValue.asString, Bool.not_true,
    Bool.false_eq_true, hne, or_self, if_false, if_neg hfmt, NewRequestWithContext, hparseURL,
    GoMap.store, List.filter_nil, StatusOK, e1, e2, e3, e4, httpError_eq]
  rcases hdo : env.Do { Timeout := 30 * Second }
      { Method := utf8 "GET", URL := urlStr, Header := [(utf8 "User-Agent", userAgent)] } w
    with ⟨_ | resp, w'⟩
  · rfl
  · simp only []
    by_cases hcode : resp.StatusCode = 200
    · simp only [hcode, ne_eq, not_true_eq_false, if_false]
      rcases hbody : resp.Body with err | body
      · rfl
      · simp only []
        by_cases hmd : requestedFormat params = utf8 "markdown"
        · simp only [hmd, if_true]
          rcases hconv : env.ConvertString body with err | markdown
          · rfl
          · simp only [marshalled]
            rcases env.MarshalIndent _ with err | json <;> rfl
        · simp only [hmd, if_false, marshalled]
          rcases env.MarshalIndent _ with err | json <;> rfl
    · simp only [ne_eq, hcode, not_false_eq_true, if_true]

theorem isHTTPError_failed (rest err : GoString) :
    isHTTPError (.error (102 :: rest ++ err)) = false := by
  have h : utf8 "HTTP error: " = 72 :: utf8 "TTP error: " := by rfl
  have hne : ((72 : UInt8) == 102) = false := by decide
  show (utf8 "HTTP error: ").isPrefixOf (102 :: (rest ++ err)) = false
  rw [h, List.isPrefixOf, hne]
  rfl

theorem isHTTPError_marshalled {σ : Type} (env : FetchEnv σ) (output : GoMap GoString GoValue) :
    isHTTPError (marshalled env output) = false := by
  unfold marshalled
  rcases env.MarshalIndent output with err | json
  · exact isHTTPError_failed _ err
  · rfl

theorem isHTTPError_http (code : Int) (status : GoString) :
    isHTTPError (.error (utf8 "HTTP error: " ++ formatInt code ++ utf8 " " ++ status)) = true := by
  have h : ∀ rest : GoString, (utf8 "HTTP error: ").isPrefixOf (utf8 "HTTP error: " ++ rest) = true := by
    intro rest
    simp
  simp only [isHTTPError, List.append_assoc]
  exact h _

/-- C14 (counterexample). The answer `203 Non-Authoritative Information`, a status in
`200..299`, to a valid request for HTML: `Execute` sends the request and returns the
error `HTTP error: 203 ...`, not the payload. -/
theorem Execute_rejects_status_203 :
    200 ≤ nonAuthoritativeReply.StatusCode ∧ nonAuthoritativeReply.StatusCode ≤ 299 ∧
    WebFetchTool.Execute (fetchEnv nonAuthoritativeReply) htmlInput [] =
      (.error (utf8 "HTTP error: 203 203 Non-Authoritative Information"),
        [{ Method := utf8 "GET", URL := utf8 "https://example.com/",
           Header := [(utf8 "User-Agent", userAgent)] }]) := by
  refine ⟨by decide, by decide, by rfl⟩

/-- C14 (as amended). For valid input whose request is answered (with `resp`),
`Execute` returns an error with a message `HTTP error: ...` if and only if the status
code is not 200; the message then holds the status code in decimal and the status
line. For the status code 200, when the body is read, is converted if the format is
`markdown`, and the output is marshalled, the call returns the JSON text of the map of
`url`, `format` and `content`. -/
theorem Execute_http_error_iff_not_200 {σ : Type} (env : FetchEnv σ) (input : GoString)
    (w w' : σ) (params : GoMap GoString GoValue) (urlStr : GoString) (resp : Response)
    (hparse : env.Unmarshal input = .ok params)
    (hurl : params.lookup (utf8 "url") = some (.str urlStr)) (hne : urlStr ≠ [])
    (hformat : requestedFormat params = utf8 "html" ∨ requestedFormat params = utf8 "markdown")
    (hparseURL : env.urlError urlStr = none)
    (hdo : env.Do { Timeout := 30 * Second }
      { Method := utf8 "GET", URL := urlStr, Header := [(utf8 "User-Agent", userAgent)] } w =
        (.ok resp, w')) :
    (isHTTPError (WebFetchTool.Execute env input w).1 = true ↔ resp.StatusCode ≠ 200) ∧
    (resp.StatusCode ≠ 200 →
      WebFetchTool.Execute env input w =
        (.error (utf8 "HTTP error: " ++ formatInt resp.StatusCode ++ utf8 " " ++ resp.Status),
          w')) ∧
    (resp.StatusCode = 200 → ∀ body content json, resp.Body = .ok body →
      (requestedFormat params = utf8 "markdown" → env.ConvertString body = .ok content) →
      (requestedFormat params ≠ utf8 "markdown" → content = body) →
      env.MarshalIndent [(utf8 "url", .str urlStr),
        (utf8 "format", .str (requestedFormat params)), (utf8 "content", .str content)] =
          .ok json →
      WebFetchTool.Execute env input w = (.ok json, w')) := by
  have hex := Execute_accepted env input w params urlStr hparse hurl hne hformat hparseURL
  rw [hdo] at hex
  simp only [] at hex
  refine ⟨?_, ?_, ?_⟩
  · rw [hex]
    by_cases hcode : resp.StatusCode = 200
    · simp only [hcode, ne_eq, not_true_eq_false, if_false, iff_false, Bool.not_eq_true]
      rcases resp.Body with err | body
      · exact isHTTPError_failed _ err
      · simp only []
        split_ifs
        · rcases env.ConvertString body with err | markdown
          · exact isHTTPError_failed _ err
          · exact isHTTPError_marshalled env _
        · exact isHTTPError_marshalled env _
    · simp only [ne_eq, hcode, not_false_eq_true, if_true, iff_true]
      exact isHTTPError_http _ _
  · intro hcode
    rw [hex, if_pos hcode]
  · intro hcode body content json hbody hmd hhtml hjson
    rw [hex]
    simp only [hcode, ne_eq, not_true_eq_false, if_false, hbody]
    by_cases hm : requestedFormat params = utf8 "markdown"
    · simp only [hm, if_true, hmd hm]
      rw [hm] at hjson
      simp only [marshalled, hjson]
    · simp only [hm, if_false]
      rw [hhtml hm] at hjson
      simp only [marshalled, hjson]

/-- C14, at a concrete input: the example request for HTML answered with `200 OK`
returns the JSON text of the output map, whose content is the page. -/
theorem Execute_http_error_iff_not_200_witness :
    (fetchEnv okReply).Unmarshal htmlInput =
      .ok [(utf8 "url", .str (utf8 "https://example.com/")),
        (utf8 "format", .str (utf8 "html"))] ∧
    isHTTPError (WebFetchTool.Execute (fetchEnv okReply) htmlInput []).1 = false ∧
    (WebFetchTool.Execute (fetchEnv okReply) htmlInput []).1 =
      .ok (utf8 "\x7b\n  \"url\": \"https://example.com/\",\n  \"format\": \"html\",\n  \"content\": \"<h1>Example Domain</h1>\"\n\x7d") := by
  have h := Execute_http_error_iff_not_200 (fetchEnv okReply) htmlInput []
    [{ Method := utf8 "GET", URL := utf8 "https://example.com/",
       Header := [(utf8 "User-Agent", userAgent)] }]
    [(utf8 "url", .str (utf8 "https://example.com/")), (utf8 "format", .str (utf8 "html"))]
    (utf8 "https://example.com/") okReply (by rfl) (by rfl) (by decide) (Or.inl (by rfl))
    (by rfl) (by rfl)
  refine ⟨by rfl, ?_, ?_⟩
  · have := h.1
    simp only [okReply, ne_eq, not_true_eq_false, iff_false, Bool.not_eq_true] at this
    exact this
  · rw [h.2.2 (by rfl) (utf8 "<h1>Example Domain</h1>") (utf8 "<h1>Example Domain</h1>") _
      (by rfl) (fun hm => absurd hm (by decide)) (fun _ => rfl) (by rfl)]
    rfl

theorem Execute_parse_error {σ : Type} (env : FetchEnv σ) (input : GoString) (w : σ)
    (err : GoString) (hparse : env.Unmarshal input = .error err) :
    WebFetchTool.Execute env input w =
      (.error (utf8 "failed to parse input parameters: " ++ err), w) := by
  have e1 : Errorf (utf8 "failed to parse input parameters: %w") [.str err] =
      utf8 "failed to parse input parameters: " ++ err :=
    Errorf_wrap (utf8 "failed to parse input parameters: ") 119 err (by decide) (Or.inl rfl)
  simp only [WebFetchTool.Execute, hparse, e1]

theorem asString_url_missing (v : Option GoValue)
    (h : ∀ u, v = some (.str u) → u = []) :
    (GoValue.asString v).2 = false ∨ (GoValue.asString v).1 = [] := by
  rcases v with _ | (s | j)
  · exact Or.inl rfl
  · exact Or.inr (h s rfl)
  · exact Or.inl rfl

theorem Execute_no_url {σ : Type} (env : FetchEnv σ) (input : GoString) (w : σ)
    (params : GoMap GoString GoValue) (hparse : env.Unmarshal input = .ok params)
    (hurl : ∀ u, params.lookup (utf8 "url") = some (.str u) → u = []) :
    WebFetchTool.Execute env input w = (.error (utf8 "url parameter is required"), w) := by
  have hreq : Errorf (utf8 "url parameter is required") [] = utf8 "url parameter is required" :=
    Errorf_text _ (by decide)
  have hmiss := asString_url_missing _ hurl
  simp only [WebFetchTool.Execute, hparse, hreq]
  rcases h : GoValue.asString (params.lookup (utf8 "url")) with ⟨urlStr, ok⟩
  rw [h] at hmiss
  simp only [] at hmiss ⊢
  have hcond : (!ok) = true ∨ urlStr = [] := by
    rcases hmiss with h1 | h1
    · exact Or.inl (by simp [h1])
    · exact Or.inr h1
  rw [if_pos hcond]

theorem Execute_bad_format {σ : Type} (env : FetchEnv σ) (input : GoString) (w : σ)
    (params : GoMap GoString GoValue) (urlStr : GoString)
    (hparse : env.Unmarshal input = .ok params)
    (hurl : params.lookup (utf8 "url") = some (.str urlStr)) (hne : urlStr ≠ [])
    (h1 : requestedFormat params ≠ utf8 "html") (h2 : requestedFormat params ≠ utf8 "markdown") :
    WebFetchTool.Execute env input w =
      (.error (utf8 "format must be 'html' or 'markdown', got: " ++ requestedFormat params),
        w) := by
  simp only [WebFetchTool.Execute, hparse, hurl, GoValue.asString, Bool.not_true,
    Bool.false_eq_true, hne, or_self, if_false, formatError_eq]
  rw [if_pos ⟨h1, h2⟩]

theorem Execute_bad_url {σ : Type} (env : FetchEnv σ) (input : GoString) (w : σ)
    (params : GoMap GoString GoValue) (urlStr err : GoString)
    (hparse : env.Unmarshal input = .ok params)
    (hurl : params.lookup (utf8 "url") = some (.str urlStr)) (hne : urlStr ≠ [])
    (hformat : requestedFormat params = utf8 "html" ∨ requestedFormat params = utf8 "markdown")
    (hparseURL : env.urlError urlStr = some err) :
    WebFetchTool.Execute env input w =
      (.error (utf8 "failed to create request: " ++ err), w) := by
  have hfmt : ¬ (requestedFormat params ≠ utf8 "html" ∧
      requestedFormat params ≠ utf8 "markdown") := by
    rintro ⟨h1, h2⟩
    rcases hformat with h | h
    · exact h1 h
    · exact h2 h
  have e1 : Errorf (utf8 "failed to create request: %w") [.str err] =
      utf8 "failed to create request: " ++ err :=
    Errorf_wrap (utf8 "failed to create request: ") 119 err (by decide) (Or.inl rfl)
  simp only [WebFetchTool.Execute, hparse, hurl, GoValue.asString, Bool.not_true,
    Bool.false_eq_true, hne, or_self, if_false, if_neg hfmt, NewRequestWithContext, hparseURL,
    e1]

theorem requestedFormat_default (params : GoMap GoString GoValue)
    (h : ∀ f, params.lookup (utf8 "format") = some (.str f) → f = []) :
    requestedFormat params = utf8 "markdown" := by
  unfold requestedFormat
  rcases hl : params.lookup (utf8 "format") with _ | (s | j)
  · simp [GoValue.asString]
  · have := h s hl
    subst this
    simp [GoValue.asString]
  · simp [GoValue.asString]

theorem requestedFormat_given (params : GoMap GoString GoValue) (f : GoString)
    (h : params.lookup (utf8 "format") = some (.str f)) (hne : f ≠ []) :
    requestedFormat params = f := by
  unfold requestedFormat
  simp [h, GoValue.asString, hne]

theorem marshalled_ok {σ : Type} (env : FetchEnv σ) (output : GoMap GoString GoValue)
    (json : GoString) (h : marshalled env output = .ok json) :
    env.MarshalIndent output = .ok json := by
  unfold marshalled at h
  rcases hm : env.MarshalIndent output with err | j
  · rw [hm] at h; simp at h
  · rw [hm] at h; simpa using h

/-- C15 (counterexample). The input whose `format` is the number `7`, a value other
than `html` and `markdown`: `Execute` does not reject it but sends the request and
returns a payload with the format `markdown`. -/
theorem Execute_accepts_number_format :
    (fetchEnv okReply).Unmarshal numberFormatInput =
      .ok [(utf8 "url", .str (utf8 "https://example.com/")),
        (utf8 "format", .other (utf8 "7"))] ∧
    WebFetchTool.Execute (fetchEnv okReply) numberFormatInput [] =
      (.ok (utf8 "\x7b\n  \"url\": \"https://example.com/\",\n  \"format\": \"markdown\",\n  \"content\": \"# Example Domain\"\n\x7d"),
        [{ Method := utf8 "GET", URL := utf8 "https://example.com/",
           Header := [(utf8 "User-Agent", userAgent)] }]) := by
  refine ⟨by rfl, by rfl⟩

/-- C15 (as amended). `Execute` rejects, with an error and without touching the
network (the world is as before), input that does not parse, input whose `url` is
missing, not a string or empty, and input whose format is neither `html` nor
`markdown`, the message then ending in the format. The format is the parameter
`format` when that is a string that is not empty, and `markdown` when it is absent,
not a string or empty. Whenever `Execute` returns a payload, the request with the
given URL was answered, and the payload is the JSON text of the map of `url` (the URL
given), `format` (that format) and `content`, which for `html` is the body of the
answer. -/
theorem Execute_validates_input {σ : Type} (env : FetchEnv σ) (input : GoString) (w : σ) :
    (∀ err, env.Unmarshal input = .error err →
      WebFetchTool.Execute env input w =
        (.error (utf8 "failed to parse input parameters: " ++ err), w)) ∧
    (∀ params, env.Unmarshal input = .ok params →
      ((∀ u, params.lookup (utf8 "url") = some (.str u) → u = []) →
        WebFetchTool.Execute env input w = (.error (utf8 "url parameter is required"), w)) ∧
      ((∀ f, params.lookup (utf8 "format") = some (.str f) → f = []) →
        requestedFormat params = utf8 "markdown") ∧
      (∀ f, params.lookup (utf8 "format") = some (.str f) → f ≠ [] →
        requestedFormat params = f) ∧
      (∀ u, params.lookup (utf8 "url") = some (.str u) → u ≠ [] →
        (requestedFormat params ≠ utf8 "html" → requestedFormat params ≠ utf8 "markdown" →
          WebFetchTool.Execute env input w =
            (.error (utf8 "format must be 'html' or 'markdown', got: " ++
              requestedFormat params), w)) ∧
        (∀ json, (WebFetchTool.Execute env input w).1 = .ok json →
          ∃ resp content,
            (env.Do { Timeout := 30 * Second }
              { Method := utf8 "GET", URL := u, Header := [(utf8 "User-Agent", userAgent)] }
              w).1 = .ok resp ∧
            env.MarshalIndent [(utf8 "url", .str u),
              (utf8 "format", .str (requestedFormat params)),
              (utf8 "content", .str content)] = .ok json ∧
            (requestedFormat params = utf8 "html" → resp.Body = .ok content)))) := by
  refine ⟨fun err h => Execute_parse_error env input w err h, ?_⟩
  intro params hparse
  refine ⟨fun h => Execute_no_url env input w params hparse h,
    fun h => requestedFormat_default params h,
    fun f h hne => requestedFormat_given params f h hne, ?_⟩
  intro u hurl hne
  refine ⟨fun h1 h2 => Execute_bad_format env input w params u hparse hurl hne h1 h2, ?_⟩
  intro json hok
  by_cases hformat : requestedFormat params = utf8 "html" ∨
      requestedFormat params = utf8 "markdown"
  swap
  · rw [Execute_bad_format env input w params u hparse hurl hne
      (fun h => hformat (Or.inl h)) (fun h => hformat (Or.inr h))] at hok
    simp at hok
  rcases hu : env.urlError u with _ | err
  swap
  · rw [Execute_bad_url env input w params u err hparse hurl hne hformat hu] at hok
    simp at hok
  rw [Execute_accepted env input w params u hparse hurl hne hformat hu] at hok
  rcases hdo : env.Do { Timeout := 30 * Second }
      { Method := utf8 "GET", URL := u, Header := [(utf8 "User-Agent", userAgent)] } w
    with ⟨_ | resp, w'⟩
  · rw [hdo] at hok
    simp at hok
  rw [hdo] at hok
  simp only [] at hok
  by_cases hcode : resp.StatusCode = 200
  swap
  · rw [if_pos hcode] at hok
    simp at hok
  simp only [hcode, ne_eq, not_true_eq_false, if_false] at hok
  rcases hbody : resp.Body with err | body
  · rw [hbody] at hok
    simp at hok
  rw [hbody] at hok
  simp only [] at hok
  by_cases hm : requestedFormat params = utf8 "markdown"
  · simp only [hm, if_true] at hok
    rcases hconv : env.ConvertString body with err | markdown
    · rw [hconv] at hok
      simp at hok
    · rw [hconv] at hok
      simp only [] at hok
      refine ⟨resp, markdown, rfl, ?_, ?_⟩
      · rw [hm]
        exact marshalled_ok env _ json hok
      · intro hh
        rw [hm] at hh
        exact absurd hh (by decide)
  · simp only [hm, if_false] at hok
    exact ⟨resp, body, rfl, marshalled_ok env _ json hok, fun _ => hbody⟩

/-- C15, at concrete inputs: the example request for HTML is answered with the page
unchanged as content, and a text that is not JSON is rejected before any request. -/
theorem Execute_validates_input_witness :
    WebFetchTool.Execute (fetchEnv okReply) (utf8 "not json") [] =
      (.error (utf8 "failed to parse input parameters: invalid character"), []) ∧
    (WebFetchTool.Execute (fetchEnv okReply) htmlInput []).1 =
      .ok (utf8 "\x7b\n  \"url\": \"https://example.com/\",\n  \"format\": \"html\",\n  \"content\": \"<h1>Example Domain</h1>\"\n\x7d") ∧
    (WebFetchTool.Execute (fetchEnv okReply) htmlInput []).2.length = 1 :=
  ⟨(Execute_validates_input (fetchEnv okReply) (utf8 "not json") []).1
      (utf8 "invalid character") (by rfl),
    by rfl, by rfl⟩

/-! ## The handlers -/

theorem SendMessage_override {μ γ χ : Type} (env : HandlerEnv μ γ χ) (call : SendMessageCall χ)
    (m : μ) (req : SendMessageRequest) (config : γ)
    (hbody : call.body = .ok req) (hid : req.LLMConfigID ≠ [])
    (hconfig : env.GetLLMConfig req.LLMConfigID m = .ok config)
    (hok : (env.SetLLMConfig config m).1 = none) :
    Handler.SendMessage env call m =
      if (Handler.SendMessage.stream env call req (env.SetLLMConfig config m).2).returned = true
      then
        match env.currentLLMConfig m with
        | some original =>
          { Handler.SendMessage.stream env call req (env.SetLLMConfig config m).2 with
            manager := (env.SetLLMConfig original
              (Handler.SendMessage.stream env call req (env.SetLLMConfig config m).2).manager).2 }
        | none => Handler.SendMessage.stream env call req (env.SetLLMConfig config m).2
      else Handler.SendMessage.stream env call req (env.SetLLMConfig config m).2 := by
  rcases hs : env.SetLLMConfig config m with ⟨err, m1⟩
  rw [hs] at hok
  simp only [] at hok
  subst hok
  simp only [Handler.SendMessage, hbody, hid, ne_eq, not_false_eq_true, if_true, hconfig, hs]

theorem SendMessage_override_fails {μ γ χ : Type} (env : HandlerEnv μ γ χ)
    (call : SendMessageCall χ) (m : μ) (req : SendMessageRequest) (config : γ)
    (hbody : call.body = .ok req) (hid : req.LLMConfigID ≠ [])
    (hconfig : env.GetLLMConfig req.LLMConfigID m = .ok config)
    (hbad : (env.SetLLMConfig config m).1 ≠ none) :
    (Handler.SendMessage env call m).manager = (env.SetLLMConfig config m).2 ∧
    (Handler.SendMessage env call m).returned = true ∧
    jsonStatuses (Handler.SendMessage env call m).actions = [500] := by
  rcases hs : env.SetLLMConfig config m with ⟨_ | err, m1⟩
  · rw [hs] at hbad
    exact absurd rfl hbad
  · simp only [Handler.SendMessage, hbody, hid, ne_eq, not_false_eq_true, if_true, hconfig, hs]
    exact ⟨trivial, trivial, rfl⟩

theorem stream_manager {μ γ χ : Type} (env : HandlerEnv μ γ χ) (call : SendMessageCall χ)
    (req : SendMessageRequest) (m : μ) (hflush : call.flusher = true) :
    (Handler.SendMessage.stream env call req m).manager =
      env.SendMessage call.sessionID req.Message m := by
  simp [Handler.SendMessage.stream, hflush]

/-- C16 (counterexample). With no configuration set before, a message sent with the
`llm_config_id` `m2`, which is on record: the handler streams and returns, and the
current configuration is then `m2`, not the absent one of before. -/
theorem SendMessage_override_stays_without_original :
    exampleHandlerEnv.GetLLMConfig (utf8 "m2") none = .ok (utf8 "m2") ∧
    (Handler.SendMessage exampleHandlerEnv (exampleSend (utf8 "m2")) none).returned = true ∧
    exampleHandlerEnv.currentLLMConfig
        (Handler.SendMessage exampleHandlerEnv (exampleSend (utf8 "m2")) none).manager =
      some (utf8 "m2") ∧
    exampleHandlerEnv.currentLLMConfig none = none := by
  refine ⟨by rfl, by rfl, by rfl, by rfl⟩

/-- C16 (as amended). For a send-message request whose `llm_config_id` resolves to a
configuration, provided `SetLLMConfig` of the manager makes a configuration the current
one whenever it returns no error and leaves the current one alone whenever it returns
an error: once the handler has returned, the current configuration is the one of
before the request if that was a configuration which can be set again without error;
and if none was set before, the handler restores nothing, the manager being the one
the worker left after the override. -/
theorem SendMessage_restores_binding {μ γ χ : Type} (env : HandlerEnv μ γ χ)
    (call : SendMessageCall χ) (m : μ) (req : SendMessageRequest) (config : γ)
    (hbody : call.body = .ok req) (hid : req.LLMConfigID ≠ [])
    (hconfig : env.GetLLMConfig req.LLMConfigID m = .ok config)
    (hset : ∀ c m', (env.SetLLMConfig c m').1 = none →
      env.currentLLMConfig (env.SetLLMConfig c m').2 = some c)
    (hfail : ∀ c m', (env.SetLLMConfig c m').1 ≠ none →
      env.currentLLMConfig (env.SetLLMConfig c m').2 = env.currentLLMConfig m')
    (hret : (Handler.SendMessage env call m).returned = true) :
    (∀ original, env.currentLLMConfig m = some original →
      (∀ m', (env.SetLLMConfig original m').1 = none) →
      env.currentLLMConfig (Handler.SendMessage env call m).manager =
        env.currentLLMConfig m) ∧
    (env.currentLLMConfig m = none → (env.SetLLMConfig config m).1 = none →
      call.flusher = true →
      (Handler.SendMessage env call m).manager =
        env.SendMessage call.sessionID req.Message (env.SetLLMConfig config m).2) := by
  constructor
  · intro original horiginal hrestore
    by_cases hok : (env.SetLLMConfig config m).1 = none
    · have h := SendMessage_override env call m req config hbody hid hconfig hok
      rw [h] at hret ⊢
      by_cases hr : (Handler.SendMessage.stream env call req
          (env.SetLLMConfig config m).2).returned = true
      · simp only [hr, if_true, horiginal]
        exact hset original _ (hrestore _)
      · rw [if_neg hr] at hret
        exact absurd hret hr
    · rw [(SendMessage_override_fails env call m req config hbody hid hconfig hok).1]
      exact hfail config m hok
  · intro hnone hok hflush
    have h := SendMessage_override env call m req config hbody hid hconfig hok
    rw [h]
    simp only [hnone, ite_self]
    exact stream_manager env call req _ hflush

/-- C16, at a concrete input: with the current configuration `m1`, a message sent with
the `llm_config_id` `m2` is streamed, the handler returns, and the current
configuration is `m1` again. -/
theorem SendMessage_restores_binding_witness :
    (exampleSend (utf8 "m2")).body =
      .ok { Message := utf8 "hi", LLMConfigID := utf8 "m2" } ∧
    exampleHandlerEnv.GetLLMConfig (utf8 "m2") (some (utf8 "m1")) = .ok (utf8 "m2") ∧
    (Handler.SendMessage exampleHandlerEnv (exampleSend (utf8 "m2"))
      (some (utf8 "m1"))).returned = true ∧
    exampleHandlerEnv.currentLLMConfig
        (Handler.SendMessage exampleHandlerEnv (exampleSend (utf8 "m2"))
          (some (utf8 "m1"))).manager =
      exampleHandlerEnv.currentLLMConfig (some (utf8 "m1")) ∧
    exampleHandlerEnv.currentLLMConfig (some (utf8 "m1")) = some (utf8 "m1") :=
  ⟨rfl, by rfl, by rfl,
    (SendMessage_restores_binding exampleHandlerEnv (exampleSend (utf8 "m2"))
      (some (utf8 "m1")) { Message := utf8 "hi", LLMConfigID := utf8 "m2" } (utf8 "m2")
      rfl (by decide) (by rfl) (fun _ _ _ => rfl) (fun _ _ h => absurd rfl h) (by rfl)).1
      (utf8 "m1") rfl (fun _ => rfl),
    rfl⟩

/-- C17 (code at the failing input). With the current configuration `m1`, a message
sent with the `llm_config_id` `missing`, which is not on record, is answered by
`SendMessage` with status 400 and the error `error.configNotFound`, while
`SetLLMConfig` answers the same id with status 404 and the same error; neither changes
the current configuration. -/
theorem SendMessage_config_not_found_is_400 :
    exampleHandlerEnv.GetLLMConfig (utf8 "missing") (some (utf8 "m1")) =
      .error (utf8 "record not found") ∧
    (Handler.SendMessage exampleHandlerEnv (exampleSend (utf8 "missing"))
        (some (utf8 "m1"))).actions =
      [.json 400 [(utf8 "error", .str (utf8 "error.configNotFound"))]] ∧
    (Handler.SendMessage exampleHandlerEnv (exampleSend (utf8 "missing"))
        (some (utf8 "m1"))).manager = some (utf8 "m1") ∧
    (Handler.SetLLMConfig exampleHandlerEnv (.ok (utf8 "missing")) (some (utf8 "m1"))).actions =
      [.json 404 [(utf8 "error", .str (utf8 "error.configNotFound"))]] ∧
    (Handler.SetLLMConfig exampleHandlerEnv (.ok (utf8 "missing")) (some (utf8 "m1"))).manager =
      some (utf8 "m1") := by
  refine ⟨by rfl, by rfl, by rfl, by rfl, by rfl⟩

theorem sseFrame_eq (data : GoString) :
    Sprintf (utf8 "data: %s\n\n") [.str data] = sseFrame data := by
  have hf : utf8 "data: %s\n\n" = utf8 "data: " ++ (37 :: 115 :: utf8 "\n\n") := by rfl
  rw [hf, Sprintf_text _ _ _ (by decide), Sprintf_str, Sprintf_text_end _ (by decide), sseFrame]
  simp

/-- What the loop writes: for every chunk received before the loop ends that
serialises, its frame and a flush, in the order received. -/
theorem streamLoop_actions {χ : Type} (marshal : χ → Except GoString GoString) :
    ∀ events : List (SelectEvent χ),
      (streamLoop marshal events).1 =
        (serialised marshal (receivedChunks events)).flatMap
          (fun data => [.write (sseFrame data), .flush]) := by
  intro events
  induction events with
  | nil => rfl
  | cons ev rest ih =>
    cases ev with
    | cancelled => rfl
    | closed => rfl
    | received chunk =>
      rcases hm : marshal chunk with err | data
      · simp only [streamLoop, hm, receivedChunks, serialised, List.filterMap_cons]
        exact ih
      · simp only [streamLoop, hm, receivedChunks, serialised, List.filterMap_cons,
          List.flatMap_cons, sseFrame_eq]
        rw [ih]
        rfl

theorem streamLoop_after_end {χ : Type} (marshal : χ → Except GoString GoString)
    (ending : SelectEvent χ) (hend : ending = .closed ∨ ending = .cancelled) :
    ∀ pre post : List (SelectEvent χ),
      (streamLoop marshal (pre ++ ending :: post)).1 = (streamLoop marshal pre).1 := by
  intro pre post
  induction pre with
  | nil => rcases hend with rfl | rfl <;> rfl
  | cons ev rest ih =>
    cases ev with
    | cancelled => rfl
    | closed => rfl
    | received chunk =>
      rcases hm : marshal chunk with err | data
      · simp only [List.cons_append, streamLoop, hm]
        exact ih
      · simp only [List.cons_append, streamLoop, hm]
        exact congrArg (fun l => ResponseAction.write _ :: ResponseAction.flush :: l) ih

theorem writtenBytes_append (a b : List ResponseAction) :
    writtenBytes (a ++ b) = writtenBytes a ++ writtenBytes b := by
  induction a with
  | nil => rfl
  | cons x a ih =>
    cases x <;> simp [writtenBytes, ih]

theorem writtenBytes_frames (datas : List GoString) :
    writtenBytes (datas.flatMap (fun data => [.write (sseFrame data), .flush])) =
      (datas.map sseFrame).flatten := by
  induction datas with
  | nil => rfl
  | cons d ds ih =>
    simp only [List.flatMap_cons, List.map_cons, List.flatten_cons, writtenBytes_append, ih]
    simp [writtenBytes]

theorem serialised_all {χ : Type} (marshal : χ → Except GoString GoString) (json : χ → GoString)
    (chunks : List χ) (hall : ∀ chunk ∈ chunks, marshal chunk = .ok (json chunk)) :
    serialised marshal chunks = chunks.map json := by
  induction chunks with
  | nil => rfl
  | cons c cs ih =>
    simp only [serialised, List.filterMap_cons, hall c (List.mem_cons_self _ _), List.map_cons]
    congr 1
    exact ih (fun chunk h => hall chunk (List.mem_cons_of_mem _ h))

theorem SendMessage_actions {μ γ χ : Type} (env : HandlerEnv μ γ χ) (call : SendMessageCall χ)
    (m : μ) :
    (∃ status body, (Handler.SendMessage env call m).actions = [.json status body]) ∨
    (∃ req m', (Handler.SendMessage env call m).actions =
      (Handler.SendMessage.stream env call req m').actions) := by
  unfold Handler.SendMessage
  rcases call.body with err | req
  · exact Or.inl ⟨_, _, rfl⟩
  · simp only []
    by_cases hid : req.LLMConfigID = []
    · simp only [hid, ne_eq, not_true_eq_false, if_false]
      exact Or.inr ⟨req, m, rfl⟩
    · simp only [hid, ne_eq, not_false_eq_true, if_true]
      rcases env.GetLLMConfig req.LLMConfigID m with err | config
      · exact Or.inl ⟨_, _, rfl⟩
      · simp only []
        rcases env.SetLLMConfig config m with ⟨_ | err, m1⟩
        · simp only []
          refine Or.inr ⟨req, m1, ?_⟩
          split_ifs
          · rcases env.currentLLMConfig m with _ | original <;> rfl
          · rfl
        · exact Or.inl ⟨_, _, rfl⟩

theorem stream_actions {μ γ χ : Type} (env : HandlerEnv μ γ χ) (call : SendMessageCall χ)
    (req : SendMessageRequest) (m : μ) :
    (Handler.SendMessage.stream env call req m).actions =
      if call.flusher = true then sseHeaders ++ (streamLoop env.Marshal call.events).1
      else sseHeaders ++ [.json StatusInternalServerError
        [(utf8 "error", .str (utf8 "error.streamingNotSupported"))]] := by
  unfold Handler.SendMessage.stream
  cases call.flusher <;> simp

theorem jsonStatuses_append (a b : List ResponseAction) :
    jsonStatuses (a ++ b) = jsonStatuses a ++ jsonStatuses b := by
  induction a with
  | nil => rfl
  | cons x a ih =>
    cases x <;> simp [jsonStatuses, ih]

theorem jsonStatuses_frames (datas : List GoString) :
    jsonStatuses (datas.flatMap (fun data => [.write (sseFrame data), .flush])) = [] := by
  induction datas with
  | nil => rfl
  | cons d ds ih =>
    simp only [List.flatMap_cons, jsonStatuses_append, ih]
    rfl

/-- C18. The loop of `SendMessage` writes, for the chunks received before the first
round in which the channel is closed or the context is done, taken in the order
received, the frame `data: <json>\n\n` of each chunk that serialises, each frame in
one write followed by a flush; when every such chunk serialises (to `json chunk`) the
bytes written are the concatenation of `data: ` + `json chunk` + `\n\n` over these
chunks. What follows the closing or the cancellation in the rounds changes nothing of
what is written. The handler as a whole either answers with `c.JSON` and writes
nothing, or makes no `c.JSON` call and writes exactly these bytes; it does the latter
for a body that binds, without `llm_config_id`, on a writer that can flush. -/
theorem SendMessage_sse_frames {μ γ χ : Type} (env : HandlerEnv μ γ χ)
    (call : SendMessageCall χ) (m : μ) :
    (streamLoop env.Marshal call.events).1 =
      (serialised env.Marshal (receivedChunks call.events)).flatMap
        (fun data => [.write (sseFrame data), .flush]) ∧
    (∀ json : χ → GoString,
      (∀ chunk ∈ receivedChunks call.events, env.Marshal chunk = .ok (json chunk)) →
      writtenBytes (streamLoop env.Marshal call.events).1 =
        ((receivedChunks call.events).map
          (fun chunk => utf8 "data: " ++ json chunk ++ utf8 "\n\n")).flatten) ∧
    (∀ pre post : List (SelectEvent χ),
      (streamLoop env.Marshal (pre ++ .closed :: post)).1 = (streamLoop env.Marshal pre).1 ∧
      (streamLoop env.Marshal (pre ++ .cancelled :: post)).1 =
        (streamLoop env.Marshal pre).1) ∧
    (jsonStatuses (Handler.SendMessage env call m).actions ≠ [] →
      writtenBytes (Handler.SendMessage env call m).actions = []) ∧
    (jsonStatuses (Handler.SendMessage env call m).actions = [] →
      writtenBytes (Handler.SendMessage env call m).actions =
        writtenBytes (streamLoop env.Marshal call.events).1) ∧
    (∀ req, call.body = .ok req → req.LLMConfigID = [] → call.flusher = true →
      (Handler.SendMessage env call m).actions =
        sseHeaders ++ (streamLoop env.Marshal call.events).1) := by
  have hloop := streamLoop_actions env.Marshal call.events
  have hcases : (jsonStatuses (Handler.SendMessage env call m).actions ≠ [] ∧
        writtenBytes (Handler.SendMessage env call m).actions = []) ∨
      (jsonStatuses (Handler.SendMessage env call m).actions = [] ∧
        writtenBytes (Handler.SendMessage env call m).actions =
          writtenBytes (streamLoop env.Marshal call.events).1) := by
    rcases SendMessage_actions env call m with ⟨status, body, h⟩ | ⟨req, m', h⟩
    · left
      rw [h]
      exact ⟨by simp [jsonStatuses], rfl⟩
    · rw [h, stream_actions]
      by_cases hf : call.flusher = true
      · right
        simp only [hf, if_true, jsonStatuses_append, writtenBytes_append]
        rw [hloop, jsonStatuses_frames]
        exact ⟨rfl, rfl⟩
      · left
        simp only [hf, if_false, jsonStatuses_append, writtenBytes_append]
        exact ⟨by simp [jsonStatuses, sseHeaders], rfl⟩
  refine ⟨hloop, ?_, ?_, ?_, ?_, ?_⟩
  · intro json hall
    rw [hloop, writtenBytes_frames, serialised_all env.Marshal json _ hall, List.map_map]
    rfl
  · intro pre post
    exact ⟨streamLoop_after_end env.Marshal .closed (Or.inl rfl) pre post,
      streamLoop_after_end env.Marshal .cancelled (Or.inr rfl) pre post⟩
  · intro hne
    rcases hcases with h | h
    · exact h.2
    · exact absurd h.1 hne
  · intro he
    rcases hcases with h | h
    · exact absurd he h.1
    · exact h.2
  · intro req hbody hid hflush
    have : Handler.SendMessage env call m = Handler.SendMessage.stream env call req m := by
      simp only [Handler.SendMessage, hbody, hid, ne_eq, not_true_eq_false, if_false]
    rw [this, stream_actions, if_pos hflush]

/-- C18, at a concrete input: two chunks `Hel` and `lo` are received, the channel is
closed, and a further chunk would be ready; the handler writes the two frames, in that
order, and nothing else. -/
theorem SendMessage_sse_frames_witness :
    writtenBytes (Handler.SendMessage exampleHandlerEnv (exampleSend [])
        (some (utf8 "m1"))).actions =
      utf8 "data: \"Hel\"\n\ndata: \"lo\"\n\n" ∧
    (Handler.SendMessage exampleHandlerEnv (exampleSend []) (some (utf8 "m1"))).actions =
      sseHeaders ++ (streamLoop exampleHandlerEnv.Marshal (exampleSend []).events).1 :=
  ⟨by rfl,
    (SendMessage_sse_frames exampleHandlerEnv (exampleSend []) (some (utf8 "m1"))).2.2.2.2.2
      { Message := utf8 "hi", LLMConfigID := [] } rfl rfl rfl⟩

/-! ## The order of the assignments -/

theorem assignmentLog_eq (heap : Heap) (snapshot : AccessibilitySnapshot)
    (hi : snapshot.inputs.Nodup)
    (hfresh : ∀ p ∈ snapshot.clickables ++ snapshot.inputs, (heap p).RefID = []) :
    assignmentLog heap snapshot =
      snapshot.clickables.map (fun p => (p, true)) ++
        (snapshot.inputs.filter (fun p => decide (p ∉ snapshot.clickables))).map
          (fun p => (p, false)) := by
  rw [assignmentLog, assignedInputs_eq_filter heap snapshot.inputs snapshot.clickables hi
    (fun p hp _ => hfresh p (List.mem_append_right _ hp))]

/-- The handle and the map entry of the assignment at position `i` of the log, when no
node is assigned twice. -/
theorem assignRefIDs_at (e : Executor) (heap : Heap) (snapshot : AccessibilitySnapshot)
    (hnd : ((assignmentLog heap snapshot).map Prod.fst).Nodup)
    (i : Nat) (p : NodePtr) (b : Bool) (hip : (assignmentLog heap snapshot)[i]? = some (p, b)) :
    ((assignRefIDs e heap snapshot).2 p).RefID = refIDFor (e.refIDCounter + i + 1) ∧
    (assignRefIDs e heap snapshot).1.refIDMap.lookup (refIDFor (e.refIDCounter + i + 1)) =
      loggedRefData heap (assignmentLog heap snapshot) i := by
  obtain ⟨st, hlog, hres⟩ := assignRefIDs_logged e heap snapshot
  have hlt : i < (assignmentLog heap snapshot).length := by
    by_contra hcon
    rw [List.getElem?_eq_none (Nat.le_of_not_lt hcon)] at hip
    exact absurd hip (by simp)
  have hmem : p ∈ (assignmentLog heap snapshot).map Prod.fst :=
    List.mem_map.mpr ⟨(p, b), List.getElem?_mem hip, rfl⟩
  obtain ⟨j, c, hj1, hj2⟩ := hlog.handle p hmem
  have hji : j = i := index_unique_of_nodup_fst _ hnd j i p c b hj1 hip
  subst hji
  rw [hres]
  refine ⟨?_, ?_⟩
  · simp only []; rw [hj2]
  · exact hlog.stored j hlt

theorem filter_length_map_fst (heap : Heap) (key : GoString) (b : Bool) (l : List NodePtr) :
    ((l.map (fun p => (p, b))).filter
      (fun q => decide (roleNameKey (heap q.1) = key))).length =
    (l.filter (fun q => decide (roleNameKey (heap q) = key))).length := by
  induction l with
  | nil => rfl
  | cons a l ih =>
    simp only [List.map_cons, List.filter_cons]
    by_cases h : roleNameKey (heap a) = key
    · simp [h, ih]
    · simp [h, ih]

/-- The assignment of the clickable at position `i`. -/
theorem assignRefIDs_clickable_at (e : Executor) (heap : Heap)
    (snapshot : AccessibilitySnapshot)
    (hc : snapshot.clickables.Nodup) (hi : snapshot.inputs.Nodup)
    (hfresh : ∀ p ∈ snapshot.clickables ++ snapshot.inputs, (heap p).RefID = [])
    (i : Nat) (p : NodePtr) (hip : snapshot.clickables[i]? = some p) :
    ((assignRefIDs e heap snapshot).2 p).RefID = refIDFor (e.refIDCounter + i + 1) ∧
    (assignRefIDs e heap snapshot).1.refIDMap.lookup (refIDFor (e.refIDCounter + i + 1)) =
      some (clickableRefData (heap p)
        ((snapshot.clickables.take i).filter
          (fun q => decide (roleNameKey (heap q) = roleNameKey (heap p)))).length) := by
  have hnd := (assignmentLog_nodup heap snapshot hc hi hfresh).1
  have hlt := getElem?_lt_length hip
  have hlog : (assignmentLog heap snapshot)[i]? = some (p, true) := by
    rw [assignmentLog, List.getElem?_append_left (by simpa using hlt), List.getElem?_map, hip]
    rfl
  have htake : (assignmentLog heap snapshot).take i =
      (snapshot.clickables.take i).map (fun p => (p, true)) := by
    rw [assignmentLog, List.take_append_of_le_length (by simpa using Nat.le_of_lt hlt),
      List.map_take]
  obtain ⟨h1, h2⟩ := assignRefIDs_at e heap snapshot hnd i p true hlog
  refine ⟨h1, ?_⟩
  rw [h2]
  simp only [loggedRefData, hlog, htake, filter_length_map_fst, if_true]

/-- The assignment of the input at position `j` among the inputs that are not
clickables. -/
theorem assignRefIDs_input_at (e : Executor) (heap : Heap)
    (snapshot : AccessibilitySnapshot)
    (hc : snapshot.clickables.Nodup) (hi : snapshot.inputs.Nodup)
    (hfresh : ∀ p ∈ snapshot.clickables ++ snapshot.inputs, (heap p).RefID = [])
    (j : Nat) (p : NodePtr)
    (hjp : (snapshot.inputs.filter (fun p => decide (p ∉ snapshot.clickables)))[j]? = some p) :
    ((assignRefIDs e heap snapshot).2 p).RefID =
      refIDFor (e.refIDCounter + (snapshot.clickables.length + j) + 1) ∧
    (assignRefIDs e heap snapshot).1.refIDMap.lookup
        (refIDFor (e.refIDCounter + (snapshot.clickables.length + j) + 1)) =
      some (inputRefData (heap p)
        ((snapshot.clickables.filter
            (fun q => decide (roleNameKey (heap q) = roleNameKey (heap p)))).length +
          (((snapshot.inputs.filter (fun p => decide (p ∉ snapshot.clickables))).take j).filter
            (fun q => decide (roleNameKey (heap q) = roleNameKey (heap p)))).length)) := by
  have hnd := (assignmentLog_nodup heap snapshot hc hi hfresh).1
  have heq := assignmentLog_eq heap snapshot hi hfresh
  have hlog : (assignmentLog heap snapshot)[snapshot.clickables.length + j]? =
      some (p, false) := by
    rw [heq, List.getElem?_append_right (by simp)]
    simp only [List.length_map, Nat.add_sub_cancel_left, List.getElem?_map, hjp]
    rfl
  have htake : (assignmentLog heap snapshot).take (snapshot.clickables.length + j) =
      snapshot.clickables.map (fun p => (p, true)) ++
        ((snapshot.inputs.filter (fun p => decide (p ∉ snapshot.clickables))).take j).map
          (fun p => (p, false)) := by
    rw [heq]
    have hlen : snapshot.clickables.length =
        (snapshot.clickables.map (fun p => (p, true))).length := by simp
    rw [hlen, List.take_append, List.map_take]
  obtain ⟨h1, h2⟩ :=
    assignRefIDs_at e heap snapshot hnd (snapshot.clickables.length + j) p false hlog
  refine ⟨h1, ?_⟩
  rw [h2]
  simp only [loggedRefData, hlog, htake, List.filter_append, List.length_append,
    filter_length_map_fst, Bool.false_eq_true, if_false]

/-- C19. For a snapshot whose clickable list and input list are each duplicate-free
and whose nodes start without a handle, with `c` the counter the executor comes with
(`0` when `GetAccessibilitySnapshot` calls `assignRefIDs`): the clickable at position
`i` (from `0`) receives `e<c+i+1>`, stored with the `refData` of a clickable; an input
that is also a clickable ends with the handle the clickable pass gave it; the inputs
that are not clickables receive, in the order of the input list, the handles that
follow those of the clickables, and the `nth` of each counts every clickable of its
key once and the earlier such inputs of its key, so an input that is skipped takes
neither a number nor a count; and the counter ends at `c` plus the number of
clickables plus the number of inputs that are not clickables. -/
theorem assignRefIDs_clickables_then_inputs (e : Executor) (heap : Heap)
    (snapshot : AccessibilitySnapshot)
    (hc : snapshot.clickables.Nodup) (hi : snapshot.inputs.Nodup)
    (hfresh : ∀ p ∈ snapshot.clickables ++ snapshot.inputs, (heap p).RefID = []) :
    (∀ i p, snapshot.clickables[i]? = some p →
      ((assignRefIDs e heap snapshot).2 p).RefID = refIDFor (e.refIDCounter + i + 1) ∧
      (assignRefIDs e heap snapshot).1.refIDMap.lookup (refIDFor (e.refIDCounter + i + 1)) =
        some (clickableRefData (heap p)
          ((snapshot.clickables.take i).filter
            (fun q => decide (roleNameKey (heap q) = roleNameKey (heap p)))).length)) ∧
    (∀ p ∈ snapshot.inputs, p ∈ snapshot.clickables →
      ((assignRefIDs e heap snapshot).2 p).RefID =
        ((assignRefIDs e heap { snapshot with inputs := [] }).2 p).RefID) ∧
    (∀ j p,
      (snapshot.inputs.filter (fun p => decide (p ∉ snapshot.clickables)))[j]? = some p →
      ((assignRefIDs e heap snapshot).2 p).RefID =
        refIDFor (e.refIDCounter + (snapshot.clickables.length + j) + 1) ∧
      (assignRefIDs e heap snapshot).1.refIDMap.lookup
          (refIDFor (e.refIDCounter + (snapshot.clickables.length + j) + 1)) =
        some (inputRefData (heap p)
          ((snapshot.clickables.filter
              (fun q => decide (roleNameKey (heap q) = roleNameKey (heap p)))).length +
            (((snapshot.inputs.filter
                (fun p => decide (p ∉ snapshot.clickables))).take j).filter
              (fun q => decide (roleNameKey (heap q) = roleNameKey (heap p)))).length))) ∧
    (assignRefIDs e heap snapshot).1.refIDCounter =
      e.refIDCounter + (snapshot.clickables.length +
        (snapshot.inputs.filter (fun p => decide (p ∉ snapshot.clickables))).length) := by
  refine ⟨fun i p hip => assignRefIDs_clickable_at e heap snapshot hc hi hfresh i p hip, ?_,
    fun j p hjp => assignRefIDs_input_at e heap snapshot hc hi hfresh j p hjp, ?_⟩
  · intro p _ hpc
    obtain ⟨i, hlt, hget⟩ := List.mem_iff_getElem.mp hpc
    have hip : snapshot.clickables[i]? = some p := by
      rw [List.getElem?_eq_getElem hlt, hget]
    have h1 := (assignRefIDs_clickable_at e heap snapshot hc hi hfresh i p hip).1
    have h2 := (assignRefIDs_clickable_at e heap { snapshot with inputs := [] } hc
      List.nodup_nil (fun q hq => hfresh q (by
        simp only [List.append_nil] at hq
        exact List.mem_append_left _ hq)) i p hip).1
    rw [h1, h2]
  · obtain ⟨st, hlog, hres⟩ := assignRefIDs_logged e heap snapshot
    rw [hres]
    simp only []
    rw [hlog.counter, assignmentLog_eq heap snapshot hi hfresh]
    simp

/-- C19, at a concrete input: in the example snapshot (clickables `0, 2, 3`, inputs
`1, 2`, on a new executor) the clickables receive `e1, e2, e3`, the check box `2`,
also an input, keeps `e2`, and the text box `1` receives `e4`. -/
theorem assignRefIDs_clickables_then_inputs_witness :
    exampleSnapshot.clickables.Nodup ∧ exampleSnapshot.inputs.Nodup ∧
    (∀ p ∈ exampleSnapshot.clickables ++ exampleSnapshot.inputs, (exampleHeap p).RefID = []) ∧
    (assignRefIDs newExecutor exampleHeap exampleSnapshot).1.refIDCounter =
      newExecutor.refIDCounter + (exampleSnapshot.clickables.length +
        (exampleSnapshot.inputs.filter
          (fun p => decide (p ∉ exampleSnapshot.clickables))).length) ∧
    [0, 2, 3, 1].map (fun p => ((assignRefIDs newExecutor exampleHeap exampleSnapshot).2 p).RefID) =
      [utf8 "e1", utf8 "e2", utf8 "e3", utf8 "e4"] ∧
    (assignRefIDs newExecutor exampleHeap exampleSnapshot).1.refIDCounter = 4 :=
  ⟨by decide, by decide, by decide,
    (assignRefIDs_clickables_then_inputs newExecutor exampleHeap exampleSnapshot
      (by decide) (by decide) (by decide)).2.2.2,
    by rfl, by rfl⟩

/-! ## The counters of a batch -/

/-- C20 (code at the failing input). On a browser where every verb succeeds, the batch
of a navigation, an unknown operation with `stop_on_error` and a click runs the first
two operations and records their two results, one with `success = true` and one
without; the counters are `success = 1` and `failed = 2`, so `failed` is not the
number of recorded results that did not succeed and `success + failed` is `3`. The
same three operations without `stop_on_error` all run, and the counters `2` and `1`
agree with the three results. -/
theorem ExecuteBatch_stop_overwrites_failed :
    (ExecuteBatch successfulBrowser exampleBatch 0).1.1.Operations.map
        OperationResult.Success = [true, false] ∧
    (ExecuteBatch successfulBrowser exampleBatch 0).1.1.Success = 1 ∧
    (ExecuteBatch successfulBrowser exampleBatch 0).1.1.Failed = 2 ∧
    ((ExecuteBatch successfulBrowser exampleBatch 0).1.1.Operations.filter
        (fun r => !r.Success)).length = 1 ∧
    (ExecuteBatch successfulBrowser exampleBatch 0).1.1.Operations.length = 2 ∧
    (ExecuteBatch successfulBrowser
        (exampleBatch.map (fun op => { op with StopOnError := false })) 0).1.1.Operations.map
      OperationResult.Success = [true, false, true] ∧
    (ExecuteBatch successfulBrowser
        (exampleBatch.map (fun op => { op with StopOnError := false })) 0).1.1.Success = 2 ∧
    (ExecuteBatch successfulBrowser
        (exampleBatch.map (fun op => { op with StopOnError := false })) 0).1.1.Failed = 1 := by
  refine ⟨by rfl, by rfl, by rfl, by rfl, by rfl, by rfl, by rfl, by rfl⟩

/-! ## Failure of a snapshot call -/

/-- C21. `GetAccessibilitySnapshot` without an active page returns the error `no
active page`, and with an active page, no cached snapshot younger than the TTL and a
fetch that fails it returns the error of the fetch; in both cases the executor (map,
counter, cached snapshot, timestamp and TTL) and the nodes are exactly those of before
the call. These are the only calls that return an error, and every call that returns
an error returns no snapshot and leaves executor and nodes as they were. -/
theorem GetAccessibilitySnapshot_atomic_on_failure (e : Executor) (heap : Heap)
    (call : SnapshotCall) :
    (call.activePage = false →
      GetAccessibilitySnapshot e heap call = ((e, heap), .error (utf8 "no active page"))) ∧
    (∀ err, call.activePage = true →
      ¬ (e.refIDSnapshot ≠ none ∧ call.now - e.refIDTimestamp < e.refIDTTL) →
      call.fetched = .error err →
      GetAccessibilitySnapshot e heap call = ((e, heap), .error err)) ∧
    (∀ err, (GetAccessibilitySnapshot e heap call).2 = .error err →
      (GetAccessibilitySnapshot e heap call).1 = (e, heap) ∧
      (call.activePage = false ∨
        (¬ (e.refIDSnapshot ≠ none ∧ call.now - e.refIDTimestamp < e.refIDTTL) ∧
          call.fetched = .error err))) := by
  refine ⟨fun hpage => GetAccessibilitySnapshot_no_page e heap call hpage, ?_, ?_⟩
  · intro err hpage hstale hfetch
    rw [GetAccessibilitySnapshot_stale e heap call hpage hstale,
      GetAccessibilitySnapshot_refresh_error e heap call err hfetch]
  · intro err herr
    cases hpage : call.activePage with
    | false =>
      rw [GetAccessibilitySnapshot_no_page e heap call hpage]
      exact ⟨rfl, Or.inl rfl⟩
    | true =>
      by_cases hvalid : e.refIDSnapshot ≠ none ∧ call.now - e.refIDTimestamp < e.refIDTTL
      · obtain ⟨cached, hc⟩ := Option.ne_none_iff_exists'.mp hvalid.1
        rw [GetAccessibilitySnapshot_cached e heap call cached hpage hc hvalid.2] at herr
        simp at herr
      · rcases hf : call.fetched with err' | snapshot
        · rw [GetAccessibilitySnapshot_stale e heap call hpage hvalid,
            GetAccessibilitySnapshot_refresh_error e heap call err' hf] at herr ⊢
          have : err' = err := by simpa using herr
          subst this
          exact ⟨rfl, Or.inr ⟨hvalid, rfl⟩⟩
        · rw [GetAccessibilitySnapshot_refresh e heap call snapshot hpage
            (fun cached hc h => hvalid ⟨by simp [hc], h⟩) hf] at herr
          simp at herr

/-- C21, at concrete inputs: on the example executor, whose cache has expired at `500`,
a call whose fetch fails and a call without an active page return their errors and
leave the executor and the nodes as they were. -/
theorem GetAccessibilitySnapshot_atomic_on_failure_witness :
    GetAccessibilitySnapshot exampleExecutor exampleHeap failingCall =
      ((exampleExecutor, exampleHeap), .error (utf8 "eval failed")) ∧
    GetAccessibilitySnapshot exampleExecutor exampleHeap
        { exampleCall with activePage := false } =
      ((exampleExecutor, exampleHeap), .error (utf8 "no active page")) :=
  ⟨(GetAccessibilitySnapshot_atomic_on_failure exampleExecutor exampleHeap failingCall).2.1
      (utf8 "eval failed") rfl (by decide) rfl,
    (GetAccessibilitySnapshot_atomic_on_failure exampleExecutor exampleHeap
      { exampleCall with activePage := false }).1 rfl⟩

/-! ## Truncation and characters -/

/-- C22 (code at the failing inputs). The button name `アカウントを作成` is valid UTF-8
of 8 characters in 24 bytes; as that is more than 20 bytes, the expression is the
contains format filled with the first 20 bytes of the name, which are the first six
characters followed by the first two of the three bytes of `作`: the inserted prefix is
not valid UTF-8, is not a character-wise prefix of the name, and neither is the
expression valid UTF-8. The same happens to the link name
`FAQ よくある質問と回答はこちら` (43 bytes), cut after 30 bytes inside `答`. Cut after
18 bytes, at the end of the sixth character, the button name would be a valid
character-wise prefix. -/
theorem buildXPathFromRole_truncation_splits_character :
    ValidString accountLabel = true ∧ accountLabel.length = 24 ∧
    (runesFuel accountLabel.length accountLabel).length = 8 ∧
    buildXPathFromRole id (utf8 "button") accountLabel =
      Sprintf buttonContainsFormat (strArgs 7 (accountLabel.take 20)) ∧
    accountLabel.take 20 = utf8 "アカウントを" ++ [0xE4, 0xBD] ∧
    ValidString (accountLabel.take 20) = false ∧
    isCharacterPrefix (accountLabel.take 20) accountLabel = false ∧
    ValidString (buildXPathFromRole id (utf8 "button") accountLabel) = false ∧
    ValidString (accountLabel.take 18) = true ∧
    isCharacterPrefix (accountLabel.take 18) accountLabel = true ∧
    ValidString questionsLabel = true ∧ questionsLabel.length = 43 ∧
    buildXPathFromRole id (utf8 "link") questionsLabel =
      Sprintf linkContainsFormat (strArgs 5 (questionsLabel.take 30)) ∧
    questionsLabel.take 30 = utf8 "FAQ よくある質問と回" ++ [0xE7, 0xAD] ∧
    ValidString (questionsLabel.take 30) = false ∧
    isCharacterPrefix (questionsLabel.take 30) questionsLabel = false ∧
    ValidString (buildXPathFromRole id (utf8 "link") questionsLabel) = false := by
  refine ⟨by rfl, by rfl, by rfl, by rfl, by rfl, by rfl, by rfl, by rfl, by rfl, by rfl,
    by rfl, by rfl, by rfl, by rfl, by rfl, by rfl, by rfl⟩

end BrowserWing
